import Mathlib

/-!
Taxi price aggregation service: the request-evaluation pipeline.

A shallow embedding of the Go sources of the service (packages `product`,
`taxi/service`, `taxi/provider`) and theorems about it.

Modelling conventions:

* Go `int` values are `Int`; a nil-able pointer `*T` is `Option T`; a slice is a `List`.
* A `float64` is modelled by the exact rational it denotes (`ℚ`): every finite
  double is a rational. Rounded operations on doubles are parameters with a
  contract: the product `priceLimit` of `getOptimalElse` (`FloatMul`) and the
  mean of the two estimates of an Uber price (`FloatMean`). The mean of the two
  integer estimates of a Gett price is kept exact: the double differs from it
  only beyond 2^53 and has the same sign. The conversion `int(x)` is the 64-bit
  one (`floatToInt`). Infinities and not-a-number values are outside the model.
* A run-time fault of the Go code (nil dereference, index out of range) is the
  value `none` of an `Option` result.
* An `error` is modelled by its root cause (what `errors.Cause` returns) and the
  list of messages wrapped around it.
* Library routines whose code is not part of the repository are parameters:
  the sort routine is any function meeting the contract of `sort.Sort`
  (`PriceSorter`), the string and URL routines are the fields of `GoLib`, and
  the pseudo-random draw is an explicit argument `rnd`.
* An adapter, the catalog and the router are modelled by what they answer to a
  request; the upstream HTTP answers are inputs of the provider adapters.
* Goroutines that append to a shared slice under a mutex are modelled by the
  sequential run in the order the goroutines were started; the statements about
  the collected records are up to permutation.
* Logging and metrics counters are not modelled.
-/

namespace Taxi

/-! ## Errors -/

/-- Root causes of errors: the sentinel errors declared in the packages, and
`other` for any error created elsewhere (transport, parsing, joined messages). -/
inductive Cause where
  | ErrNoAPIData
  | ErrTaxiReqEmpty
  | ErrInvalidPrice
  | ErrInvalidTime
  | ErrRegionOutOfService
  | ErrNoURL
  | ErrNoProducts
  | ErrImageNotFound
  | ErrProduct
  | ErrRecordEmpty
  | ErrNotPoint
  | ErrMosesEmptyResult
  | ErrMosesInvalidResult
  | other (msg : String)
deriving DecidableEq, Repr

/-- An error value: its root cause and the messages wrapped around it, the
outermost first. -/
structure Error where
  cause : Cause
  context : List String
deriving DecidableEq, Repr

/-- The root-cause sentinel itself, with nothing wrapped around it. -/
def Error.new (c : Cause) : Error := { cause := c, context := [] }

/-- `errors.Wrap(err, msg)`: the cause is kept, the message is added. -/
def Error.Wrap (e : Error) (msg : String) : Error :=
  { e with context := msg :: e.context }

/-! ## Data model (package `product`) -/

/-- The parts of a parsed `url.URL` that the code reads. -/
structure URL where
  Scheme : String
  Host : String
  Path : String
  RawQuery : String
deriving DecidableEq, Repr

/-- Library routines used by the code. `urlParse` is `url.Parse`, `queryEncode`
is `link.Query().Encode()` applied to the raw query, `urlString` is
`(*url.URL).String`, `stringsReplace s old new` is `strings.Replace(s, old, new, -1)`
and `toLower` is `strings.ToLower`. -/
structure GoLib where
  urlParse : String → Except String URL
  queryEncode : String → String
  urlString : URL → String
  stringsReplace : String → String → String → String
  toLower : String → String

/-- Type `site` of product.go. -/
structure site where
  Value : Option String
  Text : Option String
deriving DecidableEq, Repr

/-- Type `storeURL` of product.go. -/
structure storeURL where
  ID : String
  URL : String
deriving DecidableEq, Repr

/-- Type `storeURLs` of product.go. -/
structure storeURLs where
  Ios : Option storeURL
  Android : Option storeURL
deriving DecidableEq, Repr

/-- Type `phone` of product.go. -/
structure phone where
  Value : Option String
  Text : Option String
deriving DecidableEq, Repr

/-- Type `Operator` of product.go. -/
structure Operator where
  BranchID : Option String
  URL : Option String
  Image : Option String
  Site : Option site
  BackgroundColor : String
  ShortTitle : Option String
  StoreURLs : Option storeURLs
  ID : Option Int
  TextColor : String
  Title : Option String
  OrgID : Option String
  Phone : Option phone
  IsOptimal : Bool
deriving DecidableEq, Repr

/-- Type `Product` of product.go. -/
structure Product where
  ID : Int
  RegionID : Int
  Name : String
  Tariffs : List String
  Title : String
  ShortTitle : Option String
  SiteCaption : Option String
  SiteValue : Option String
  AppURLTemplate : Option String
  PhoneCaption : Option String
  PhoneValue : Option String
  AndroidAppURL : Option String
  AndroidAppID : Option String
  IosAppURL : Option String
  IosAppID : Option String
  APIOrgID : Int
  APIID : Int
  APIData : Option String
  Rating : Option ℚ
  AvgEta : Option Int
  ProviderName : String
  CurrencyCode : Option String
  ImageURL : Option URL
  IsOptimal : Bool
deriving DecidableEq, Repr

/-- A `map[string]string` of template variables, listed in the order in which
the `range` loop of `replace` visits it. -/
abbrev TemplateVars := List (String × String)

/-- Constant `textColor`. -/
def textColor : String := "#000"

/-- Constant `backgroundColor`. -/
def backgroundColor : String := "#A0C305"

/-- Method `Product.IsGoodTariff`: the loop over `p.Tariffs`. -/
def IsGoodTariffLoop (tariff : String) : List String → Bool
  | [] => false
  | pTariff :: rest => if pTariff = tariff then true else IsGoodTariffLoop tariff rest

/-- Method `Product.IsGoodTariff`. -/
def Product.IsGoodTariff (p : Product) (tariff : String) : Bool :=
  if p.Tariffs.length = 0 then true else IsGoodTariffLoop tariff p.Tariffs

/-- Function `replace` of product.go. -/
def replace (L : GoLib) (urlReplaces : TemplateVars) (baseStr : String) : String :=
  urlReplaces.foldl (fun modifiedStr kv => L.stringsReplace modifiedStr kv.1 kv.2) baseStr

/-- Function `makeLink` of product.go. -/
def makeLink (L : GoLib) (linkBase : String) (urlReplaces : TemplateVars) : Except Error URL :=
  match L.urlParse (replace L urlReplaces linkBase) with
  | .error msg => .error (Error.new (.other msg))
  | .ok link => .ok { link with RawQuery := L.queryEncode link.RawQuery }

/-- Function `newSite` of product.go. -/
def newSite (value text : Option String) : Option site :=
  match value with
  | some v => if v ≠ "" then some { Value := value, Text := text } else none
  | none => none

/-- Function `newPhone` of product.go. -/
def newPhone (value text : Option String) : Option phone :=
  match value with
  | some v => if v ≠ "" then some { Value := value, Text := text } else none
  | none => none

/-- Function `newStoreURL` of product.go. The outer `none` is the nil
dereference of `*ID`. -/
def newStoreURL (L : GoLib) (ID someURLStr : Option String) (urlReplaces : TemplateVars) :
    Option (Option storeURL × Option Error) :=
  match someURLStr with
  | some u =>
    if u ≠ "" then
      match makeLink L u urlReplaces with
      | .error err => some (none, some err)
      | .ok someURL =>
        match ID with
        | none => none
        | some id => some (some { ID := id, URL := L.urlString someURL }, none)
    else some (none, some ((Error.new .ErrNoURL).Wrap "Store URL"))
  | none => some (none, some ((Error.new .ErrNoURL).Wrap "Store URL"))

/-- The message of a root cause, as given to `errors.New`. -/
def Cause.text : Cause → String
  | .ErrNoAPIData => "No data from providers for this taxi request"
  | .ErrTaxiReqEmpty => "Taxi request point is empty"
  | .ErrInvalidPrice => "Invalid price"
  | .ErrInvalidTime => "Invalid time"
  | .ErrRegionOutOfService => "Provider does not service this region"
  | .ErrNoURL => "No URL"
  | .ErrNoProducts => "Products not found in Cache"
  | .ErrImageNotFound => "Cannot find image in map"
  | .ErrProduct => "Error when creating product from record"
  | .ErrRecordEmpty => "DB record: required feild is empty"
  | .ErrNotPoint => "Cannot parse POINT from centroid string"
  | .ErrMosesEmptyResult => "Moses returned empty result"
  | .ErrMosesInvalidResult => "Moses returned invalid result"
  | .other msg => msg

/-- Method `Error()` of a wrapped error: each wrapped message, followed by a
colon, then the message of the cause. Only used by `WrapErrorSlice`. -/
def Error.text (e : Error) : String :=
  e.context.foldr (fun msg rest => msg ++ ": " ++ rest) e.cause.text

/-- Function `WrapErrorSlice` of package errorswrapper. -/
def WrapErrorSlice (errs : List (Option Error)) : Option Error :=
  let message := errs.foldl
    (fun message err => match err with
      | none => message
      | some e => message ++ "\n" ++ e.text) ""
  if message = "" then none else some (Error.new (.other message))

/-- Function `newStoreURLs` of product.go. -/
def newStoreURLs (L : GoLib) (iosAppID iosAppURL andrAppID andrAppURL : Option String)
    (urlReplaces : TemplateVars) : Option (Option storeURLs × Option Error) :=
  match newStoreURL L iosAppID iosAppURL urlReplaces with
  | none => none
  | some (ios, errIos) =>
    match newStoreURL L andrAppID andrAppURL urlReplaces with
    | none => none
    | some (android, errAndr) =>
      if ios ≠ none ∨ android ≠ none then
        some (some { Ios := ios, Android := android }, WrapErrorSlice [errAndr, errIos])
      else some (none, WrapErrorSlice [errAndr, errIos])

/-- Method `Product.GetOperator`. The outer `none` is a fault of `newStoreURLs`. -/
def Product.GetOperator (L : GoLib) (p : Product) (displayName : String)
    (urlReplace : TemplateVars) : Option (Operator × Option Error) :=
  let apiID := toString p.APIID
  let apiOrgID := toString p.APIOrgID
  let deeplink : Option String × List (Option Error) :=
    match p.AppURLTemplate with
    | some t =>
      if t ≠ "" then
        match makeLink L t urlReplace with
        | .error deeplinkErr => (none, [some deeplinkErr])
        | .ok d => (some (d.Scheme ++ "://" ++ d.Host ++ d.Path ++ "?" ++ d.RawQuery), [])
      else (none, [])
    | none => (none, [])
  let imageURLStr := p.ImageURL.map L.urlString
  match newStoreURLs L p.IosAppID p.IosAppURL p.AndroidAppID p.AndroidAppURL urlReplace with
  | none => none
  | some (stURLs, errStoreURLs) =>
    let errorsOperator := match errStoreURLs with
      | some e => deeplink.2 ++ [some e]
      | none => deeplink.2
    let displayName := if displayName = "" then p.Title else displayName
    some ({ IsOptimal := p.IsOptimal
            URL := deeplink.1
            Site := newSite p.SiteValue p.SiteCaption
            StoreURLs := stURLs
            Image := imageURLStr
            BranchID := some apiID
            OrgID := some apiOrgID
            BackgroundColor := backgroundColor
            TextColor := textColor
            ShortTitle := p.ShortTitle
            ID := some p.ID
            Title := some displayName
            Phone := newPhone p.PhoneValue p.PhoneCaption }, WrapErrorSlice errorsOperator)

/-! ## Data model (package `service`) -/

/-- Type `APIData` of service.go. -/
structure APIData where
  ProductID : String
  TariffName : String
  DisplayName : String
  PriceMin : Int
  PriceMax : Int
  PriceMean : ℚ
  Eta : Int
  TemplateVars : TemplateVars
deriving DecidableEq, Repr

/-- Type `priceRanges` of service_record.go. -/
structure priceRanges where
  Min : Option Int
  Max : Option Int
deriving DecidableEq, Repr

/-- Type `serviceRecord` of service_record.go. -/
structure serviceRecord where
  AvgEta : Option Int
  Price : Int
  PriceRanges : Option priceRanges
  Rating : Option ℚ
  Operator : Operator
  Eta : Option Int
  CurrencyCode : Option String
deriving DecidableEq, Repr

/-- Function `newPriceRanges` of service_record.go. -/
def newPriceRanges (min max : Int) : Option priceRanges :=
  if min > 0 ∧ max > 0 then some { Min := some min, Max := some max } else none

/-- The conversion `int(x)` of a `float64` to the 64-bit `int`: the fractional
part is dropped. For a value that `int` cannot hold, the language leaves the
result to the implementation; the model takes what the conversion of amd64
returns, the least value of the type. -/
def floatToInt (x : ℚ) : Int :=
  let truncated := Int.tdiv x.num x.den
  if -2 ^ 63 ≤ truncated ∧ truncated < 2 ^ 63 then truncated else -2 ^ 63

/-- Function `newServiceRecord` of service_record.go. The outer `none` is a
fault of `GetOperator`. -/
def newServiceRecord (L : GoLib) (apiData : APIData) (prod : Product) :
    Option (serviceRecord × Option Error) :=
  let eta : Option Int := if apiData.Eta > 0 then some apiData.Eta else none
  let rating : Option ℚ :=
    match prod.Rating with
    | some r => if r > 0 then prod.Rating else none
    | none => none
  match prod.GetOperator L apiData.DisplayName apiData.TemplateVars with
  | none => none
  | some (operator, err) =>
    some ({ AvgEta := prod.AvgEta
            Eta := eta
            Price := floatToInt apiData.PriceMean
            PriceRanges := newPriceRanges apiData.PriceMin apiData.PriceMax
            Rating := rating
            CurrencyCode := prod.CurrencyCode
            Operator := operator }, err)

/-! ## Selection of the optimal offer -/

/-- Contract of the `float64` product `x * y`, the one rounded operation whose
result decides a comparison in `getOptimalElse`: `mul x y` is the double the
hardware returns. Rounding to nearest is monotone and keeps a value that is
itself a double, so the product of `x ≥ 0` by `y ≥ 1` is not below `x`. -/
structure FloatMul where
  mul : ℚ → ℚ → ℚ
  le_mul : ∀ x y : ℚ, 0 ≤ x → 1 ≤ y → x ≤ mul x y

/-- One product meeting the contract: the exact one (no rounding). -/
def exactMul : FloatMul where
  mul := fun x y => x * y
  le_mul := fun _ _ hx hy => le_mul_of_one_le_right hx hy

/-- Contract of `sort.Sort(byPrice(records))`: the routine is not stable, so any
rearrangement of the slice in which no later record is `Less` than an earlier
one may result. `sort` is the content of the slice after the call. -/
structure PriceSorter where
  sort : List serviceRecord → List serviceRecord
  perm : ∀ l, (sort l).Perm l
  sorted : ∀ l, (sort l).Pairwise (fun a b => a.Price ≤ b.Price)

/-- Method `byPrice.Less` negated and flipped: `b` is not less than `a`. -/
def priceLE (a b : serviceRecord) : Prop := a.Price ≤ b.Price

instance : DecidableRel priceLE := fun a b => inferInstanceAs (Decidable (a.Price ≤ b.Price))

instance : IsTotal serviceRecord priceLE := ⟨fun a b => Int.le_total a.Price b.Price⟩

instance : IsTrans serviceRecord priceLE := ⟨fun _ _ _ h1 h2 => Int.le_trans h1 h2⟩

/-- One sort routine meeting the contract: insertion sort by price. -/
def insertionSorter : PriceSorter where
  sort := List.insertionSort priceLE
  perm := List.perm_insertionSort priceLE
  sorted := List.sorted_insertionSort priceLE

/-- Method `r.Intn(n)` on a generator whose next raw draw is `rnd`: a value of
`[0, n)`. -/
def Intn (rnd n : Nat) : Nat := rnd % n

/-- First loop of `getOptimalElse`: the index of the first record whose operator
is flagged optimal, `-1` when the loop ends without a `break`. -/
def optimalLoop (isOptimalInRegion : Bool) : List serviceRecord → Nat → Int
  | [], _ => -1
  | rec :: rest, ind =>
    if rec.Operator.IsOptimal && isOptimalInRegion then (ind : Int)
    else optimalLoop isOptimalInRegion rest (ind + 1)

/-- Second loop of `getOptimalElse`: `suitableCandidates` after the loop, given
its value and the index `k` on entry. -/
def suitableLoop (priceLimit : ℚ) : List serviceRecord → Nat → Nat → Nat
  | [], _, suitableCandidates => suitableCandidates
  | rec :: rest, k, suitableCandidates =>
    if (rec.Price : ℚ) ≤ priceLimit then suitableLoop priceLimit rest (k + 1) k
    else suitableCandidates

/-- Third loop of `getOptimalElse`: `elses` after the loop. -/
def elsesLoop (optimalCandidateInd : Int) : List serviceRecord → Nat → List serviceRecord →
    List serviceRecord
  | [], _, elses => elses
  | rec :: rest, ind, elses =>
    if (ind : Int) = optimalCandidateInd then elsesLoop optimalCandidateInd rest (ind + 1) elses
    else elsesLoop optimalCandidateInd rest (ind + 1) (elses ++ [rec])

/-- The end of `getOptimalElse`, from `elses := make(...)` on. The result `none`
is an index out of range. -/
def partitionAt (records : List serviceRecord) (optimalCandidateInd : Int) :
    Option (List serviceRecord × List serviceRecord) :=
  let elses := elsesLoop optimalCandidateInd records 0 []
  if optimalCandidateInd = -1 then some ([], elses)
  else if optimalCandidateInd < 0 then none
  else
    match records[optimalCandidateInd.toNat]? with
    | some rec => some ([rec], elses)
    | none => none

/-- Method `Service.getOptimalElse`. The result is `(optimal, else)`; `none` is
the index fault of `records[0]` on an empty slice. -/
def getOptimalElse (F : FloatMul) (S : PriceSorter) (rnd : Nat) (records : List serviceRecord)
    (isOptimalInRegion : Bool) (priceCoeff : ℚ) :
    Option (List serviceRecord × List serviceRecord) :=
  let records := S.sort records
  let optimalCandidateInd : Int :=
    if isOptimalInRegion then optimalLoop isOptimalInRegion records 0 else -1
  if !isOptimalInRegion then
    match records with
    | [] => none
    | first :: _ =>
      let priceLimit : ℚ := F.mul (first.Price : ℚ) priceCoeff
      let suitableCandidates := suitableLoop priceLimit records 0 0
      let randInd : Nat :=
        if suitableCandidates > 0 then Intn rnd (suitableCandidates + 1) else 0
      partitionAt records (randInd : Int)
  else partitionAt records optimalCandidateInd

/-- The index chosen by `getOptimalElse` in the branch `!isOptimalInRegion`, for
the sorted slice `s` whose first record is `first`. -/
def pickedIndex (F : FloatMul) (rnd : Nat) (priceCoeff : ℚ) (s : List serviceRecord)
    (first : serviceRecord) : Nat :=
  if suitableLoop (F.mul (first.Price : ℚ) priceCoeff) s 0 0 > 0
  then Intn rnd (suitableLoop (F.mul (first.Price : ℚ) priceCoeff) s 0 0 + 1) else 0

/-! ## Requests, adapters and the fan-out (service.go) -/

/-- Type `Point` of request.go. -/
structure Point where
  Lat : ℚ
  LatStr : String
  Lon : ℚ
  LonStr : String
  Address : String
  Area : String
deriving DecidableEq, Repr

/-- Type `Request` of request.go. -/
structure Request where
  ReqID : String
  RegionID : Int
  Point1 : Point
  Point2 : Point
  OnlyAPI : Bool
deriving DecidableEq, Repr

/-- Interface `APIDataGetter`: the name of the adapter and what one call of
`GetAPIData` returns for a request, the offers and the error. -/
structure APIDataGetter where
  APIName : String
  GetAPIData : Request → List APIData × Option Error

/-- Interface `ProductsCache`. -/
structure ProductsCache where
  GetProducts : Int → List Product × Option Error
  IsOK : Bool

/-- Interface `DistanceTimeService`: distance, time and error of one call. -/
structure DistanceTimeService where
  DistanceTime : Request → Int × Int × Option Error

/-- Type `Service` of service.go, without the logger, the metrics collector and
the HTTP requester; `apisMap` is the map from provider name to adapter. -/
structure Service where
  apisMap : String → Option APIDataGetter
  prodCache : ProductsCache
  distTimeSrv : DistanceTimeService

/-- First loop of `requestOne`: `filteredTaxiData` after the loop. -/
def filterLoop (prod : Product) : List APIData → List APIData → List APIData
  | [], filteredTaxiData => filteredTaxiData
  | tData :: rest, filteredTaxiData =>
    if prod.IsGoodTariff tData.TariffName then filterLoop prod rest (filteredTaxiData ++ [tData])
    else filterLoop prod rest filteredTaxiData

/-- Second loop of `requestOne`: the shared slice `*result` after the loop; the
error of `newServiceRecord` is only logged. `none` is a fault of
`newServiceRecord`. -/
def renderLoop (L : GoLib) (prod : Product) : List APIData → List serviceRecord →
    Option (List serviceRecord)
  | [], result => some result
  | tData :: rest, result =>
    match newServiceRecord L tData prod with
    | none => none
    | some (serviceRecord, _) => renderLoop L prod rest (result ++ [serviceRecord])

/-- Method `Service.requestOne`: the shared slice `*result` after the call,
given its content before. The error of the adapter only drives the log and the
counters, which are not modelled. -/
def requestOne (L : GoLib) (taxiReq : Request) (taxiAPI : APIDataGetter) (prod : Product)
    (result : List serviceRecord) : Option (List serviceRecord) :=
  let taxiData := (taxiAPI.GetAPIData taxiReq).1
  let filteredTaxiData := filterLoop prod taxiData []
  if filteredTaxiData.length = 0 ∧ taxiData.length ≠ 0 then some result
  else renderLoop L prod filteredTaxiData result

/-- Loop of `requestProviders` with the goroutines it starts, run in the order
of the products: the slice `serviceRecords` after `wg.Wait()`. -/
def providersLoop (L : GoLib) (apisMap : String → Option APIDataGetter) (taxiReq : Request) :
    List Product → List serviceRecord → Option (List serviceRecord)
  | [], serviceRecords => some serviceRecords
  | prod :: rest, serviceRecords =>
    match apisMap prod.ProviderName with
    | none => providersLoop L apisMap taxiReq rest serviceRecords
    | some taxiAPI =>
      match requestOne L taxiReq taxiAPI prod serviceRecords with
      | none => none
      | some serviceRecords2 => providersLoop L apisMap taxiReq rest serviceRecords2

/-- Method `Service.requestProviders`. -/
def requestProviders (L : GoLib) (apisMap : String → Option APIDataGetter) (taxiReq : Request)
    (prods : List Product) : Option (List serviceRecord × Option Error) :=
  match providersLoop L apisMap taxiReq prods [] with
  | none => none
  | some serviceRecords =>
    if serviceRecords.length = 0 then
      some (serviceRecords, some ((Error.new .ErrNoAPIData).Wrap "All providers"))
    else some (serviceRecords, none)

/-- Loop of `getServiceRecords` that computes `isOptimalInRegion`. -/
def isOptimalLoop : List Product → Bool
  | [] => false
  | prod :: rest => if prod.IsOptimal then true else isOptimalLoop rest

/-- Method `Service.getServiceRecords`: the values of `*optimal`, `*elses` and
`*errResult` after the call (they are nil before it). -/
def getServiceRecords (L : GoLib) (F : FloatMul) (S : PriceSorter) (rnd : Nat) (s : Service)
    (req : Request) (priceCoeff : ℚ) :
    Option (List serviceRecord × List serviceRecord × Option Error) :=
  match (s.prodCache.GetProducts req.RegionID).2 with
  | some errProds => some ([], [], some (errProds.Wrap "Products not found for region"))
  | none =>
    let prods := (s.prodCache.GetProducts req.RegionID).1
    let isOptimalInRegion := isOptimalLoop prods
    match requestProviders L s.apisMap req prods with
    | none => none
    | some (_, some errProviders) =>
      some ([], [], some (errProviders.Wrap "Error when request taxiAPIs"))
    | some (serviceRecords, none) =>
      match getOptimalElse F S rnd serviceRecords isOptimalInRegion priceCoeff with
      | none => none
      | some (optimalLocal, elsesLocal) => some (optimalLocal, elsesLocal, none)

/-- Type `meta` of meta.go. -/
structure meta where
  Distance : Option Int
  Time : Option Int
deriving DecidableEq, Repr

/-- Method `meta.isEmpty`; `none` is a nil dereference. -/
def meta.isEmpty (m : meta) : Option Bool :=
  if m.Distance = none ∧ m.Time = none then some true
  else
    match m.Distance with
    | none => none
    | some d =>
      if d = 0 then
        match m.Time with
        | none => none
        | some t => some (decide (t = 0))
      else some false

/-- Function `newMeta` of meta.go. -/
def newMeta (distance time : Int) : meta := { Distance := some distance, Time := some time }

/-- Method `Service.getMeta`: the values of `*result` and `*errResult` after the
call. -/
def getMeta (s : Service) (taxiReq : Request) : meta × Option Error :=
  match s.distTimeSrv.DistanceTime taxiReq with
  | (_, _, some errMoses) =>
    ({ Distance := none, Time := none }, some (errMoses.Wrap "Error when requesting Moses"))
  | (dist, tm, none) => (newMeta dist tm, none)

/-- Type `resultBlock` of response.go. -/
structure resultBlock where
  Title : String
  Summary : String
  Results : List serviceRecord
deriving DecidableEq, Repr

/-- Type `taxiResult` of response.go. -/
structure taxiResult where
  ID : Int
  Optimal : Option resultBlock
  Else : Option resultBlock
deriving DecidableEq, Repr

/-- Type `Response` of response.go. -/
structure Response where
  Result : taxiResult
  Meta : Option meta
deriving DecidableEq, Repr

/-- Function `newResponse` of response.go. -/
def newResponse (m : Option meta) (optimal elses : List serviceRecord) : Response :=
  let optimalResBlock : Option resultBlock :=
    if optimal.length > 0 then
      some { Title := ""
             Summary := "Оптимальный выбор с учётом рейтинга перевозчика и популярности"
             Results := optimal }
    else none
  let elsesResBlock : Option resultBlock :=
    if elses.length > 0 then some { Title := "", Summary := "", Results := elses } else none
  { Result := { ID := -1, Optimal := optimalResBlock, Else := elsesResBlock }, Meta := m }

/-- The zero value `new(Response)`. -/
def emptyResponse : Response :=
  { Result := { ID := 0, Optimal := none, Else := none }, Meta := none }

/-- Method `Service.Response`: the two goroutines are joined before anything is
read, so the model runs `getServiceRecords` and then `getMeta`. `none` is a
fault. -/
def Service.Response (L : GoLib) (F : FloatMul) (S : PriceSorter) (rnd : Nat) (s : Service)
    (req : Request) (priceCoeff : ℚ) : Option (Response × Option Error) :=
  match getServiceRecords L F S rnd s req priceCoeff with
  | none => none
  | some (optimal, elses, errRecords) =>
    let m := (getMeta s req).1
    match errRecords with
    | some e => some (emptyResponse, some (e.Wrap "Empty data from providers"))
    | none =>
      match m.isEmpty with
      | none => none
      | some true => some (newResponse none optimal elses, none)
      | some false => some (newResponse (some m) optimal elses, none)

/-! ## Provider adapters (package `provider`) -/

/-- The outcome of one call of the HTTP requester (`Get` or `Post`) with a
holder of type `α`: the content of the holder after the call, and the error. -/
structure HttpResult (α : Type) where
  holder : α
  err : Option Error

/-- Addition of two Go `int` values: the sum wraps around at 64 bits. -/
def intAdd (a b : Int) : Int := (a + b + 2 ^ 63) % 2 ^ 64 - 2 ^ 63

/-- Function `secondsToMins` of list.go. -/
def secondsToMins (eta : Int) : Int :=
  if eta = 0 then 0 else if eta < 60 then 1 else Int.tdiv eta 60

/-- Type `Dict` of package httprequester. -/
structure Dict where
  Key : String
  Value : String
deriving DecidableEq, Repr

/-- Type `gettAPI` of gettAPI.go. -/
structure gettAPI where
  Name : String
  Headers : List Dict
  Host : String
  PriceMethod : String
  TimeMethod : String
deriving DecidableEq, Repr

/-- One element of `gettPrice.Prices`. -/
structure gettPriceItem where
  ProductID : String
  DisplayName : String
  Estimate : String
  Currency : String
  LowEstimate : Int
  HighEstimate : Int
deriving DecidableEq, Repr

/-- Type `gettPrice` of gettAPI.go. -/
structure gettPrice where
  Prices : List gettPriceItem
deriving DecidableEq, Repr

/-- One element of `gettEta.Etas`. -/
structure gettEtaItem where
  ProductID : String
  DisplayName : String
  Eta : Int
deriving DecidableEq, Repr

/-- Type `gettEta` of gettAPI.go. -/
structure gettEta where
  Etas : List gettEtaItem
deriving DecidableEq, Repr

/-- Table `gettTariffMap`; a missing key reads as the empty string. -/
def gettTariffMap (displayName : String) : String :=
  if displayName = "Эконом" then "gett_economy"
  else if displayName = "Комфорт" then "gett_comfort"
  else if displayName = "Бизнес" then "gett_business"
  else if displayName = "Минимум" then "gett_mini"
  else if displayName = "Эконом+" then "gett_economy_plus"
  else if displayName = "Подмосковье" then "gett_premoscow"
  else if displayName = "Стандарт" then "gett_standart"
  else ""

/-- Validation loop of `gettAPI.price`. -/
def gettPriceLoop : List gettPriceItem → Option Error
  | [] => none
  | price :: rest =>
    if ((intAdd price.HighEstimate price.LowEstimate : Int) : ℚ) / 2 ≤ 0 then
      some ((Error.new .ErrInvalidPrice).Wrap "Price <= 0")
    else gettPriceLoop rest

/-- Method `gettAPI.price`, given the outcome of the HTTP call. -/
def gettAPI.price (_h : gettAPI) (resp : HttpResult gettPrice) : gettPrice × Option Error :=
  match resp.err with
  | some errPrice => (resp.holder, some errPrice)
  | none =>
    if resp.holder.Prices.length = 0 then
      (resp.holder, some ((Error.new .ErrInvalidPrice).Wrap "Price list is empty"))
    else (resp.holder, gettPriceLoop resp.holder.Prices)

/-- Validation loop of `gettAPI.time`. -/
def gettTimeLoop : List gettEtaItem → Option Error
  | [] => none
  | e :: rest =>
    if e.Eta ≤ 0 then some ((Error.new .ErrInvalidTime).Wrap "Time <= 0") else gettTimeLoop rest

/-- Method `gettAPI.time`, given the outcome of the HTTP call. -/
def gettAPI.time (_h : gettAPI) (resp : HttpResult gettEta) : gettEta × Option Error :=
  match resp.err with
  | some errTime => (resp.holder, some errTime)
  | none =>
    if resp.holder.Etas.length = 0 then
      (resp.holder, some ((Error.new .ErrInvalidTime).Wrap "Time list is empty"))
    else (resp.holder, gettTimeLoop resp.holder.Etas)

/-- Inner loop of `gettAPI.makeAPIDatas`: the value of `pEta`. -/
def gettEtaLookup (L : GoLib) (displayName : String) : List gettEtaItem → Int
  | [] => 0
  | e :: rest =>
    if L.toLower e.DisplayName = L.toLower displayName then e.Eta
    else gettEtaLookup L displayName rest

/-- Method `gettAPI.makeAPIDatas`. -/
def gettAPI.makeAPIDatas (L : GoLib) (_h : gettAPI) (price : gettPrice) (eta : gettEta)
    (p1 p2 : Point) : List APIData :=
  price.Prices.foldl
    (fun result p => result ++ [{
      DisplayName := "Gett " ++ p.DisplayName
      PriceMax := p.HighEstimate
      PriceMin := p.LowEstimate
      PriceMean := ((intAdd p.HighEstimate p.LowEstimate : Int) : ℚ) / 2
      ProductID := p.ProductID
      TariffName := gettTariffMap p.DisplayName
      Eta := secondsToMins (gettEtaLookup L p.DisplayName eta.Etas)
      TemplateVars := [("%from.lat%", p1.LatStr), ("%from.lon%", p1.LonStr),
        ("%to.lat%", p2.LatStr), ("%to.lon%", p2.LonStr), ("%product.id%", p.ProductID)] }])
    []

/-- Method `gettAPI.GetAPIData`, given the outcomes of the two HTTP calls. -/
def gettAPI.GetAPIData (L : GoLib) (h : gettAPI) (priceResp : HttpResult gettPrice)
    (etaResp : HttpResult gettEta) (taxiReq : Request) : List APIData × Option Error :=
  let (price, errPrices) := h.price priceResp
  let (eta, errEtas) := h.time etaResp
  match errPrices with
  | some e => ([], some (e.Wrap "Gett: Cannot request prices"))
  | none =>
    let apiDatas := h.makeAPIDatas L price eta taxiReq.Point1 taxiReq.Point2
    match errEtas with
    | some e => (apiDatas, some (e.Wrap "Gett: Cannot request eta"))
    | none => (apiDatas, none)

/-- Type `uberAPI` of uberAPI.go. -/
structure uberAPI where
  Name : String
  Headers : List Dict
  Host : String
  PriceMethod : String
  TimeMethod : String
  DgisClientID : String
deriving DecidableEq, Repr

/-- Type `uberPrice` of uberAPI.go. -/
structure uberPrice where
  LocalizedDisplayName : String
  Distance : ℚ
  DisplayName : String
  ProductID : String
  HighEstimate : ℚ
  LowEstimate : ℚ
  Duration : Int
  Estimate : String
  Currency : String
  SurgeMultiplier : ℚ
  Minimum : Int
deriving DecidableEq, Repr

/-- Type `uberPricesResponse` of uberAPI.go. -/
structure uberPricesResponse where
  Prices : List uberPrice
deriving DecidableEq, Repr

/-- Type `uberTime` of uberAPI.go. -/
structure uberTime where
  ProductID : String
  DisplayName : String
  Estimate : Int
deriving DecidableEq, Repr

/-- Type `uberTimesResponse` of uberAPI.go. -/
structure uberTimesResponse where
  Times : List uberTime
deriving DecidableEq, Repr

/-- Table `uberTariffMap`; `none` when the key is missing. -/
def uberTariffMap (key : String) : Option String :=
  if key = "black" then some "black"
  else if key = "uberblack" then some "uberblack"
  else if key = "select" then some "select"
  else if key = "uberselect" then some "uberselect"
  else if key = "one" then some "one"
  else if key = "xl" then some "uberxl"
  else if key = "x" then some "uberx"
  else if key = "uberone" then some "one"
  else if key = "uberxl" then some "uberxl"
  else if key = "uberx" then some "uberx"
  else if key = "uberpop" then some "uberpop"
  else if key = "uberstart" then some "uberstart"
  else if key = "ubereconomy" then some "ubereconomy"
  else none

/-- Table `uberDisplayMap`; `none` when the key is missing. -/
def uberDisplayMap (key : String) : Option String :=
  if key = "black" then some "Uber BLACK"
  else if key = "select" then some "Uber SELECT"
  else if key = "one" then some "Uber ONE"
  else if key = "xl" then some "Uber XL"
  else if key = "x" then some "Uber X"
  else if key = "uberblack" then some "Uber BLACK"
  else if key = "uberselect" then some "Uber SELECT"
  else if key = "uberone" then some "Uber ONE"
  else if key = "uberxl" then some "Uber XL"
  else if key = "uberx" then some "Uber X"
  else none

/-- Contract of the `float64` expression `(a + b) / 2` of the Uber adapter:
`mean a b` is the double that the hardware returns for two estimates. The
addition of doubles is commutative; rounding is monotone and keeps zero, so a
sum that is not positive gives a mean that is not positive. The mean of two
tiny positive estimates can round to zero, which is why the converse is not
part of the contract. A sum beyond the largest double is an infinity, which is
outside the model. -/
structure FloatMean where
  mean : ℚ → ℚ → ℚ
  comm : ∀ a b : ℚ, mean a b = mean b a
  nonpos : ∀ a b : ℚ, a + b ≤ 0 → mean a b ≤ 0

/-- One mean meeting the contract: the exact one (no rounding). -/
def exactMean : FloatMean where
  mean := fun a b => (a + b) / 2
  comm := fun a b => by
    show (a + b) / 2 = (b + a) / 2
    rw [add_comm]
  nonpos := fun a b h => by linarith

/-- Validation loop of `uberAPI.prices`. -/
def uberPriceLoop (M : FloatMean) : List uberPrice → Option Error
  | [] => none
  | price :: rest =>
    if M.mean price.LowEstimate price.HighEstimate ≤ 0 then
      some ((Error.new .ErrInvalidPrice).Wrap "Price <= 0")
    else uberPriceLoop M rest

/-- Method `uberAPI.prices`, given the outcome of the HTTP call. -/
def uberAPI.prices (M : FloatMean) (_h : uberAPI) (resp : HttpResult uberPricesResponse) :
    uberPricesResponse × Option Error :=
  match resp.err with
  | some err => (resp.holder, some err)
  | none =>
    if resp.holder.Prices.length = 0 then
      (resp.holder, some ((Error.new .ErrInvalidPrice).Wrap "Price list is empty"))
    else (resp.holder, uberPriceLoop M resp.holder.Prices)

/-- Validation loop of `uberAPI.times`. -/
def uberTimeLoop : List uberTime → Option Error
  | [] => none
  | e :: rest =>
    if e.Estimate ≤ 0 then some ((Error.new .ErrInvalidTime).Wrap "Time <= 0")
    else uberTimeLoop rest

/-- Method `uberAPI.times`, given the outcome of the HTTP call. -/
def uberAPI.times (_h : uberAPI) (resp : HttpResult uberTimesResponse) :
    uberTimesResponse × Option Error :=
  match resp.err with
  | some err => (resp.holder, some err)
  | none =>
    if resp.holder.Times.length = 0 then
      (resp.holder, some ((Error.new .ErrInvalidTime).Wrap "Time list is empty"))
    else (resp.holder, uberTimeLoop resp.holder.Times)

/-- Inner loop of `uberAPI.makeAPIDatas`: the value of `pEta`. -/
def uberEtaLookup (productID : String) : List uberTime → Int
  | [] => 0
  | e :: rest => if e.ProductID = productID then e.Estimate else uberEtaLookup productID rest

/-- Method `uberAPI.makeAPIDatas`. -/
def uberAPI.makeAPIDatas (L : GoLib) (M : FloatMean) (h : uberAPI) (prices : uberPricesResponse)
    (uberTimes : uberTimesResponse) (p1 p2 : Point) : List APIData :=
  prices.Prices.foldl
    (fun result p =>
      let formattedDisplayName := L.toLower p.DisplayName
      let displayName := match uberDisplayMap formattedDisplayName with
        | some val => val
        | none => "Uber"
      let tariffName := match uberTariffMap formattedDisplayName with
        | some val => val
        | none => ""
      result ++ [{
        DisplayName := displayName
        PriceMax := floatToInt p.HighEstimate
        PriceMin := floatToInt p.LowEstimate
        PriceMean := M.mean p.HighEstimate p.LowEstimate
        ProductID := p.ProductID
        TariffName := tariffName
        Eta := secondsToMins (uberEtaLookup p.ProductID uberTimes.Times)
        TemplateVars := [("%from.lat%", p1.LatStr), ("%from.lon%", p1.LonStr),
          ("%from.address%", p1.Address), ("%to.lat%", p2.LatStr), ("%to.lon%", p2.LonStr),
          ("%to.address%", p2.Address), ("%product.id%", p.ProductID),
          ("%client.id%", h.DgisClientID)] }])
    []

/-- Method `uberAPI.GetAPIData`, given the outcomes of the two HTTP calls. -/
def uberAPI.GetAPIData (L : GoLib) (M : FloatMean) (h : uberAPI)
    (priceResp : HttpResult uberPricesResponse)
    (timeResp : HttpResult uberTimesResponse) (taxiReq : Request) :
    List APIData × Option Error :=
  let (uberPrices, errPrices) := h.prices M priceResp
  let (uberTimes, errTimes) := h.times timeResp
  match errPrices with
  | some e => ([], some (e.Wrap "Uber: Cannot request prices"))
  | none =>
    let apiDatas := h.makeAPIDatas L M uberPrices uberTimes taxiReq.Point1 taxiReq.Point2
    match errTimes with
    | some e => (apiDatas, some (e.Wrap "Uber: Cannot request times"))
    | none => (apiDatas, none)

/-- Type `tariffGroup` of citymobilAPI.go. -/
structure tariffGroup where
  ID : Int
  Name : String
deriving DecidableEq, Repr

/-- Type `citymobilAPI` of citymobilAPI.go. -/
structure citymobilAPI where
  Name : String
  Host : String
  PriceMethod : String
  PriceMethodName : String
  TariffGroups : List tariffGroup
  Ver : String
  Hurry : String
deriving DecidableEq, Repr

/-- Type `citymobilPrice` of citymobilAPI.go. -/
structure citymobilPrice where
  TariffGroupID : Int
  TotalPrice : ℚ
deriving DecidableEq, Repr

/-- Type `citymobilPriceResponse` of citymobilAPI.go. -/
structure citymobilPriceResponse where
  Prices : List citymobilPrice
deriving DecidableEq, Repr

/-- Validation loop of `citymobilAPI.price`. -/
def citymobilPriceLoop : List citymobilPrice → Option Error
  | [] => none
  | priceItem :: rest =>
    if priceItem.TotalPrice ≤ 0 then some ((Error.new .ErrInvalidPrice).Wrap "Price <= 0")
    else citymobilPriceLoop rest

/-- Method `citymobilAPI.price`, given the outcome of the HTTP call (the
marshalling of the order, a record of strings and integers, cannot fail). -/
def citymobilAPI.price (_h : citymobilAPI) (resp : HttpResult citymobilPriceResponse) :
    citymobilPriceResponse × Option Error :=
  match resp.err with
  | some errPrice => (resp.holder, some errPrice)
  | none =>
    if resp.holder.Prices.length = 0 then
      (resp.holder, some ((Error.new .ErrInvalidPrice).Wrap "Price list empty"))
    else (resp.holder, citymobilPriceLoop resp.holder.Prices)

/-- Method `citymobilAPI.makeAPIDatas`. -/
def citymobilAPI.makeAPIDatas (h : citymobilAPI) (priceResp : citymobilPriceResponse)
    (p1 p2 : Point) : List APIData :=
  priceResp.Prices.map (fun priceItem =>
    let displayName := h.TariffGroups.foldl
      (fun displayName gr =>
        if priceItem.TariffGroupID = gr.ID then "Ситимобил " ++ gr.Name else displayName)
      "Ситимобил"
    { ProductID := ""
      TariffName := ""
      DisplayName := displayName
      PriceMin := 0
      PriceMax := 0
      PriceMean := priceItem.TotalPrice
      Eta := 0
      TemplateVars := [("%from.lat%", p1.LatStr), ("%from.lon%", p1.LonStr),
        ("%from.address%", p1.Address), ("%to.lat%", p2.LatStr), ("%to.lon%", p2.LonStr),
        ("%to.address%", p2.Address)] })

/-- Method `citymobilAPI.GetAPIData`, given the outcome of the HTTP call. -/
def citymobilAPI.GetAPIData (h : citymobilAPI) (resp : HttpResult citymobilPriceResponse)
    (taxiReq : Request) : List APIData × Option Error :=
  let (priceResp, errPrices) := h.price resp
  match errPrices with
  | some e => ([], some (e.Wrap "citymobil: Cannot request prices"))
  | none => (h.makeAPIDatas priceResp taxiReq.Point1 taxiReq.Point2, none)

/-! ## The product catalog (postgres.go, cache.go) -/

/-- Function `strings.Split` for a separator of one character, on the characters
of the text: the pieces between the separators, at least one piece. -/
def splitChars (sep : Char) : List Char → List (List Char)
  | [] => [[]]
  | c :: cs =>
    if c = sep then [] :: splitChars sep cs
    else
      match splitChars sep cs with
      | [] => [[c]]
      | piece :: pieces => (c :: piece) :: pieces

/-- Call `strings.Split(s, ":")`. -/
def splitColon (s : String) : List String := (splitChars ':' s.data).map String.mk

/-- Type `record` of postgres.go: one row of table `provider`. -/
structure record where
  ID : Int
  RegionID : Int
  Name : String
  Title : String
  ShortTitle : Option String
  SiteCaption : Option String
  SiteValue : Option String
  AppURL : Option String
  PhoneCaption : Option String
  PhoneValue : Option String
  AndroidAppURL : Option String
  AndroidAppID : Option String
  IosAppURL : Option String
  IosAppID : Option String
  APIOrgID : Int
  APIID : Int
  APIData : Option String
  Rating : Option ℚ
  AvgEta : Option Int
  IsActive : Option Bool
  CurrencyCode : Option String
  Handler : String
  IsOptimal : Bool
deriving DecidableEq, Repr

/-- Method `record.name`. -/
def record.name (r : record) : String :=
  match splitColon r.Name with
  | [] => ""
  | part0 :: _ => part0

/-- Method `record.tariff`. -/
def record.tariff (r : record) : String :=
  match splitColon r.Name with
  | part0 :: part1 :: _ => if part1 = part0 then "" else part1
  | _ => ""

/-- Method `record.IsEmpty`. -/
def record.IsEmpty (r : record) : Bool :=
  if r.RegionID = 0 ∨ r.Handler = "" ∨ r.CurrencyCode = none then true else false

/-- Method `Product.IsEmpty`. -/
def Product.IsEmpty (p : Product) : Bool := decide (p.Name = "")

/-- Method `Product.AddTariff`. -/
def Product.AddTariff (p : Product) (tariff : String) : Product :=
  if tariff ≠ "" then { p with Tariffs := p.Tariffs ++ [tariff] } else p

/-- Function `imagePath` of postgres.go, with the table `imgAlternativeNames`. -/
def imagePath (name : String) : String :=
  let name := if name = "rutaxi" then "rutaxi_1"
    else if name = "citymobil" then "citymobil_1" else name
  "https://disk.2gis.com/taksa-providers/provider_" ++ name ++ ".png"

/-- Method `postgresRep.getImage`. -/
def getImage (L : GoLib) (name : String) : Option URL × Option Error :=
  match L.urlParse (imagePath name) with
  | .error msg =>
    (none, some ((Error.new (.other msg)).Wrap ("Cannot parse Image URL: " ++ imagePath name)))
  | .ok imgURL => (some imgURL, none)

/-- Method `postgresRep.recordToProduct`; the error of `getImage` is only
logged. The composite literal does not set `Title`. -/
def recordToProduct (L : GoLib) (rec : record) : Product × Option Error :=
  let ImgURL := (getImage L rec.name).1
  let tariff := rec.tariff
  let tariffs : List String := if tariff ≠ "" then [tariff] else []
  let prod : Product :=
    { ID := rec.ID
      RegionID := rec.RegionID
      Name := rec.name
      Tariffs := tariffs
      Title := ""
      ShortTitle := rec.ShortTitle
      SiteCaption := rec.SiteCaption
      SiteValue := rec.SiteValue
      AppURLTemplate := rec.AppURL
      PhoneCaption := rec.PhoneCaption
      PhoneValue := rec.PhoneValue
      AndroidAppURL := rec.AndroidAppURL
      AndroidAppID := rec.AndroidAppID
      IosAppURL := rec.IosAppURL
      IosAppID := rec.IosAppID
      APIID := rec.APIID
      APIOrgID := rec.APIOrgID
      APIData := rec.APIData
      Rating := rec.Rating
      AvgEta := rec.AvgEta
      CurrencyCode := rec.CurrencyCode
      ProviderName := rec.Handler
      ImageURL := ImgURL
      IsOptimal := rec.IsOptimal }
  if prod.IsEmpty then (prod, some ((Error.new .ErrProduct).Wrap "No data to create product"))
  else (prod, none)

/-- Read `m[key]` of a Go map given as the list of its entries; `none` when the
key is missing. -/
def mapGet {κ ν : Type} [DecidableEq κ] (key : κ) : List (κ × ν) → Option ν
  | [] => none
  | (k, v) :: rest => if k = key then some v else mapGet key rest

/-- Assignment `m[key] = val` of a Go map given as the list of its entries: the
entry of the key is replaced, or a new entry is added. -/
def mapSet {κ ν : Type} [DecidableEq κ] (key : κ) (val : ν) : List (κ × ν) → List (κ × ν)
  | [] => [(key, val)]
  | (k, v) :: rest => if k = key then (k, val) :: rest else (k, v) :: mapSet key val rest

/-- First loop of `recordsToProducts`: `productsMap` after the loop, or the
error of the early return (the formatted record is left out of its message). -/
def productsLoop (L : GoLib) : List record → List (String × Product) →
    Except Error (List (String × Product))
  | [], productsMap => .ok productsMap
  | rec :: rest, productsMap =>
    let mapKey := rec.name
    match mapGet mapKey productsMap with
    | none =>
      match recordToProduct L rec with
      | (_, some err) => .error (err.Wrap "Cannot make product for record")
      | (prod, none) => productsLoop L rest (mapSet mapKey prod productsMap)
    | some product =>
      productsLoop L rest (mapSet mapKey (product.AddTariff rec.tariff) productsMap)

/-- Method `postgresRep.recordsToProducts`. The second loop ranges over
`productsMap` in an unspecified order; the model takes the entries in the order
in which their keys were first stored. -/
def recordsToProducts (L : GoLib) (records : List record) : List Product × Option Error :=
  match productsLoop L records [] with
  | .error err => ([], some err)
  | .ok productsMap => (productsMap.map Prod.snd, none)

/-- What the query of `getAllRecords` and the scan of its rows give: the error
of the query, the error of a scan, or the rows. -/
inductive QueryResult where
  | queryError (err : Error)
  | scanError (errScan : Error)
  | rows (records : List record)

/-- Type `postgresRep` of postgres.go; the database handle is modelled by what
its query returns. -/
structure postgresRep where
  db : QueryResult

/-- Validation loop of `getAllRecords` (the formatted record is left out of the
message). -/
def emptyLoop : List record → Option Error
  | [] => none
  | rec :: rest =>
    if rec.IsEmpty then some ((Error.new .ErrRecordEmpty).Wrap "Record") else emptyLoop rest

/-- Method `postgresRep.getAllRecords`. -/
def postgresRep.getAllRecords (pg : postgresRep) : List record × Option Error :=
  match pg.db with
  | .queryError err => ([], some (err.Wrap "Prostgres DB: could not select all products"))
  | .scanError errScan => ([], some (errScan.Wrap "Prostgres DB: could not scan provider"))
  | .rows records =>
    match emptyLoop records with
    | some err => ([], some err)
    | none => (records, none)

/-- Type `regionToProducts` of cache.go. -/
abbrev regionToProducts := List (Int × List Product)

/-- First loop of `GetAllProducts`: `regionMap` after the loop. -/
def regionMapLoop : List record → List (Int × List record) → List (Int × List record)
  | [], regionMap => regionMap
  | rec :: rest, regionMap =>
    regionMapLoop rest
      (mapSet rec.RegionID ((mapGet rec.RegionID regionMap).getD [] ++ [rec]) regionMap)

/-- Second loop of `GetAllProducts`: `regionProductMap` after the loop; the
error of `recordsToProducts` is only logged. The loop ranges over `regionMap` in
an unspecified order; the model takes the order in which the regions were first
stored. -/
def regionProductLoop (L : GoLib) : List (Int × List record) → regionToProducts →
    regionToProducts
  | [], regionProductMap => regionProductMap
  | (regID, recs) :: rest, regionProductMap =>
    let prods := (recordsToProducts L recs).1
    if prods.length ≠ 0 then regionProductLoop L rest (mapSet regID prods regionProductMap)
    else regionProductLoop L rest regionProductMap

/-- Method `postgresRep.GetAllProducts`. -/
def postgresRep.GetAllProducts (L : GoLib) (pg : postgresRep) :
    regionToProducts × Option Error :=
  match pg.getAllRecords with
  | (_, some errRec) => ([], some (errRec.Wrap "Getting all products from Postgres:"))
  | (records, none) => (regionProductLoop L (regionMapLoop records []) [], none)

/-- Type `Cache` of cache.go, without the mutex; the storage is modelled by what
its call `GetAllProducts` returns, an argument of `NewCache` and `Reload`. -/
structure Cache where
  cache : regionToProducts

/-- Function `NewCache` of cache.go. -/
def NewCache (fetched : regionToProducts × Option Error) : Cache × Option Error :=
  match fetched.2 with
  | some err => ({ cache := [] }, some err)
  | none => ({ cache := fetched.1 }, none)

/-- Method `Cache.GetProducts` (the region is left out of the message). -/
def Cache.GetProducts (c : Cache) (regionID : Int) : List Product × Option Error :=
  match mapGet regionID c.cache with
  | some products => (products, none)
  | none => ([], some ((Error.new .ErrNoProducts).Wrap "region"))

/-- Method `Cache.IsOK`. -/
def Cache.IsOK (c : Cache) : Bool := decide (c.cache.length ≠ 0)

/-- Method `Cache.Reload`: the cache after the call and the error returned. -/
def Cache.Reload (c : Cache) (fetched : regionToProducts × Option Error) :
    Cache × Option Error :=
  match fetched.2 with
  | some err => (c, some err)
  | none => ({ cache := fetched.1 }, none)

/-! ## Parsing of the request (service.go) -/

/-- Method `Point.IsEmpty`. -/
def Point.IsEmpty (p : Point) : Bool := decide (p.Lat = 0) || decide (p.Lon = 0)

/-- The zero value of `Request`. -/
def zeroRequest : Request :=
  { ReqID := "", RegionID := 0,
    Point1 := { Lat := 0, LatStr := "", Lon := 0, LonStr := "", Address := "", Area := "" },
    Point2 := { Lat := 0, LatStr := "", Lon := 0, LonStr := "", Address := "", Area := "" },
    OnlyAPI := false }

/-- Method `Service.ParseTaxiRequest`, given the request identifier of the
context, the error of reading the body, and the JSON decoder of the body as the
function from the request it is given to the request it leaves and its error. -/
def ParseTaxiRequest (taxiReqID : String) (errRead : Option Error)
    (decode : Request → Request × Option Error) : Request × Option Error :=
  let taxiReq : Request := { zeroRequest with ReqID := taxiReqID }
  match errRead with
  | some e => (taxiReq, some (e.Wrap "Cannot load request body"))
  | none =>
    match decode taxiReq with
    | (taxiReq, some err) => (taxiReq, some (err.Wrap "Cannot parse request json"))
    | (taxiReq, none) =>
      if taxiReq.RegionID = 0 ∨ taxiReq.Point1.IsEmpty = true ∨ taxiReq.Point2.IsEmpty = true then
        (taxiReq, some (Error.new .ErrTaxiReqEmpty))
      else (taxiReq, none)

/-! ## Evaluation of the request (service.go, request.go) -/

/-- Routines of the packages `strconv` and `unicode`. `FormatFloat x` is
`strconv.FormatFloat(x, 'f', -1, 64)`; `ParseFloat s` is
`strconv.ParseFloat(s, 64)`, the double or the message of the error; `ToLower`
is `unicode.ToLower`, which `strings.ToLower` applies to every character of a
text and which, on an ASCII character, turns a capital letter into the small
one and keeps anything else. The infinities and the not-a-number values that
`ParseFloat` returns for texts such as "inf" and "nan" are outside the model. -/
structure TextLib where
  FormatFloat : ℚ → String
  ParseFloat : String → Except String ℚ
  ToLower : Char → Char
  ToLower_ascii : ∀ c : Char, c.toNat < 128 → ToLower c = c.toLower

/-- Type `PointInfo` of webAPI.go. -/
structure PointInfo where
  Address : String
  Lat : ℚ
  Lon : ℚ
deriving DecidableEq, Repr

/-- Interface `AddressService`: what `Address` returns for two coordinates, the
pointer and the error, and the area name of `AreaNameByLatLon`. -/
structure AddressService where
  Address : ℚ → ℚ → Option PointInfo × Option Error
  AreaNameByLatLon : ℚ → ℚ → String

/-- Method `Point.stringfy`. -/
def Point.stringfy (T : TextLib) (p : Point) : Point :=
  { p with LatStr := T.FormatFloat p.Lat, LonStr := T.FormatFloat p.Lon }

/-- Method `Point.AddGeoInfo`; `none` is the dereference of a nil `pInfo`. -/
def Point.AddGeoInfo (T : TextLib) (p : Point) (pInfo : Option PointInfo) : Option Point :=
  match pInfo with
  | none => none
  | some info =>
    some (Point.stringfy T { p with Address := info.Address, Lat := info.Lat, Lon := info.Lon })

/-- Method `Point.AddArea`. -/
def Point.AddArea (p : Point) (area : String) : Point := { p with Area := area }

/-- Method `Service.EvaluateTaxiRequest`, with the field `addrSrv` of the service
as an argument: the request after the call and the error returned. The two
goroutines write to variables of their own and are joined before anything is
read. `none` is a fault of `AddGeoInfo`. -/
def EvaluateTaxiRequest (T : TextLib) (addrSrv : AddressService) (taxiReq : Request) :
    Option (Request × Option Error) :=
  let addr1 := addrSrv.Address taxiReq.Point1.Lat taxiReq.Point1.Lon
  let addr2 := addrSrv.Address taxiReq.Point2.Lat taxiReq.Point2.Lon
  match addr1.2 with
  | some errAddrPoint1 =>
    some (taxiReq, some (errAddrPoint1.Wrap "Cannot evaluate address for point1"))
  | none =>
    match addr2.2 with
    | some errAddrPoint2 =>
      some (taxiReq, some (errAddrPoint2.Wrap "Cannot evaluate address for point2"))
    | none =>
      match taxiReq.Point1.AddGeoInfo T addr1.1 with
      | none => none
      | some point1 =>
        match taxiReq.Point2.AddGeoInfo T addr2.1 with
        | none => none
        | some point2 =>
          some ({ taxiReq with
                  Point1 := point1.AddArea (addrSrv.AreaNameByLatLon point1.Lat point1.Lon)
                  Point2 := point2.AddArea (addrSrv.AreaNameByLatLon point2.Lat point2.Lon) },
                none)

/-! ## The router (mosesAPI.go) -/

/-- Type `mosesRes` of mosesAPI.go: the fields that the code reads. -/
structure mosesRes where
  Duration : Int
  Length : Int
deriving DecidableEq, Repr

/-- Type `mosesAnswer` of mosesAPI.go: the field that the code reads. -/
structure mosesAnswer where
  Result : List mosesRes
deriving DecidableEq, Repr

/-- Type `MosesService` of mosesAPI.go: `regionsInfo` is what
`GetRegionNameByID` returns. -/
structure MosesService where
  regionsInfo : Int → String × Option Error

/-- Method `MosesService.DistanceTime`; `post` is the outcome of the call of
`httpreq.Post` for the region name and the request. The request data holds two
points of finite coordinates, which `json.Marshal` always encodes. -/
def MosesService.DistanceTime (m : MosesService)
    (post : String → Request → HttpResult mosesAnswer) (taxiReq : Request) :
    Int × Int × Option Error :=
  match m.regionsInfo taxiReq.RegionID with
  | (_, some errRegionName) => (0, 0, some (errRegionName.Wrap "Moses: Cannot get region name"))
  | (regionName, none) =>
    let p := post regionName taxiReq
    match p.err with
    | some err => (0, 0, some (err.Wrap "Moses: Cannot request Moses"))
    | none =>
      match p.holder.Result with
      | [] => (0, 0, some (Error.new .ErrMosesEmptyResult))
      | first :: _ =>
        if first.Length < 0 ∨ first.Duration < 0 then
          (0, 0, some ((Error.new .ErrMosesInvalidResult).Wrap "Length, duration"))
        else (first.Length, Int.tdiv first.Duration 60, none)

/-! ## Parsing of a centroid (webAPI.go) -/

/-- The character class `[\s\p{Zs}]` of the two regular expressions: the class
`\s` of the package `regexp` (tab, line feed, form feed, carriage return,
space) and the space separators of Unicode. -/
def isReSpace (c : Char) : Bool :=
  decide (c.toNat ∈ [9, 10, 12, 13, 32, 0xA0, 0x1680, 0x202F, 0x205F, 0x3000]) ||
    (decide (0x2000 ≤ c.toNat) && decide (c.toNat ≤ 0x200A))

/-- Function `unicode.IsSpace`, the class that `strings.TrimSpace` removes. -/
def isSpace (c : Char) : Bool :=
  decide (c.toNat ∈ [9, 10, 11, 12, 13, 32, 0x85, 0xA0, 0x1680, 0x2028, 0x2029, 0x202F,
    0x205F, 0x3000]) ||
    (decide (0x2000 ≤ c.toNat) && decide (c.toNat ≤ 0x200A))

/-- Call `reLeadCloseWhtsp.ReplaceAllString(s, "")`: the expression matches the
run of class characters at the start of the text and the one at its end. -/
def trimLeadClose (s : List Char) : List Char :=
  (s.dropWhile isReSpace).rdropWhile isReSpace

/-- What a run of class characters becomes under `reInsideWhtsp`: one space
when the run has two characters or more, itself otherwise. -/
def flushRun (run : List Char) : List Char := if 2 ≤ run.length then [' '] else run

/-- Call `reInsideWhtsp.ReplaceAllString(s, " ")`, read from left to right;
`run` is the run of class characters that ends at the current position. -/
def collapseLoop : List Char → List Char → List Char
  | run, [] => flushRun run
  | run, c :: cs =>
    if isReSpace c then collapseLoop (run ++ [c]) cs
    else flushRun run ++ c :: collapseLoop [] cs

/-- Call `strings.TrimSpace`. -/
def TrimSpace (s : List Char) : List Char := (s.dropWhile isSpace).rdropWhile isSpace

/-- Call `strings.Index(s, c)` for a text `c` of one character; `-1` when the
character does not occur. -/
def strIndex (s : List Char) (c : Char) : Int := if c ∈ s then (s.indexOf c : Int) else -1

/-- The slice expression `s[lo:hi]`; `none` is the fault "slice bounds out of
range". The bounds of the call are positions of ASCII characters, so counting
characters and counting bytes agree on them. -/
def strSlice (s : List Char) (lo hi : Int) : Option (List Char) :=
  if 0 ≤ lo ∧ lo ≤ hi ∧ hi ≤ (s.length : Int) then some ((s.drop lo.toNat).take (hi - lo).toNat)
  else none

/-- The first three assignments of `pointToLatLon`: the text without the
whitespace at its ends, with one space for every run of whitespace inside, in
small letters. -/
def normalCentroid (T : TextLib) (centroid : String) : List Char :=
  let centroid := trimLeadClose centroid.data
  let centroid := collapseLoop [] centroid
  centroid.map T.ToLower

/-- Function `pointToLatLon` of webAPI.go: latitude, longitude and error; `none`
is a fault. -/
def pointToLatLon (T : TextLib) (centroid : String) : Option (ℚ × ℚ × Option Error) :=
  let centroid := normalCentroid T centroid
  if ¬ ("point".data.isPrefixOf centroid = true) then
    some (0, 0, some ((Error.new .ErrNotPoint).Wrap "POINT keyword not found"))
  else
    let startInd := strIndex centroid '('
    let endInd := strIndex centroid ')'
    if startInd = -1 ∨ endInd = -1 then
      some (0, 0, some ((Error.new .ErrNotPoint).Wrap "( and/or ) not found"))
    else
      match strSlice centroid (startInd + 1) endInd with
      | none => none
      | some inner =>
        let point := TrimSpace inner
        match splitChars ' ' point with
        | lonStr :: latStr :: _ =>
          match T.ParseFloat (String.mk latStr) with
          | .error errLat =>
            some (0, 0, some ((Error.new (.other errLat)).Wrap "Cannot parse lat from centroid"))
          | .ok lat =>
            match T.ParseFloat (String.mk lonStr) with
            | .error errLon =>
              some (0, 0,
                some ((Error.new (.other errLon)).Wrap "Cannot parse lon from centroid"))
            | .ok lon => some (lat, lon, none)
        | _ => some (0, 0, some ((Error.new .ErrNotPoint).Wrap "Wrong coord format"))

/-! ## Vocabulary of the statements about the fan-out -/

/-- Specification, in the words of the claims about the fan-out: the offers of
the adapter registered for `prod` that pass the tariff whitelist of `prod`, each
paired with `prod`; no offer when no adapter is registered for `prod`. -/
def specSurvivingOffers (apisMap : String → Option APIDataGetter) (taxiReq : Request)
    (prod : Product) : List (APIData × Product) :=
  match apisMap prod.ProviderName with
  | none => []
  | some taxiAPI =>
    ((taxiAPI.GetAPIData taxiReq).1.filter (fun d => prod.IsGoodTariff d.TariffName)).map
      (fun d => (d, prod))

/-- Specification: the record rendered from an offer of a product, `none` when
the rendering faults. -/
def specRenderRecord (L : GoLib) (dp : APIData × Product) : Option serviceRecord :=
  (newServiceRecord L dp.1 dp.2).map Prod.fst

/-! ## Vocabulary of the statements about the catalog -/

/-- Specification, in the words of the claim about the tariffs of a Product: the
non-empty `tariff()` values of the rows whose `name()` is `pfx`, in row order. -/
def specTariffs (records : List record) (pfx : String) : List String :=
  ((records.filter (fun r => r.name = pfx)).map record.tariff).filter (fun t => t ≠ "")

/-- Specification: the Product of the name prefix `pfx`, made from the first row
with that prefix and carrying the tariffs of all rows with that prefix; `none`
when no row has the prefix. -/
def specProduct (L : GoLib) (records : List record) (pfx : String) : Option Product :=
  match records.find? (fun r => r.name = pfx) with
  | none => none
  | some r => some { (recordToProduct L r).1 with Tariffs := specTariffs records pfx }

/-- Specification: the rows of region `regID`, in row order. -/
def specRegionRows (records : List record) (regID : Int) : List record :=
  records.filter (fun r => r.RegionID = regID)

/-! ## Vocabulary of the statements about prices and centroids -/

/-- Specification, in the words of the claim about the price of a record: `n` is
an integer nearest to `x`. -/
def specNearest (x : ℚ) (n : Int) : Prop := ∀ k : Int, |x - (n : ℚ)| ≤ |x - (k : ℚ)|

/-- The characters of a decimal number: digits, point and signs. -/
def specDecimalChars : List Char := "0123456789.-+".data

/-- Specification: the text of a decimal number, a non-empty text of digits,
point and signs. -/
def specDecimal (s : List Char) : Prop := s ≠ [] ∧ ∀ c ∈ s, c ∈ specDecimalChars

/-- Specification: the keyword "point" with each letter in either case. -/
def specKeyword (kw : List Char) : Prop :=
  List.Forall₂ (fun c l => c = l ∨ c = l.toUpper) kw "point".data

/-- Specification: a text of whitespace of any length, also empty; whitespace is
the class of characters that the regular expressions of webAPI.go remove. -/
def specBlank (w : List Char) : Prop := ∀ c ∈ w, isReSpace c = true

/-- Specification: a separator, one space or repeated whitespace. -/
def specGap (w : List Char) : Prop := specBlank w ∧ (w = [' '] ∨ 2 ≤ w.length)

/-- Specification: nothing, or a separator. -/
def specOptGap (w : List Char) : Prop := w = [] ∨ specGap w

/-- Specification: the centroid text made of the keyword, the brackets, the two
numbers and the whitespace around them. -/
def specCentroid (w1 kw w2 w3 lonS w4 latS w5 w6 : List Char) : String :=
  String.mk (w1 ++ (kw ++ (w2 ++ ('(' :: (w3 ++ (lonS ++ (w4 ++ (latS ++ (w5 ++ (')' :: w6))))))))))

/-! ## Concrete inputs of the examples -/

/-- A record with the given price and optimal flag, every other field empty. -/
def sampleRecord (price : Int) (isOptimal : Bool) : serviceRecord :=
  { AvgEta := none, Price := price, PriceRanges := none, Rating := none,
    Operator := { BranchID := none, URL := none, Image := none, Site := none,
                  BackgroundColor := backgroundColor, ShortTitle := none, StoreURLs := none,
                  ID := none, TextColor := textColor, Title := none, OrgID := none,
                  Phone := none, IsOptimal := isOptimal },
    Eta := none, CurrencyCode := none }

/-- A stand-in for the library routines in the examples: every text parses as
the path of a URL, and nothing is replaced, encoded or case-folded. -/
def sampleLib : GoLib :=
  { urlParse := fun s => .ok { Scheme := "", Host := "", Path := s, RawQuery := "" }
    queryEncode := fun q => q
    urlString := fun u => u.Path
    stringsReplace := fun s _ _ => s
    toLower := fun s => s }

/-- A product of region 1 with the given provider name, tariff whitelist and
optimal flag, every pointer field nil. -/
def sampleProduct (providerName : String) (tariffs : List String) (isOptimal : Bool) : Product :=
  { ID := 1, RegionID := 1, Name := "test", Tariffs := tariffs, Title := "", ShortTitle := none,
    SiteCaption := none, SiteValue := none, AppURLTemplate := none, PhoneCaption := none,
    PhoneValue := none, AndroidAppURL := none, AndroidAppID := none, IosAppURL := none,
    IosAppID := none, APIOrgID := 0, APIID := 0, APIData := none, Rating := none,
    AvgEta := none, ProviderName := providerName, CurrencyCode := none, ImageURL := none,
    IsOptimal := isOptimal }

/-- An offer with the given tariff name and mean price, every other field zero. -/
def sampleOffer (tariffName : String) (priceMean : ℚ) : APIData :=
  { ProductID := "", TariffName := tariffName, DisplayName := "", PriceMin := 0, PriceMax := 0,
    PriceMean := priceMean, Eta := 0, TemplateVars := [] }

/-- A request for region 32 between two points of Moscow. -/
def sampleRequest : Request :=
  { ReqID := "", RegionID := 32,
    Point1 := { Lat := 55750376 / 1000000, LatStr := "55.750376", Lon := 37610621 / 1000000,
                LonStr := "37.610621", Address := "", Area := "" },
    Point2 := { Lat := 55760736 / 1000000, LatStr := "55.760736", Lon := 3762002 / 100000,
                LonStr := "37.62002", Address := "", Area := "" },
    OnlyAPI := true }

/-- An adapter that answers every request with the given offers and error. -/
def sampleAdapter (name : String) (offers : List APIData) (err : Option Error) : APIDataGetter :=
  { APIName := name, GetAPIData := fun _ => (offers, err) }

/-- The map holding one adapter under its own name. -/
def sampleApisMap (api : APIDataGetter) : String → Option APIDataGetter :=
  fun name => if name = api.APIName then some api else none

/-- A service with one adapter, a catalog that answers every region with the
given products, and a router that answers with the given outcome. -/
def sampleService (api : APIDataGetter) (prods : List Product)
    (router : Int × Int × Option Error) : Service :=
  { apisMap := sampleApisMap api
    prodCache := { GetProducts := fun _ => (prods, none), IsOK := true }
    distTimeSrv := { DistanceTime := fun _ => router } }

/-- A valid row of table `provider` with the given region, name and handler,
every pointer column null but the currency code. -/
def sampleRow (regionID : Int) (name handler : String) : record :=
  { ID := 1, RegionID := regionID, Name := name, Title := "", ShortTitle := none,
    SiteCaption := none, SiteValue := none, AppURL := none, PhoneCaption := none,
    PhoneValue := none, AndroidAppURL := none, AndroidAppID := none, IosAppURL := none,
    IosAppID := none, APIOrgID := 0, APIID := 0, APIData := none, Rating := none,
    AvgEta := none, IsActive := some true, CurrencyCode := some "RUB", Handler := handler,
    IsOptimal := false }

/-- A Gett adapter configuration. -/
def sampleGett : gettAPI :=
  { Name := "gett", Headers := [], Host := "https://api.gett.com",
    PriceMethod := "/v1/availability/price", TimeMethod := "/v1/availability/eta" }

/-- The outcome of an HTTP call that succeeded and left `holder` decoded. -/
def sampleOk {α : Type} (holder : α) : HttpResult α := { holder := holder, err := none }

/-- One element of a Gett time list. -/
def sampleGettEta (displayName : String) (eta : Int) : gettEtaItem :=
  { ProductID := "", DisplayName := displayName, Eta := eta }

/-- One element of a Gett price list. -/
def sampleGettPrice (displayName : String) (low high : Int) : gettPriceItem :=
  { ProductID := "", DisplayName := displayName, Estimate := "", Currency := "RUB",
    LowEstimate := low, HighEstimate := high }

/-- An Uber adapter configuration. -/
def sampleUber : uberAPI :=
  { Name := "uber", Headers := [], Host := "https://api.uber.com",
    PriceMethod := "/v1.2/estimates/price", TimeMethod := "/v1.2/estimates/time",
    DgisClientID := "" }

/-- One element of an Uber price list, for the product "x". -/
def sampleUberPrice (displayName : String) (low high : ℚ) : uberPrice :=
  { LocalizedDisplayName := displayName, Distance := 0, DisplayName := displayName,
    ProductID := "x", HighEstimate := high, LowEstimate := low, Duration := 0, Estimate := "",
    Currency := "RUB", SurgeMultiplier := 1, Minimum := 0 }

/-- One element of an Uber time list, for the product "x". -/
def sampleUberTime (estimate : Int) : uberTime :=
  { ProductID := "x", DisplayName := "", Estimate := estimate }

/-- A store whose query returns the given rows. -/
def sampleStore (records : List record) : postgresRep := { db := .rows records }

/-- A cache that holds one product for region 1. -/
def sampleCache : Cache := { cache := [(1, [sampleProduct "uber" [] false])] }

/-- Rows of region 1: two tariffs of one name, and a row without tariff. -/
def sampleRows : List record :=
  [sampleRow 1 "uber:uberx" "uber", sampleRow 1 "gett" "gett",
    sampleRow 1 "uber:uberblack" "uber", sampleRow 1 "uber:uber" "uber"]

/-- Rows of region 1 with one name prefix and two handlers. -/
def sampleMixedRows : List record :=
  [sampleRow 1 "uber:uberx" "uber", sampleRow 1 "uber:uberblack" "gett"]

/-- Rows of regions 1 and 2; the second row of region 1 has an empty name
prefix. -/
def sampleBadRows : List record :=
  [sampleRow 1 "gett" "gett", sampleRow 1 ":x" "uber", sampleRow 2 "uber" "uber"]

/-- The value of a text of decimal digits. -/
def sampleDigits (s : List Char) : Nat := s.foldl (fun n c => 10 * n + (c.toNat - 48)) 0

/-- A stand-in for the text routines in the examples: numbers are written and
read as unsigned decimal integers, and only ASCII letters are case-folded. -/
def sampleText : TextLib :=
  { FormatFloat := fun x => toString (Int.toNat ⌊x⌋)
    ParseFloat := fun s =>
      if s.data ≠ [] ∧ s.data.all Char.isDigit = true then .ok ((sampleDigits s.data : Nat) : ℚ)
      else .error "invalid syntax"
    ToLower := Char.toLower
    ToLower_ascii := fun _ _ => rfl }

/-- A row of region 1 with a title. -/
def sampleTitledRow : record := { sampleRow 1 "uber:uberx" "uber" with Title := "Uber" }

/-- A row of region 1 with the URL of the iOS store and without the identifier
of the application. -/
def sampleStoreRow : record :=
  { sampleRow 1 "uber" "uber" with IosAppURL := some "https://itunes.apple.com/app/uber" }

/-- A router configuration that knows every region as "nsk". -/
def sampleMoses : MosesService := { regionsInfo := fun _ => ("nsk", none) }

/-- One result of the router. -/
def sampleRoute (length duration : Int) : mosesRes := { Duration := duration, Length := length }

/-! ## Selection of the optimal offer: the loops -/

theorem elsesLoop_eq (i : Int) (l : List serviceRecord) (k : Nat) (acc : List serviceRecord) :
    elsesLoop i l k acc
      = acc ++ (if (k : Int) ≤ i then l.eraseIdx (i - k).toNat else l) := by
  induction l generalizing k acc with
  | nil => simp [elsesLoop]
  | cons r rest ih =>
    unfold elsesLoop
    by_cases h : (k : Int) = i
    · subst h
      simp [ih]
    · rw [if_neg h, ih]
      by_cases hlt : (k : Int) ≤ i
      · have h1 : ((k + 1 : Nat) : Int) ≤ i := by omega
        have h2 : (i - (k : Int)).toNat = (i - ((k + 1 : Nat) : Int)).toNat + 1 := by omega
        rw [if_pos h1, if_pos hlt, h2]
        simp
      · have h1 : ¬ ((k + 1 : Nat) : Int) ≤ i := by omega
        rw [if_neg h1, if_neg hlt]
        simp

theorem optimalLoop_eq (l : List serviceRecord) (k : Nat) :
    optimalLoop true l k
      = if l.findIdx (fun r => r.Operator.IsOptimal) < l.length
        then ((k + l.findIdx (fun r => r.Operator.IsOptimal) : Nat) : Int) else -1 := by
  induction l generalizing k with
  | nil => simp [optimalLoop]
  | cons r rest ih =>
    unfold optimalLoop
    by_cases h : r.Operator.IsOptimal = true
    · simp [h, List.findIdx_cons]
    · simp only [Bool.not_eq_true] at h
      simp only [h, Bool.false_and, Bool.false_eq_true, if_false, ih, List.findIdx_cons,
        cond_false, List.length_cons, Nat.add_lt_add_iff_right]
      split
      · congr 1; omega
      · rfl

theorem suitableLoop_eq (lim : ℚ) (l : List serviceRecord) (k sc : Nat) :
    suitableLoop lim l k sc
      = if (l.takeWhile (fun r => decide ((r.Price : ℚ) ≤ lim))).length = 0 then sc
        else k + (l.takeWhile (fun r => decide ((r.Price : ℚ) ≤ lim))).length - 1 := by
  induction l generalizing k sc with
  | nil => simp [suitableLoop]
  | cons r rest ih =>
    unfold suitableLoop
    by_cases h : (r.Price : ℚ) ≤ lim
    · rw [if_pos h, ih]
      simp only [List.takeWhile_cons, h, decide_True, if_true, List.length_cons]
      split
      · rename_i h0; rw [h0]; simp
      · simp
    · rw [if_neg h]
      simp [List.takeWhile_cons, h]

theorem partitionAt_neg_one (s : List serviceRecord) : partitionAt s (-1) = some ([], s) := by
  simp [partitionAt, elsesLoop_eq]

theorem partitionAt_index (s : List serviceRecord) (i : Nat) (h : i < s.length) :
    partitionAt s (i : Int) = some ([s[i]], s.eraseIdx i) := by
  have h1 : ¬ ((i : Int) = -1) := by omega
  have h2 : ¬ ((i : Int) < 0) := by omega
  simp [partitionAt, elsesLoop_eq, h1, h2, List.getElem?_eq_getElem h]

theorem getOptimalElse_true_eq (F : FloatMul) (S : PriceSorter) (rnd : Nat)
    (records : List serviceRecord) (priceCoeff : ℚ) :
    getOptimalElse F S rnd records true priceCoeff
      = if h : (S.sort records).findIdx (fun r => r.Operator.IsOptimal) < (S.sort records).length
        then some ([(S.sort records)[(S.sort records).findIdx (fun r => r.Operator.IsOptimal)]],
          (S.sort records).eraseIdx ((S.sort records).findIdx (fun r => r.Operator.IsOptimal)))
        else some ([], S.sort records) := by
  simp only [getOptimalElse, optimalLoop_eq, if_true, Bool.not_true, Bool.false_eq_true, if_false,
    Nat.zero_add]
  split
  · rename_i h
    rw [partitionAt_index _ _ h]
  · rw [partitionAt_neg_one]

theorem takeWhile_length_spec (p : serviceRecord → Bool) (l : List serviceRecord) :
    (∀ j, j < (l.takeWhile p).length → ∃ x, l[j]? = some x ∧ p x = true) ∧
      (∀ x, l[(l.takeWhile p).length]? = some x → p x = false) := by
  induction l with
  | nil => simp
  | cons r rest ih =>
    by_cases h : p r = true
    · simp only [List.takeWhile_cons, h, if_true, List.length_cons]
      refine ⟨?_, ?_⟩
      · intro j hj
        cases j with
        | zero => exact ⟨r, by simp, h⟩
        | succ j =>
          obtain ⟨x, hx, hp⟩ := ih.1 j (by omega)
          exact ⟨x, by simpa using hx, hp⟩
      · intro x hx
        exact ih.2 x (by simpa using hx)
    · simp only [Bool.not_eq_true] at h
      simp only [List.takeWhile_cons, h, Bool.false_eq_true, if_false, List.length_nil]
      refine ⟨by simp, ?_⟩
      intro x hx
      simp at hx
      rw [← hx]; exact h

theorem takeWhile_length_le (p : serviceRecord → Bool) (l : List serviceRecord) :
    (l.takeWhile p).length ≤ l.length :=
  (List.takeWhile_sublist p).length_le

theorem suitableLoop_lt (lim : ℚ) (l : List serviceRecord) (h : l ≠ []) :
    suitableLoop lim l 0 0 < l.length := by
  have hpos : 0 < l.length := List.length_pos.mpr h
  have hle := takeWhile_length_le (fun r => decide ((r.Price : ℚ) ≤ lim)) l
  rw [suitableLoop_eq]
  split <;> omega

theorem pickedIndex_le (F : FloatMul) (rnd : Nat) (priceCoeff : ℚ) (s : List serviceRecord)
    (first : serviceRecord) :
    pickedIndex F rnd priceCoeff s first
      ≤ suitableLoop (F.mul (first.Price : ℚ) priceCoeff) s 0 0 := by
  unfold pickedIndex Intn
  split
  · exact Nat.le_of_lt_succ (Nat.mod_lt _ (Nat.succ_pos _))
  · exact Nat.zero_le _

theorem getOptimalElse_false_eq (F : FloatMul) (S : PriceSorter) (rnd : Nat)
    (records : List serviceRecord) (priceCoeff : ℚ) (first : serviceRecord)
    (rest : List serviceRecord)
    (hs : S.sort records = first :: rest) :
    ∃ h : pickedIndex F rnd priceCoeff (S.sort records) first < (S.sort records).length,
      getOptimalElse F S rnd records false priceCoeff
        = some ([(S.sort records)[pickedIndex F rnd priceCoeff (S.sort records) first]],
            (S.sort records).eraseIdx (pickedIndex F rnd priceCoeff (S.sort records) first)) := by
  have hne : S.sort records ≠ [] := by rw [hs]; simp
  have hlt : pickedIndex F rnd priceCoeff (S.sort records) first < (S.sort records).length :=
    lt_of_le_of_lt (pickedIndex_le F _ _ _ _) (suitableLoop_lt _ _ hne)
  refine ⟨hlt, ?_⟩
  rw [← partitionAt_index _ _ hlt]
  simp only [getOptimalElse, Bool.not_false, if_true, pickedIndex]
  rw [hs]

theorem sort_ne_nil (S : PriceSorter) (records : List serviceRecord) (h : records ≠ []) :
    S.sort records ≠ [] := by
  intro h0
  have := (S.perm records).length_eq
  rw [h0] at this
  exact h (List.length_eq_zero.mp this.symm)

theorem getElem_cons_eraseIdx_perm (s : List serviceRecord) (i : Nat) (h : i < s.length) :
    (s[i] :: s.eraseIdx i).Perm s := by
  induction s generalizing i with
  | nil => simp at h
  | cons a t ih =>
    cases i with
    | zero => simp
    | succ i =>
      simp only [List.getElem_cons_succ, List.eraseIdx_cons_succ]
      have := ih i (by simpa using h)
      exact (List.Perm.swap _ _ _).trans (this.cons a)

/-- C1: with isOptimalInRegion = true getOptimalElse returns for every list of
records; if some record is flagged optimal, the optimal list is one flagged
record of the input, the first flagged one of the price-sorted list, and its
price is at most the price of every flagged record; if no record is flagged,
the optimal list is empty and else is the whole sorted list. -/
theorem getOptimalElse_flagged_cheapest (F : FloatMul) (S : PriceSorter) (rnd : Nat)
    (records : List serviceRecord) (priceCoeff : ℚ) :
    ∃ optimal elses, getOptimalElse F S rnd records true priceCoeff = some (optimal, elses) ∧
      ((∃ r ∈ records, r.Operator.IsOptimal = true) →
        ∃ o, optimal = [o] ∧ o ∈ records ∧ o.Operator.IsOptimal = true ∧
          (∀ r ∈ records, r.Operator.IsOptimal = true → o.Price ≤ r.Price) ∧
          (S.sort records).find? (fun r => r.Operator.IsOptimal) = some o) ∧
      ((∀ r ∈ records, r.Operator.IsOptimal = false) →
        optimal = [] ∧ elses = S.sort records ∧ elses.Perm records) := by
  rw [getOptimalElse_true_eq]
  cases hfind : (S.sort records).find? (fun r => r.Operator.IsOptimal) with
  | none =>
    have hall : ∀ r ∈ S.sort records, r.Operator.IsOptimal = false := by
      intro r hr
      have := List.find?_eq_none.mp hfind r hr
      simpa using this
    have hidx : ¬ (S.sort records).findIdx (fun r => r.Operator.IsOptimal)
        < (S.sort records).length := by
      rw [List.findIdx_eq_length_of_false hall]; exact Nat.lt_irrefl _
    rw [dif_neg hidx]
    refine ⟨[], S.sort records, rfl, ?_, ?_⟩
    · rintro ⟨r, hr, hflag⟩
      have := hall r ((S.perm records).mem_iff.mpr hr)
      rw [hflag] at this
      exact absurd this (by decide)
    · intro _
      exact ⟨rfl, rfl, S.perm records⟩
  | some o =>
    obtain ⟨ho, as, bs, hsplit, has⟩ := List.find?_eq_some.mp hfind
    have hidxeq : (S.sort records).findIdx (fun r => r.Operator.IsOptimal) = as.length := by
      rw [hsplit, List.findIdx_append]
      have hfalse : ∀ a ∈ as, (fun r : serviceRecord => r.Operator.IsOptimal) a = false := by
        intro a ha
        simpa using has a ha
      rw [List.findIdx_eq_length_of_false hfalse]
      simp [List.findIdx_cons, ho]
    have hidx : (S.sort records).findIdx (fun r => r.Operator.IsOptimal)
        < (S.sort records).length := by
      rw [hidxeq, hsplit]; simp
    rw [dif_pos hidx]
    have hget : (S.sort records)[(S.sort records).findIdx (fun r => r.Operator.IsOptimal)] = o := by
      have h1 : (S.sort records)[(S.sort records).findIdx (fun r => r.Operator.IsOptimal)]?
          = some o := by
        rw [hidxeq, hsplit, List.getElem?_append_right (Nat.le_refl _)]; simp
      rw [List.getElem?_eq_getElem hidx] at h1
      exact Option.some.inj h1
    rw [hget]
    refine ⟨[o], _, rfl, ?_, ?_⟩
    · intro _
      have hmem : o ∈ S.sort records := by rw [hsplit]; simp
      refine ⟨o, rfl, (S.perm records).mem_iff.mp hmem, ho, ?_, rfl⟩
      intro r hr hflag
      have hr2 : r ∈ S.sort records := (S.perm records).mem_iff.mpr hr
      have hsorted := S.sorted records
      rw [hsplit] at hr2 hsorted
      rcases List.mem_append.mp hr2 with h1 | h1
      · have := has r h1
        rw [hflag] at this
        exact absurd this (by decide)
      · rcases List.mem_cons.mp h1 with h2 | h2
        · rw [h2]
        · have hpw := (List.pairwise_append.mp hsorted).2.1
          exact List.rel_of_pairwise_cons hpw h2
    · intro hnone
      have hmem : o ∈ S.sort records := by rw [hsplit]; simp
      have := hnone o ((S.perm records).mem_iff.mp hmem)
      rw [ho] at this
      exact absurd this (by decide)

theorem getOptimalElse_of_ne_nil (F : FloatMul) (S : PriceSorter) (rnd : Nat)
    (records : List serviceRecord) (isOptimalInRegion : Bool) (priceCoeff : ℚ)
    (hne : records ≠ []) :
    ∃ optimal elses,
      getOptimalElse F S rnd records isOptimalInRegion priceCoeff = some (optimal, elses) ∧
      optimal.length ≤ 1 ∧ (optimal ++ elses).Perm records ∧
      elses.Pairwise (fun a b => a.Price ≤ b.Price) := by
  cases isOptimalInRegion with
  | true =>
    rw [getOptimalElse_true_eq]
    split
    · rename_i h
      exact ⟨_, _, rfl, by simp, (getElem_cons_eraseIdx_perm _ _ h).trans (S.perm records),
        (S.sorted records).sublist (List.eraseIdx_sublist _ _)⟩
    · exact ⟨[], _, rfl, by simp, S.perm records, S.sorted records⟩
  | false =>
    have hs := sort_ne_nil S records hne
    obtain ⟨first, rest, hfr⟩ := List.exists_cons_of_ne_nil hs
    obtain ⟨hlt, heq⟩ := getOptimalElse_false_eq F S rnd records priceCoeff first rest hfr
    exact ⟨_, _, heq, by simp, (getElem_cons_eraseIdx_perm _ _ hlt).trans (S.perm records),
      (S.sorted records).sublist (List.eraseIdx_sublist _ _)⟩

/-- C4: for every non-empty list of records and either value of
isOptimalInRegion, getOptimalElse returns an optimal list of at most one record
and an else list such that optimal followed by else is a permutation of the
input and else is in ascending order of price. -/
theorem getOptimalElse_partition (F : FloatMul) (S : PriceSorter) (rnd : Nat)
    (records : List serviceRecord) (isOptimalInRegion : Bool) (priceCoeff : ℚ)
    (hne : records ≠ []) :
    ∃ optimal elses,
      getOptimalElse F S rnd records isOptimalInRegion priceCoeff = some (optimal, elses) ∧
      optimal.length ≤ 1 ∧ (optimal ++ elses).Perm records ∧
      elses.Pairwise (fun a b => a.Price ≤ b.Price) :=
  getOptimalElse_of_ne_nil F S rnd records isOptimalInRegion priceCoeff hne

/-- Witness for C4: three records with prices 500, 100 and 200. -/
theorem getOptimalElse_partition_witness :
    ∃ optimal elses,
      getOptimalElse exactMul insertionSorter 0
          [sampleRecord 500 false, sampleRecord 100 false, sampleRecord 200 false] false (13 / 10)
        = some (optimal, elses) ∧
      optimal.length ≤ 1 ∧
      (optimal ++ elses).Perm
        [sampleRecord 500 false, sampleRecord 100 false, sampleRecord 200 false] ∧
      elses.Pairwise (fun a b => a.Price ≤ b.Price) :=
  getOptimalElse_partition exactMul insertionSorter 0
    [sampleRecord 500 false, sampleRecord 100 false, sampleRecord 200 false] false (13 / 10)
    (by simp)

theorem sort_head_cheapest (S : PriceSorter) (records : List serviceRecord)
    (first : serviceRecord) (rest : List serviceRecord) (hs : S.sort records = first :: rest)
    (c : Int) (hc : ∃ r ∈ records, r.Price = c) (hmin : ∀ r ∈ records, c ≤ r.Price) :
    first.Price = c := by
  have hmem : first ∈ S.sort records := by rw [hs]; simp
  have h1 : c ≤ first.Price := hmin first ((S.perm records).mem_iff.mp hmem)
  obtain ⟨r, hr, hrc⟩ := hc
  have hr2 : r ∈ S.sort records := (S.perm records).mem_iff.mpr hr
  have hsorted := S.sorted records
  rw [hs] at hr2 hsorted
  have h2 : first.Price ≤ c := by
    rcases List.mem_cons.mp hr2 with h | h
    · rw [← hrc, h]
    · rw [← hrc]; exact List.rel_of_pairwise_cons hsorted h
  omega

theorem band_spec (s : List serviceRecord) (lim : ℚ)
    (hsorted : s.Pairwise (fun a b => a.Price ≤ b.Price))
    (first : serviceRecord) (rest : List serviceRecord) (hs : s = first :: rest)
    (hfirst : (first.Price : ℚ) ≤ lim) :
    (∀ j, j ≤ suitableLoop lim s 0 0 → ∃ x, s[j]? = some x ∧ (x.Price : ℚ) ≤ lim) ∧
      (∀ j r, s[j]? = some r → (r.Price : ℚ) ≤ lim → j ≤ suitableLoop lim s 0 0) := by
  have hspec := takeWhile_length_spec (fun r => decide ((r.Price : ℚ) ≤ lim)) s
  have hlen := takeWhile_length_le (fun r => decide ((r.Price : ℚ) ≤ lim)) s
  have hpos : 0 < (s.takeWhile (fun r => decide ((r.Price : ℚ) ≤ lim))).length := by
    rw [hs]; simp [List.takeWhile_cons, hfirst]
  have hk : suitableLoop lim s 0 0
      = (s.takeWhile (fun r => decide ((r.Price : ℚ) ≤ lim))).length - 1 := by
    rw [suitableLoop_eq, if_neg (by omega)]; omega
  rw [hk]
  refine ⟨?_, ?_⟩
  · intro j hj
    obtain ⟨x, hx, hp⟩ := hspec.1 j (by omega)
    exact ⟨x, hx, by simpa using hp⟩
  · intro j r hj hr
    by_contra hcon
    have hjlt : j < s.length := by
      by_contra h
      rw [List.getElem?_eq_none (by omega)] at hj
      exact absurd hj (by simp)
    have hnlt : (s.takeWhile (fun r => decide ((r.Price : ℚ) ≤ lim))).length < s.length := by
      omega
    have hx := hspec.2 _ (List.getElem?_eq_getElem hnlt)
    have hrj : s[j] = r := by
      rw [List.getElem?_eq_getElem hjlt] at hj
      exact Option.some.inj hj
    have hle : (s[(s.takeWhile (fun r => decide ((r.Price : ℚ) ≤ lim))).length]).Price
        ≤ r.Price := by
      rcases Nat.lt_or_ge (s.takeWhile (fun r => decide ((r.Price : ℚ) ≤ lim))).length j
        with h | h
      · rw [← hrj]
        exact (List.pairwise_iff_getElem.mp hsorted) _ _ hnlt hjlt h
      · have : (s.takeWhile (fun r => decide ((r.Price : ℚ) ≤ lim))).length = j := by omega
        simp only [this, hrj, le_refl]
    simp only [decide_eq_false_iff_not, not_le] at hx
    have hq : ((s[(s.takeWhile (fun r => decide ((r.Price : ℚ) ≤ lim))).length]).Price : ℚ)
        ≤ (r.Price : ℚ) := by exact_mod_cast hle
    linarith

/-- C2, refuted as stated: one record of price 100 and priceCoeff 1/2 (the
product 100 × 1/2 = 50 is exact); the record is chosen as optimal although its
price 100 exceeds 50. -/
theorem getOptimalElse_limit_counterexample :
    getOptimalElse exactMul insertionSorter 0 [sampleRecord 100 false] false (1 / 2)
        = some ([sampleRecord 100 false], []) ∧
      exactMul.mul ((sampleRecord 100 false).Price : ℚ) (1 / 2) = 50 ∧
      ¬ (((sampleRecord 100 false).Price : ℚ)
          ≤ exactMul.mul ((sampleRecord 100 false).Price : ℚ) (1 / 2)) := by
  refine ⟨?_, ?_, ?_⟩
  · decide!
  · norm_num [sampleRecord, exactMul]
  · norm_num [sampleRecord, exactMul]

/-- C2, amended: with isOptimalInRegion = false, for every list of records with
cheapest price c, every outcome of the random draw and every priceCoeff with
c ≤ c × priceCoeff (the cheapest record itself is within the limit, as it is
for priceCoeff ≥ 1 and c ≥ 0), one optimal is returned and its price is at most
c × priceCoeff, the product being the one the code computes. -/
theorem getOptimalElse_within_limit (F : FloatMul) (S : PriceSorter) (rnd : Nat)
    (records : List serviceRecord) (priceCoeff : ℚ) (c : Int)
    (hc : ∃ r ∈ records, r.Price = c) (hmin : ∀ r ∈ records, c ≤ r.Price)
    (hin : (c : ℚ) ≤ F.mul (c : ℚ) priceCoeff) :
    ∃ o elses, getOptimalElse F S rnd records false priceCoeff = some ([o], elses) ∧
      (o.Price : ℚ) ≤ F.mul (c : ℚ) priceCoeff := by
  have hne : records ≠ [] := by
    obtain ⟨r, hr, _⟩ := hc
    exact List.ne_nil_of_mem hr
  obtain ⟨first, rest, hfr⟩ := List.exists_cons_of_ne_nil (sort_ne_nil S records hne)
  have hfirst := sort_head_cheapest S records first rest hfr c hc hmin
  obtain ⟨hlt, heq⟩ := getOptimalElse_false_eq F S rnd records priceCoeff first rest hfr
  refine ⟨_, _, heq, ?_⟩
  have hband := band_spec (S.sort records) (F.mul (first.Price : ℚ) priceCoeff) (S.sorted records)
    first rest hfr (by rw [hfirst]; exact hin)
  obtain ⟨x, hx, hp⟩ := hband.1 _ (pickedIndex_le F rnd priceCoeff (S.sort records) first)
  rw [List.getElem?_eq_getElem hlt] at hx
  rw [Option.some.inj hx, ← hfirst]
  exact hp

/-- Witness for the amended C2: prices 90, 117 and 500 with priceCoeff 13/10. -/
theorem getOptimalElse_within_limit_witness :
    ∃ o elses,
      getOptimalElse exactMul insertionSorter 1
          [sampleRecord 500 false, sampleRecord 90 false, sampleRecord 117 false] false (13 / 10)
        = some ([o], elses) ∧
      (o.Price : ℚ) ≤ exactMul.mul ((90 : Int) : ℚ) (13 / 10) :=
  getOptimalElse_within_limit exactMul insertionSorter 1
    [sampleRecord 500 false, sampleRecord 90 false, sampleRecord 117 false] (13 / 10) 90
    ⟨sampleRecord 90 false, by simp, rfl⟩
    (by simp [sampleRecord])
    (by norm_num [exactMul])

theorem getOptimalElse_false_get (F : FloatMul) (S : PriceSorter) (rnd : Nat)
    (records : List serviceRecord) (priceCoeff : ℚ) (first : serviceRecord)
    (rest : List serviceRecord)
    (hs : S.sort records = first :: rest) :
    ∃ o, (S.sort records)[pickedIndex F rnd priceCoeff (S.sort records) first]? = some o ∧
      getOptimalElse F S rnd records false priceCoeff
        = some ([o],
            (S.sort records).eraseIdx (pickedIndex F rnd priceCoeff (S.sort records) first)) := by
  obtain ⟨hlt, heq⟩ := getOptimalElse_false_eq F S rnd records priceCoeff first rest hs
  exact ⟨_, List.getElem?_eq_getElem hlt, heq⟩

theorem pickedIndex_self (F : FloatMul) (i : Nat) (priceCoeff : ℚ) (s : List serviceRecord)
    (first : serviceRecord)
    (hi : i ≤ suitableLoop (F.mul (first.Price : ℚ) priceCoeff) s 0 0) :
    pickedIndex F i priceCoeff s first = i := by
  unfold pickedIndex Intn
  split
  · exact Nat.mod_eq_of_lt (Nat.lt_succ_of_le hi)
  · omega

/-- C3: with isOptimalInRegion = false, priceCoeff ≥ 1 and a non-empty list of
records with non-negative prices and cheapest price c, the price-sorted list has
a largest index k whose price is at most the computed product c × priceCoeff
(equality qualifies);
for every random draw exactly one optimal is returned, it stands at an index
i ≤ k of the sorted list and else is the sorted list without that index; and
every index i ≤ k is chosen by some random draw. -/
theorem getOptimalElse_random_band (F : FloatMul) (S : PriceSorter) (records : List serviceRecord)
    (priceCoeff : ℚ) (c : Int) (hne : records ≠ []) (hcoeff : 1 ≤ priceCoeff)
    (hnonneg : ∀ r ∈ records, 0 ≤ r.Price)
    (hc : ∃ r ∈ records, r.Price = c) (hmin : ∀ r ∈ records, c ≤ r.Price) :
    ∃ k,
      (∃ r, (S.sort records)[k]? = some r ∧ (r.Price : ℚ) ≤ F.mul (c : ℚ) priceCoeff) ∧
      (∀ j r, (S.sort records)[j]? = some r →
        (r.Price : ℚ) ≤ F.mul (c : ℚ) priceCoeff → j ≤ k) ∧
      (∀ rnd, ∃ i o, i ≤ k ∧ (S.sort records)[i]? = some o ∧
        getOptimalElse F S rnd records false priceCoeff
          = some ([o], (S.sort records).eraseIdx i)) ∧
      (∀ i, i ≤ k → ∃ rnd o, (S.sort records)[i]? = some o ∧
        getOptimalElse F S rnd records false priceCoeff
          = some ([o], (S.sort records).eraseIdx i)) := by
  obtain ⟨first, rest, hfr⟩ := List.exists_cons_of_ne_nil (sort_ne_nil S records hne)
  have hfirst := sort_head_cheapest S records first rest hfr c hc hmin
  have hc0 : (0 : ℚ) ≤ (c : ℚ) := by
    obtain ⟨r, hr, hrc⟩ := hc
    have := hnonneg r hr
    rw [hrc] at this
    exact_mod_cast this
  have hin : (c : ℚ) ≤ F.mul (c : ℚ) priceCoeff := F.le_mul _ _ hc0 hcoeff
  have hband := band_spec (S.sort records) (F.mul (first.Price : ℚ) priceCoeff) (S.sorted records)
    first rest hfr (by rw [hfirst]; exact hin)
  rw [hfirst] at hband
  refine ⟨suitableLoop (F.mul (c : ℚ) priceCoeff) (S.sort records) 0 0, hband.1 _ (le_refl _),
    hband.2, ?_, ?_⟩
  · intro rnd
    obtain ⟨hlt, heq⟩ := getOptimalElse_false_eq F S rnd records priceCoeff first rest hfr
    refine ⟨_, _, ?_, List.getElem?_eq_getElem hlt, heq⟩
    have := pickedIndex_le F rnd priceCoeff (S.sort records) first
    rw [hfirst] at this
    exact this
  · intro i hi
    obtain ⟨o, hget, heq⟩ := getOptimalElse_false_get F S i records priceCoeff first rest hfr
    have hself := pickedIndex_self F i priceCoeff (S.sort records) first (by rw [hfirst]; exact hi)
    rw [hself] at hget heq
    exact ⟨i, o, hget, heq⟩

/-- Witness for C3: prices 500, 90 and 117 with priceCoeff 13/10, where 117
equals the limit 90 × 13/10. -/
theorem getOptimalElse_random_band_witness :
    ∃ k, (∃ r, (insertionSorter.sort
          [sampleRecord 500 false, sampleRecord 90 false, sampleRecord 117 false])[k]? = some r ∧
        (r.Price : ℚ) ≤ exactMul.mul ((90 : Int) : ℚ) (13 / 10)) ∧
      (∀ j r, (insertionSorter.sort
          [sampleRecord 500 false, sampleRecord 90 false, sampleRecord 117 false])[j]? = some r →
        (r.Price : ℚ) ≤ exactMul.mul ((90 : Int) : ℚ) (13 / 10) → j ≤ k) ∧
      (∀ rnd, ∃ i o, i ≤ k ∧ (insertionSorter.sort
          [sampleRecord 500 false, sampleRecord 90 false, sampleRecord 117 false])[i]? = some o ∧
        getOptimalElse exactMul insertionSorter rnd
            [sampleRecord 500 false, sampleRecord 90 false, sampleRecord 117 false] false (13 / 10)
          = some ([o], (insertionSorter.sort
              [sampleRecord 500 false, sampleRecord 90 false, sampleRecord 117 false]).eraseIdx
                i)) ∧
      (∀ i, i ≤ k → ∃ rnd o, (insertionSorter.sort
          [sampleRecord 500 false, sampleRecord 90 false, sampleRecord 117 false])[i]? = some o ∧
        getOptimalElse exactMul insertionSorter rnd
            [sampleRecord 500 false, sampleRecord 90 false, sampleRecord 117 false] false (13 / 10)
          = some ([o], (insertionSorter.sort
              [sampleRecord 500 false, sampleRecord 90 false, sampleRecord 117 false]).eraseIdx
                i)) :=
  getOptimalElse_random_band exactMul insertionSorter
    [sampleRecord 500 false, sampleRecord 90 false, sampleRecord 117 false] (13 / 10) 90
    (by simp) (by norm_num) (by simp [sampleRecord])
    ⟨sampleRecord 90 false, by simp, rfl⟩ (by simp [sampleRecord])

/-! ## The fan-out to the adapters -/

theorem IsGoodTariffLoop_iff (tariff : String) (l : List String) :
    IsGoodTariffLoop tariff l = true ↔ tariff ∈ l := by
  induction l with
  | nil => simp [IsGoodTariffLoop]
  | cons a rest ih =>
    unfold IsGoodTariffLoop
    by_cases h : a = tariff
    · simp [h]
    · have h2 : ¬ tariff = a := fun e => h e.symm
      simp [h, h2, ih]

theorem IsGoodTariff_iff (p : Product) (tariff : String) :
    p.IsGoodTariff tariff = true ↔ (p.Tariffs = [] ∨ tariff ∈ p.Tariffs) := by
  unfold Product.IsGoodTariff
  by_cases h : p.Tariffs = []
  · simp [h]
  · have hlen : ¬ p.Tariffs.length = 0 := fun e => h (List.length_eq_zero.mp e)
    simp [h, hlen, IsGoodTariffLoop_iff]

theorem filterLoop_eq (prod : Product) (l acc : List APIData) :
    filterLoop prod l acc = acc ++ l.filter (fun d => prod.IsGoodTariff d.TariffName) := by
  induction l generalizing acc with
  | nil => simp [filterLoop]
  | cons d rest ih =>
    unfold filterLoop
    by_cases h : prod.IsGoodTariff d.TariffName = true <;> simp [h, ih]

theorem renderLoop_eq (L : GoLib) (prod : Product) (l : List APIData)
    (result : List serviceRecord) :
    renderLoop L prod l result
      = if l.all (fun d => (newServiceRecord L d prod).isSome) = true
        then some (result ++ l.filterMap (fun d => (newServiceRecord L d prod).map Prod.fst))
        else none := by
  induction l generalizing result with
  | nil => simp [renderLoop]
  | cons d rest ih =>
    unfold renderLoop
    cases h : newServiceRecord L d prod with
    | none => simp [h]
    | some re =>
      obtain ⟨r, e⟩ := re
      simp only [ih, List.all_cons, h, Option.isSome_some, Bool.true_and, List.filterMap_cons,
        Option.map_some', List.append_assoc, List.singleton_append]

theorem requestOne_eq (L : GoLib) (taxiReq : Request) (taxiAPI : APIDataGetter) (prod : Product)
    (result : List serviceRecord) :
    requestOne L taxiReq taxiAPI prod result
      = if ((taxiAPI.GetAPIData taxiReq).1.filter (fun d => prod.IsGoodTariff d.TariffName)).all
            (fun d => (newServiceRecord L d prod).isSome) = true
        then some (result ++
          ((taxiAPI.GetAPIData taxiReq).1.filter (fun d => prod.IsGoodTariff d.TariffName)).filterMap
            (fun d => (newServiceRecord L d prod).map Prod.fst))
        else none := by
  unfold requestOne
  simp only [filterLoop_eq, List.nil_append]
  split
  · rename_i h
    have h0 : (taxiAPI.GetAPIData taxiReq).1.filter (fun d => prod.IsGoodTariff d.TariffName)
        = [] := List.length_eq_zero.mp h.1
    simp [h0]
  · exact renderLoop_eq L prod _ result

theorem providersLoop_eq (L : GoLib) (apisMap : String → Option APIDataGetter)
    (taxiReq : Request) (prods : List Product) (recs : List serviceRecord) :
    providersLoop L apisMap taxiReq prods recs
      = if (prods.flatMap (specSurvivingOffers apisMap taxiReq)).all
            (fun dp => (specRenderRecord L dp).isSome) = true
        then some (recs ++
          (prods.flatMap (specSurvivingOffers apisMap taxiReq)).filterMap (specRenderRecord L))
        else none := by
  induction prods generalizing recs with
  | nil => simp [providersLoop]
  | cons p rest ih =>
    unfold providersLoop
    cases hapi : apisMap p.ProviderName with
    | none =>
      simp only [ih, List.flatMap_cons, specSurvivingOffers, hapi, List.nil_append]
    | some api =>
      have hall : ∀ l : List APIData,
          (l.map (fun d => (d, p))).all (fun dp => (specRenderRecord L dp).isSome)
            = l.all (fun d => (newServiceRecord L d p).isSome) := by
        intro l
        induction l with
        | nil => rfl
        | cons d t iht =>
          rw [List.map_cons, List.all_cons, List.all_cons, iht]
          simp [specRenderRecord]
      have hfm : ∀ l : List APIData,
          (l.map (fun d => (d, p))).filterMap (specRenderRecord L)
            = l.filterMap (fun d => (newServiceRecord L d p).map Prod.fst) := by
        intro l
        induction l with
        | nil => rfl
        | cons d t iht =>
          rw [List.map_cons, List.filterMap_cons, List.filterMap_cons, iht]
          rfl
      simp only [requestOne_eq, List.flatMap_cons, specSurvivingOffers, hapi, List.all_append,
        List.filterMap_append, hall, hfm, Bool.and_eq_true]
      by_cases h1 : ((api.GetAPIData taxiReq).1.filter
          (fun d => p.IsGoodTariff d.TariffName)).all
            (fun d => (newServiceRecord L d p).isSome) = true
      · simp only [ih, h1, true_and, if_true, List.append_assoc, specSurvivingOffers]
      · simp [h1]

theorem requestProviders_eq (L : GoLib) (apisMap : String → Option APIDataGetter)
    (taxiReq : Request) (prods : List Product) :
    requestProviders L apisMap taxiReq prods
      = if (prods.flatMap (specSurvivingOffers apisMap taxiReq)).all
            (fun dp => (specRenderRecord L dp).isSome) = true
        then
          if (prods.flatMap (specSurvivingOffers apisMap taxiReq)).filterMap (specRenderRecord L)
              = []
          then some ([], some ((Error.new .ErrNoAPIData).Wrap "All providers"))
          else some ((prods.flatMap (specSurvivingOffers apisMap taxiReq)).filterMap
            (specRenderRecord L), none)
        else none := by
  unfold requestProviders
  rw [providersLoop_eq]
  by_cases hall : (prods.flatMap (specSurvivingOffers apisMap taxiReq)).all
      (fun dp => (specRenderRecord L dp).isSome) = true
  · simp only [hall, if_true, List.nil_append, List.length_eq_zero]
    split
    · rename_i h; rw [h]
    · rfl
  · simp [hall]

theorem forall₂_render_iff (L : GoLib) (prod : Product) (l : List APIData)
    (rendered : List serviceRecord) :
    List.Forall₂ (fun d r => ∃ e, newServiceRecord L d prod = some (r, e)) l rendered ↔
      (l.all (fun d => (newServiceRecord L d prod).isSome) = true ∧
        rendered = l.filterMap (fun d => (newServiceRecord L d prod).map Prod.fst)) := by
  induction l generalizing rendered with
  | nil => simp [List.forall₂_nil_left_iff]
  | cons d t ih =>
    rw [List.forall₂_cons_left_iff]
    constructor
    · rintro ⟨r, rs, ⟨e, he⟩, hrs, rfl⟩
      obtain ⟨h1, h2⟩ := (ih rs).mp hrs
      refine ⟨?_, ?_⟩
      · simp only [List.all_cons, he, Option.isSome_some, Bool.true_and]
        exact h1
      · simp only [List.filterMap_cons, he, Option.map_some', h2]
    · rintro ⟨h1, h2⟩
      simp only [List.all_cons, Bool.and_eq_true] at h1
      obtain ⟨re, hre⟩ := Option.isSome_iff_exists.mp h1.1
      obtain ⟨r, e⟩ := re
      refine ⟨r, t.filterMap (fun d => (newServiceRecord L d prod).map Prod.fst), ⟨e, hre⟩,
        (ih _).mpr ⟨h1.2, rfl⟩, ?_⟩
      rw [h2]
      simp only [List.filterMap_cons, hre, Option.map_some']

/-- C5: IsGoodTariff(t) holds exactly when the Tariffs list of the product is
empty or contains t; requestOne returns a slice exactly when it is the slice it
was given followed by the records rendered, one for one and in the order of the
adapter, from the offers of the adapter whose TariffName passes IsGoodTariff;
and it returns whenever each of those offers renders. -/
theorem requestOne_whitelisted_offers (L : GoLib) (taxiReq : Request) (taxiAPI : APIDataGetter)
    (prod : Product) (result : List serviceRecord) :
    (∀ t, prod.IsGoodTariff t = true ↔ (prod.Tariffs = [] ∨ t ∈ prod.Tariffs)) ∧
    (∀ out, requestOne L taxiReq taxiAPI prod result = some out ↔
      ∃ rendered, out = result ++ rendered ∧
        List.Forall₂ (fun d r => ∃ e, newServiceRecord L d prod = some (r, e))
          ((taxiAPI.GetAPIData taxiReq).1.filter (fun d => prod.IsGoodTariff d.TariffName))
          rendered) ∧
    ((∀ d ∈ (taxiAPI.GetAPIData taxiReq).1, prod.IsGoodTariff d.TariffName = true →
        (newServiceRecord L d prod).isSome = true) →
      (requestOne L taxiReq taxiAPI prod result).isSome = true) := by
  refine ⟨IsGoodTariff_iff prod, ?_, ?_⟩
  · intro out
    rw [requestOne_eq]
    by_cases hall : ((taxiAPI.GetAPIData taxiReq).1.filter
        (fun d => prod.IsGoodTariff d.TariffName)).all
          (fun d => (newServiceRecord L d prod).isSome) = true
    · rw [if_pos hall]
      constructor
      · intro h
        exact ⟨_, (Option.some.inj h).symm, (forall₂_render_iff L prod _ _).mpr ⟨hall, rfl⟩⟩
      · rintro ⟨rendered, hout, hf⟩
        rw [hout, ((forall₂_render_iff L prod _ _).mp hf).2]
    · rw [if_neg hall]
      constructor
      · intro h
        exact absurd h (by simp)
      · rintro ⟨rendered, _, hf⟩
        exact absurd ((forall₂_render_iff L prod _ _).mp hf).1 hall
  · intro h
    rw [requestOne_eq]
    have hall : ((taxiAPI.GetAPIData taxiReq).1.filter
        (fun d => prod.IsGoodTariff d.TariffName)).all
          (fun d => (newServiceRecord L d prod).isSome) = true := by
      rw [List.all_eq_true]
      intro d hd
      obtain ⟨hmem, hgood⟩ := List.mem_filter.mp hd
      exact h d hmem hgood
    rw [if_pos hall]
    rfl

theorem getServiceRecords_eq (L : GoLib) (F : FloatMul) (S : PriceSorter) (rnd : Nat) (s : Service)
    (req : Request) (priceCoeff : ℚ) (prods : List Product)
    (hprods : s.prodCache.GetProducts req.RegionID = (prods, none)) :
    getServiceRecords L F S rnd s req priceCoeff
      = match requestProviders L s.apisMap req prods with
        | none => none
        | some (_, some errProviders) =>
          some ([], [], some (errProviders.Wrap "Error when request taxiAPIs"))
        | some (serviceRecords, none) =>
          match getOptimalElse F S rnd serviceRecords (isOptimalLoop prods) priceCoeff with
          | none => none
          | some (optimalLocal, elsesLocal) => some (optimalLocal, elsesLocal, none) := by
  unfold getServiceRecords
  simp only [hprods]

theorem getMeta_isEmpty (s : Service) (req : Request) :
    (getMeta s req).1.isEmpty
      = some (decide ((s.distTimeSrv.DistanceTime req).2.2 ≠ none ∨
          ((s.distTimeSrv.DistanceTime req).1 = 0 ∧ (s.distTimeSrv.DistanceTime req).2.1 = 0))) ∧
    ((s.distTimeSrv.DistanceTime req).2.2 = none →
      (getMeta s req).1 = newMeta (s.distTimeSrv.DistanceTime req).1
        (s.distTimeSrv.DistanceTime req).2.1) := by
  unfold getMeta
  obtain ⟨dist, tm, err⟩ := s.distTimeSrv.DistanceTime req
  cases err with
  | some e => simp [meta.isEmpty]
  | none =>
    simp only [meta.isEmpty, newMeta]
    by_cases hd : dist = 0 <;> by_cases ht : tm = 0 <;> simp [hd, ht]

theorem Response_of_records (L : GoLib) (F : FloatMul) (S : PriceSorter) (rnd : Nat) (s : Service)
    (req : Request) (priceCoeff : ℚ) (optimal elses : List serviceRecord)
    (h : getServiceRecords L F S rnd s req priceCoeff = some (optimal, elses, none)) :
    s.Response L F S rnd req priceCoeff
      = some (newResponse
          (if (s.distTimeSrv.DistanceTime req).2.2 ≠ none ∨
              ((s.distTimeSrv.DistanceTime req).1 = 0 ∧ (s.distTimeSrv.DistanceTime req).2.1 = 0)
            then none else some (getMeta s req).1) optimal elses, none) := by
  unfold Service.Response
  rw [h]
  simp only [(getMeta_isEmpty s req).1]
  by_cases hc : (s.distTimeSrv.DistanceTime req).2.2 ≠ none ∨
      ((s.distTimeSrv.DistanceTime req).1 = 0 ∧ (s.distTimeSrv.DistanceTime req).2.1 = 0)
  · simp only [hc, decide_True, if_true]
  · simp only [hc, decide_False, if_false]

theorem Response_of_error (L : GoLib) (F : FloatMul) (S : PriceSorter) (rnd : Nat) (s : Service)
    (req : Request) (priceCoeff : ℚ) (optimal elses : List serviceRecord) (e : Error)
    (h : getServiceRecords L F S rnd s req priceCoeff = some (optimal, elses, some e)) :
    s.Response L F S rnd req priceCoeff
      = some (emptyResponse, some (e.Wrap "Empty data from providers")) := by
  unfold Service.Response
  rw [h]

theorem Response_of_fault (L : GoLib) (F : FloatMul) (S : PriceSorter) (rnd : Nat) (s : Service)
    (req : Request) (priceCoeff : ℚ)
    (h : getServiceRecords L F S rnd s req priceCoeff = none) :
    s.Response L F S rnd req priceCoeff = none := by
  unfold Service.Response
  rw [h]

theorem survivors_eq_nil_iff (apisMap : String → Option APIDataGetter) (req : Request)
    (prods : List Product) :
    prods.flatMap (specSurvivingOffers apisMap req) = [] ↔
      ∀ p ∈ prods, ∀ a, apisMap p.ProviderName = some a →
        ∀ d ∈ (a.GetAPIData req).1, p.IsGoodTariff d.TariffName = false := by
  rw [List.flatMap_eq_nil_iff]
  constructor
  · intro h p hp a ha d hd
    have := h p hp
    simp only [specSurvivingOffers, ha, List.map_eq_nil_iff, List.filter_eq_nil_iff] at this
    simpa using this d hd
  · intro h p hp
    unfold specSurvivingOffers
    cases ha : apisMap p.ProviderName with
    | none => rfl
    | some a =>
      simp only [List.map_eq_nil_iff, List.filter_eq_nil_iff]
      intro d hd
      simp [h p hp a ha d hd]

theorem filterMap_render_eq_nil (L : GoLib) (l : List (APIData × Product))
    (hall : l.all (fun dp => (specRenderRecord L dp).isSome) = true)
    (hnil : l.filterMap (specRenderRecord L) = []) : l = [] := by
  cases l with
  | nil => rfl
  | cons dp t =>
    simp only [List.all_cons, Bool.and_eq_true] at hall
    obtain ⟨r, hr⟩ := Option.isSome_iff_exists.mp hall.1
    simp [List.filterMap_cons, hr] at hnil

theorem requestProviders_error_iff (L : GoLib) (apisMap : String → Option APIDataGetter)
    (req : Request) (prods : List Product) :
    ((∃ recs e, requestProviders L apisMap req prods = some (recs, some e)) ↔
        prods.flatMap (specSurvivingOffers apisMap req) = []) ∧
      (∀ recs e, requestProviders L apisMap req prods = some (recs, some e) →
        recs = [] ∧ e = (Error.new .ErrNoAPIData).Wrap "All providers") := by
  rw [requestProviders_eq]
  by_cases hall : (prods.flatMap (specSurvivingOffers apisMap req)).all
      (fun dp => (specRenderRecord L dp).isSome) = true
  · rw [if_pos hall]
    by_cases hnil : (prods.flatMap (specSurvivingOffers apisMap req)).filterMap
        (specRenderRecord L) = []
    · rw [if_pos hnil]
      refine ⟨⟨fun _ => filterMap_render_eq_nil L _ hall hnil, fun _ => ⟨_, _, rfl⟩⟩, ?_⟩
      intro recs e h
      simp only [Option.some.injEq, Prod.mk.injEq] at h
      exact ⟨h.1.symm, h.2.symm⟩
    · rw [if_neg hnil]
      refine ⟨⟨?_, ?_⟩, ?_⟩
      · rintro ⟨recs, e, h⟩
        simp at h
      · intro h
        rw [h] at hnil
        exact absurd rfl hnil
      · intro recs e h
        simp at h
  · rw [if_neg hall]
    refine ⟨⟨?_, ?_⟩, ?_⟩
    · rintro ⟨recs, e, h⟩
      simp at h
    · intro h
      rw [h] at hall
      exact absurd rfl hall
    · intro recs e h
      simp at h

theorem Response_error_iff (L : GoLib) (F : FloatMul) (S : PriceSorter) (rnd : Nat) (s : Service)
    (req : Request) (priceCoeff : ℚ) (prods : List Product)
    (hprods : s.prodCache.GetProducts req.RegionID = (prods, none)) :
    ((∃ resp e, s.Response L F S rnd req priceCoeff = some (resp, some e)) ↔
        prods.flatMap (specSurvivingOffers s.apisMap req) = []) ∧
      (∀ resp e, s.Response L F S rnd req priceCoeff = some (resp, some e) →
        resp = emptyResponse ∧
        e = (((Error.new .ErrNoAPIData).Wrap "All providers").Wrap
              "Error when request taxiAPIs").Wrap "Empty data from providers") := by
  have hgs := getServiceRecords_eq L F S rnd s req priceCoeff prods hprods
  have hrp := requestProviders_error_iff L s.apisMap req prods
  cases hreq : requestProviders L s.apisMap req prods with
  | none =>
    rw [hreq] at hgs hrp
    rw [Response_of_fault L F S rnd s req priceCoeff hgs]
    refine ⟨⟨?_, ?_⟩, ?_⟩
    · rintro ⟨resp, e, h⟩
      simp at h
    · intro h
      obtain ⟨recs, e, h2⟩ := hrp.1.mpr h
      simp at h2
    · intro resp e h
      simp at h
  | some re =>
    obtain ⟨recs, err⟩ := re
    cases err with
    | some e0 =>
      rw [hreq] at hgs hrp
      obtain ⟨h1, h2⟩ := hrp.2 recs e0 rfl
      rw [Response_of_error L F S rnd s req priceCoeff [] [] _ hgs]
      refine ⟨⟨fun _ => hrp.1.mp ⟨recs, e0, rfl⟩, fun _ => ⟨_, _, rfl⟩⟩, ?_⟩
      intro resp e h
      simp only [Option.some.injEq, Prod.mk.injEq] at h
      rw [← h.1, ← h.2, h2]
      exact ⟨rfl, rfl⟩
    | none =>
      rw [hreq] at hgs hrp
      have hno : ¬ prods.flatMap (specSurvivingOffers s.apisMap req) = [] := by
        intro h
        obtain ⟨recs2, e, h2⟩ := hrp.1.mpr h
        simp at h2
      simp only at hgs
      cases hopt : getOptimalElse F S rnd recs (isOptimalLoop prods) priceCoeff with
      | none =>
        rw [hopt] at hgs
        rw [Response_of_fault L F S rnd s req priceCoeff hgs]
        refine ⟨⟨?_, fun h => absurd h hno⟩, ?_⟩
        · rintro ⟨resp, e, h⟩
          simp at h
        · intro resp e h
          simp at h
      | some oe =>
        obtain ⟨o, el⟩ := oe
        rw [hopt] at hgs
        rw [Response_of_records L F S rnd s req priceCoeff o el hgs]
        refine ⟨⟨?_, fun h => absurd h hno⟩, ?_⟩
        · rintro ⟨resp, e, h⟩
          simp at h
        · intro resp e h
          simp at h

theorem specSurvivingOffers_congr (apisMap apisMap2 : String → Option APIDataGetter)
    (req : Request)
    (h : ∀ name, (apisMap2 name).map (fun a => (a.GetAPIData req).1)
      = (apisMap name).map (fun a => (a.GetAPIData req).1)) (p : Product) :
    specSurvivingOffers apisMap2 req p = specSurvivingOffers apisMap req p := by
  have hp := h p.ProviderName
  unfold specSurvivingOffers
  cases h1 : apisMap p.ProviderName with
  | none =>
    cases h2 : apisMap2 p.ProviderName with
    | none => rfl
    | some a2 => rw [h1, h2] at hp; simp at hp
  | some a =>
    cases h2 : apisMap2 p.ProviderName with
    | none => rw [h1, h2] at hp; simp at hp
    | some a2 =>
      rw [h1, h2] at hp
      simp only [Option.map_some', Option.some.injEq] at hp
      simp only [hp]

/-- C7: for the products the catalog returns for the region, requestProviders
fails exactly when no offer survives (no product has a registered adapter, or
the matched adapters return no offers, or the tariff whitelists remove every
returned offer), and Response fails exactly then; the error is ErrNoAPIData
with its wrapping messages. The errors the adapters return do not matter: two
adapter maps that return the same offers give the same result. -/
theorem requestProviders_no_data_iff (L : GoLib) (F : FloatMul) (S : PriceSorter) (rnd : Nat)
    (s : Service)
    (req : Request) (priceCoeff : ℚ) (prods : List Product)
    (hprods : s.prodCache.GetProducts req.RegionID = (prods, none)) :
    ((∃ recs e, requestProviders L s.apisMap req prods = some (recs, some e)) ↔
      ∀ p ∈ prods, ∀ a, s.apisMap p.ProviderName = some a →
        ∀ d ∈ (a.GetAPIData req).1, p.IsGoodTariff d.TariffName = false) ∧
    (∀ recs e, requestProviders L s.apisMap req prods = some (recs, some e) →
      recs = [] ∧ e = (Error.new .ErrNoAPIData).Wrap "All providers") ∧
    ((∃ resp e, s.Response L F S rnd req priceCoeff = some (resp, some e)) ↔
      ∀ p ∈ prods, ∀ a, s.apisMap p.ProviderName = some a →
        ∀ d ∈ (a.GetAPIData req).1, p.IsGoodTariff d.TariffName = false) ∧
    (∀ resp e, s.Response L F S rnd req priceCoeff = some (resp, some e) →
      e.cause = .ErrNoAPIData) ∧
    (∀ apisMap2 : String → Option APIDataGetter,
      (∀ name, (apisMap2 name).map (fun a => (a.GetAPIData req).1)
        = (s.apisMap name).map (fun a => (a.GetAPIData req).1)) →
      requestProviders L apisMap2 req prods = requestProviders L s.apisMap req prods) := by
  have h1 := requestProviders_error_iff L s.apisMap req prods
  have h2 := Response_error_iff L F S rnd s req priceCoeff prods hprods
  have h3 := survivors_eq_nil_iff s.apisMap req prods
  refine ⟨h1.1.trans h3, h1.2, h2.1.trans h3, ?_, ?_⟩
  · intro resp e h
    rw [(h2.2 resp e h).2]
    rfl
  · intro apisMap2 hsame
    have hfun : specSurvivingOffers apisMap2 req = specSurvivingOffers s.apisMap req :=
      funext (specSurvivingOffers_congr s.apisMap apisMap2 req hsame)
    rw [requestProviders_eq, requestProviders_eq, hfun]

/-- Counterexample to C8: two products of the provider "uber", whose adapter
returns one offer. The first product has the URL of the iOS store and no
identifier of the application, so the rendering of its offer faults:
requestProviders faults and collects nothing, although the second product alone
gives its record and the union of the rendered records holds that record. -/
theorem requestProviders_collects_counterexample :
    requestProviders sampleLib (sampleApisMap (sampleAdapter "uber" [sampleOffer "" 100] none))
        sampleRequest
        [(recordToProduct sampleLib sampleStoreRow).1, sampleProduct "uber" [] false] = none ∧
    requestProviders sampleLib (sampleApisMap (sampleAdapter "uber" [sampleOffer "" 100] none))
        sampleRequest
        [sampleProduct "uber" [] false, (recordToProduct sampleLib sampleStoreRow).1] = none ∧
    (requestProviders sampleLib (sampleApisMap (sampleAdapter "uber" [sampleOffer "" 100] none))
        sampleRequest [sampleProduct "uber" [] false]).map (fun r => (r.1.length, r.2))
      = some (1, none) ∧
    (([(recordToProduct sampleLib sampleStoreRow).1, sampleProduct "uber" [] false].flatMap
        (specSurvivingOffers (sampleApisMap (sampleAdapter "uber" [sampleOffer "" 100] none))
          sampleRequest)).filterMap (specRenderRecord sampleLib)).length = 1 := by
  refine ⟨?_, ?_, ?_, ?_⟩ <;> decide!

/-- C8, amended: when every whitelisted offer renders into a record without a
fault, requestProviders returns, and the records it collects are, up to order,
the records rendered from the whitelisted offers of the products whose
ProviderName has a registered adapter; a product whose adapter returns no offers
(with or without an error) can be dropped from the list without changing the
result. -/
theorem requestProviders_collects (L : GoLib) (apisMap : String → Option APIDataGetter)
    (req : Request) (prods : List Product)
    (hrender : ∀ dp ∈ prods.flatMap (specSurvivingOffers apisMap req),
      (specRenderRecord L dp).isSome = true) :
    (∃ recs err, requestProviders L apisMap req prods = some (recs, err) ∧
      recs.Perm ((prods.flatMap (specSurvivingOffers apisMap req)).filterMap
        (specRenderRecord L))) ∧
    (∀ ps1 p ps2 a, prods = ps1 ++ p :: ps2 → apisMap p.ProviderName = some a →
      (a.GetAPIData req).1 = [] →
      requestProviders L apisMap req prods = requestProviders L apisMap req (ps1 ++ ps2)) := by
  refine ⟨?_, ?_⟩
  · rw [requestProviders_eq, if_pos (List.all_eq_true.mpr hrender)]
    split
    · rename_i h
      exact ⟨_, _, rfl, by rw [h]⟩
    · exact ⟨_, _, rfl, List.Perm.refl _⟩
  · intro ps1 p ps2 a hsplit ha hempty
    have hp : specSurvivingOffers apisMap req p = [] := by
      simp [specSurvivingOffers, ha, hempty]
    have hflat : prods.flatMap (specSurvivingOffers apisMap req)
        = (ps1 ++ ps2).flatMap (specSurvivingOffers apisMap req) := by
      rw [hsplit, List.flatMap_append, List.flatMap_cons, hp, List.nil_append,
        List.flatMap_append]
    rw [requestProviders_eq, requestProviders_eq, hflat]

theorem newResponse_Optimal (m : Option meta) (optimal elses : List serviceRecord)
    (h : optimal ≠ []) :
    ∃ b, (newResponse m optimal elses).Result.Optimal = some b ∧ b.Results = optimal := by
  have hlen : optimal.length > 0 := List.length_pos.mpr h
  unfold newResponse
  simp only [hlen, if_true]
  exact ⟨_, rfl, rfl⟩

theorem newResponse_Else (m : Option meta) (optimal elses : List serviceRecord)
    (h : elses ≠ []) :
    ∃ b, (newResponse m optimal elses).Result.Else = some b ∧ b.Results = elses := by
  have hlen : elses.length > 0 := List.length_pos.mpr h
  unfold newResponse
  simp only [hlen, if_true]
  exact ⟨_, rfl, rfl⟩

/-- C6, refuted as stated: the only product of the region has the whitelist
["tar1"], its adapter is registered and returns one offer of mean price 200
whose tariff name is empty; the offer is filtered out and Response fails with
ErrNoAPIData. -/
theorem Response_whitelist_counterexample :
    (∃ p ∈ [sampleProduct "test1" ["tar1"] false],
      ∃ api, sampleApisMap (sampleAdapter "test1" [sampleOffer "" 200] none) p.ProviderName
          = some api ∧
        ∃ d ∈ (api.GetAPIData sampleRequest).1, d.PriceMean > 0) ∧
    (sampleService (sampleAdapter "test1" [sampleOffer "" 200] none)
        [sampleProduct "test1" ["tar1"] false] (1000, 2000, none)).Response
        sampleLib exactMul insertionSorter 0 sampleRequest (13 / 10)
      = some (emptyResponse,
          some ((((Error.new .ErrNoAPIData).Wrap "All providers").Wrap
            "Error when request taxiAPIs").Wrap "Empty data from providers")) := by
  refine ⟨⟨sampleProduct "test1" ["tar1"] false, by simp,
    sampleAdapter "test1" [sampleOffer "" 200] none, by rfl, sampleOffer "" 200, ?_, ?_⟩, ?_⟩
  · simp [sampleAdapter]
  · norm_num [sampleOffer]
  · decide!

/-- C6, amended: if the catalog returns the products of the region, one of them
has a registered adapter that returns an offer with PriceMean > 0 whose tariff
name passes the whitelist of that product, and every whitelisted offer renders
into a record, then Response succeeds and the response has a non-empty optimal
block or a non-empty else block. -/
theorem Response_nonempty_blocks (L : GoLib) (F : FloatMul) (S : PriceSorter) (rnd : Nat)
    (s : Service)
    (req : Request) (priceCoeff : ℚ) (prods : List Product) (p : Product) (api : APIDataGetter)
    (d : APIData)
    (hprods : s.prodCache.GetProducts req.RegionID = (prods, none))
    (hp : p ∈ prods) (hapi : s.apisMap p.ProviderName = some api)
    (hd : d ∈ (api.GetAPIData req).1) (hprice : d.PriceMean > 0)
    (hgood : p.IsGoodTariff d.TariffName = true)
    (hrender : ∀ dp ∈ prods.flatMap (specSurvivingOffers s.apisMap req),
      (specRenderRecord L dp).isSome = true) :
    ∃ resp, s.Response L F S rnd req priceCoeff = some (resp, none) ∧
      ((∃ b, resp.Result.Optimal = some b ∧ b.Results ≠ []) ∨
        (∃ b, resp.Result.Else = some b ∧ b.Results ≠ [])) := by
  have _hprice := hprice
  have hmem : (d, p) ∈ prods.flatMap (specSurvivingOffers s.apisMap req) := by
    rw [List.mem_flatMap]
    refine ⟨p, hp, ?_⟩
    simp only [specSurvivingOffers, hapi, List.mem_map, List.mem_filter]
    exact ⟨d, ⟨hd, hgood⟩, rfl⟩
  obtain ⟨r, hr⟩ := Option.isSome_iff_exists.mp (hrender _ hmem)
  have hne : (prods.flatMap (specSurvivingOffers s.apisMap req)).filterMap (specRenderRecord L)
      ≠ [] := by
    intro h
    have : r ∈ (prods.flatMap (specSurvivingOffers s.apisMap req)).filterMap
        (specRenderRecord L) := List.mem_filterMap.mpr ⟨_, hmem, hr⟩
    rw [h] at this
    simp at this
  have hreq := requestProviders_eq L s.apisMap req prods
  rw [if_pos (List.all_eq_true.mpr hrender), if_neg hne] at hreq
  have hgs := getServiceRecords_eq L F S rnd s req priceCoeff prods hprods
  rw [hreq] at hgs
  obtain ⟨optimal, elses, hopt, _, hperm, _⟩ :=
    getOptimalElse_of_ne_nil F S rnd _ (isOptimalLoop prods) priceCoeff hne
  simp only [hopt] at hgs
  refine ⟨_, Response_of_records L F S rnd s req priceCoeff optimal elses hgs, ?_⟩
  have hne2 : optimal ++ elses ≠ [] := by
    intro h
    rw [h] at hperm
    exact hne hperm.symm.eq_nil
  by_cases hopt_nil : optimal = []
  · right
    have hels : elses ≠ [] := by
      intro h
      rw [hopt_nil, h] at hne2
      exact hne2 rfl
    obtain ⟨b, hb, hres⟩ := newResponse_Else
      (if (s.distTimeSrv.DistanceTime req).2.2 ≠ none ∨
          ((s.distTimeSrv.DistanceTime req).1 = 0 ∧ (s.distTimeSrv.DistanceTime req).2.1 = 0)
        then none else some (getMeta s req).1) optimal elses hels
    exact ⟨b, hb, by rw [hres]; exact hels⟩
  · left
    obtain ⟨b, hb, hres⟩ := newResponse_Optimal
      (if (s.distTimeSrv.DistanceTime req).2.2 ≠ none ∨
          ((s.distTimeSrv.DistanceTime req).1 = 0 ∧ (s.distTimeSrv.DistanceTime req).2.1 = 0)
        then none else some (getMeta s req).1) optimal elses hopt_nil
    exact ⟨b, hb, by rw [hres]; exact hopt_nil⟩

/-- Witness for the amended C6: the whitelist ["tariff1", "tariff2"] and three
offers named tariff1, tariff2 and tariff3. -/
theorem Response_nonempty_blocks_witness :
    ∃ resp,
      (sampleService
          (sampleAdapter "test1"
            [sampleOffer "tariff1" 200, sampleOffer "tariff2" 300, sampleOffer "tariff3" 100] none)
          [sampleProduct "test1" ["tariff1", "tariff2"] false] (1000, 2000, none)).Response
          sampleLib exactMul insertionSorter 0 sampleRequest (13 / 10) = some (resp, none) ∧
      ((∃ b, resp.Result.Optimal = some b ∧ b.Results ≠ []) ∨
        (∃ b, resp.Result.Else = some b ∧ b.Results ≠ [])) :=
  Response_nonempty_blocks sampleLib exactMul insertionSorter 0
    (sampleService
      (sampleAdapter "test1"
        [sampleOffer "tariff1" 200, sampleOffer "tariff2" 300, sampleOffer "tariff3" 100] none)
      [sampleProduct "test1" ["tariff1", "tariff2"] false] (1000, 2000, none))
    sampleRequest (13 / 10) [sampleProduct "test1" ["tariff1", "tariff2"] false]
    (sampleProduct "test1" ["tariff1", "tariff2"] false)
    (sampleAdapter "test1"
      [sampleOffer "tariff1" 200, sampleOffer "tariff2" 300, sampleOffer "tariff3" 100] none)
    (sampleOffer "tariff1" 200)
    rfl (by simp) (by rfl) (by simp [sampleAdapter]) (by norm_num [sampleOffer]) (by decide)
    (by decide!)

/-- Witness for C7: the only offer is removed by the whitelist ["tar1"]. -/
theorem requestProviders_no_data_iff_witness :
    (∃ resp e,
      (sampleService (sampleAdapter "test1" [sampleOffer "" 200] none)
        [sampleProduct "test1" ["tar1"] false] (1000, 2000, none)).Response
        sampleLib exactMul insertionSorter 0 sampleRequest (13 / 10) = some (resp, some e)) ↔
      ∀ p ∈ [sampleProduct "test1" ["tar1"] false], ∀ a,
        (sampleService (sampleAdapter "test1" [sampleOffer "" 200] none)
          [sampleProduct "test1" ["tar1"] false] (1000, 2000, none)).apisMap p.ProviderName
            = some a →
        ∀ d ∈ (a.GetAPIData sampleRequest).1, p.IsGoodTariff d.TariffName = false :=
  (requestProviders_no_data_iff sampleLib exactMul insertionSorter 0
    (sampleService (sampleAdapter "test1" [sampleOffer "" 200] none)
      [sampleProduct "test1" ["tar1"] false] (1000, 2000, none))
    sampleRequest (13 / 10) [sampleProduct "test1" ["tar1"] false] rfl).2.2.1

/-- Witness for the amended C8: one product with the whitelist
["tariff1", "tariff2"] and three offers. -/
theorem requestProviders_collects_witness :
    ∃ recs err,
      requestProviders sampleLib
          (sampleApisMap (sampleAdapter "test1"
            [sampleOffer "tariff1" 200, sampleOffer "tariff2" 300, sampleOffer "tariff3" 100] none))
          sampleRequest [sampleProduct "test1" ["tariff1", "tariff2"] false] = some (recs, err) ∧
      recs.Perm (([sampleProduct "test1" ["tariff1", "tariff2"] false].flatMap
        (specSurvivingOffers
          (sampleApisMap (sampleAdapter "test1"
            [sampleOffer "tariff1" 200, sampleOffer "tariff2" 300, sampleOffer "tariff3" 100] none))
          sampleRequest)).filterMap (specRenderRecord sampleLib)) :=
  (requestProviders_collects sampleLib
    (sampleApisMap (sampleAdapter "test1"
      [sampleOffer "tariff1" 200, sampleOffer "tariff2" 300, sampleOffer "tariff3" 100] none))
    sampleRequest [sampleProduct "test1" ["tariff1", "tariff2"] false] (by decide!)).1

/-! ## The router and the response -/

theorem getServiceRecords_router (L : GoLib) (F : FloatMul) (S : PriceSorter) (rnd : Nat)
    (s : Service)
    (router2 : DistanceTimeService) (req : Request) (priceCoeff : ℚ) :
    getServiceRecords L F S rnd { s with distTimeSrv := router2 } req priceCoeff
      = getServiceRecords L F S rnd s req priceCoeff := rfl

/-- C9: replacing the router by any other one changes neither whether Response
faults, fails or succeeds, nor its error, nor the result block (id, optimal,
else) of the response; when Response succeeds, the Meta of the response is
absent exactly when the router failed or returned distance 0 and time 0, and
otherwise holds the distance and the time the router returned; when Response
fails, what it returns beside the error is the zero Response. -/
theorem Response_router_independent (L : GoLib) (F : FloatMul) (S : PriceSorter) (rnd : Nat)
    (s : Service) (router2 : DistanceTimeService) (req : Request) (priceCoeff : ℚ) :
    ((({ s with distTimeSrv := router2 } : Service).Response L F S rnd req priceCoeff).map
        (fun x => (x.1.Result, x.2))
      = (s.Response L F S rnd req priceCoeff).map (fun x => (x.1.Result, x.2))) ∧
    (∀ resp, s.Response L F S rnd req priceCoeff = some (resp, none) →
      (resp.Meta = none ↔
        ((s.distTimeSrv.DistanceTime req).2.2 ≠ none ∨
          ((s.distTimeSrv.DistanceTime req).1 = 0 ∧ (s.distTimeSrv.DistanceTime req).2.1 = 0))) ∧
      (resp.Meta ≠ none →
        resp.Meta = some { Distance := some (s.distTimeSrv.DistanceTime req).1
                           Time := some (s.distTimeSrv.DistanceTime req).2.1 })) ∧
    (∀ resp e, s.Response L F S rnd req priceCoeff = some (resp, some e) →
      resp = emptyResponse) := by
  have hrouter := getServiceRecords_router L F S rnd s router2 req priceCoeff
  cases hgs : getServiceRecords L F S rnd s req priceCoeff with
  | none =>
    rw [hgs] at hrouter
    rw [Response_of_fault L F S rnd _ req priceCoeff hrouter,
      Response_of_fault L F S rnd s req priceCoeff hgs]
    refine ⟨rfl, ?_, ?_⟩
    · intro resp h
      simp at h
    · intro resp e h
      simp at h
  | some oee =>
    obtain ⟨optimal, elses, err⟩ := oee
    rw [hgs] at hrouter
    cases err with
    | some e =>
      rw [Response_of_error L F S rnd _ req priceCoeff optimal elses e hrouter,
        Response_of_error L F S rnd s req priceCoeff optimal elses e hgs]
      refine ⟨rfl, ?_, ?_⟩
      · intro resp h
        simp at h
      · intro resp e2 h
        simp only [Option.some.injEq, Prod.mk.injEq] at h
        exact h.1.symm
    | none =>
      rw [Response_of_records L F S rnd _ req priceCoeff optimal elses hrouter,
        Response_of_records L F S rnd s req priceCoeff optimal elses hgs]
      refine ⟨rfl, ?_, ?_⟩
      · intro resp h
        simp only [Option.some.injEq, Prod.mk.injEq, and_true] at h
        rw [← h]
        by_cases hc : (s.distTimeSrv.DistanceTime req).2.2 ≠ none ∨
            ((s.distTimeSrv.DistanceTime req).1 = 0 ∧ (s.distTimeSrv.DistanceTime req).2.1 = 0)
        · simp only [newResponse, hc, if_true, true_iff, ne_eq, not_true_eq_false,
            false_implies, and_self]
        · have herr : (s.distTimeSrv.DistanceTime req).2.2 = none := by
            by_contra hne
            exact hc (Or.inl hne)
          simp only [newResponse, hc, if_false, iff_false, ne_eq, not_false_eq_true,
            true_implies, (getMeta_isEmpty s req).2 herr, newMeta, true_and]
          exact ⟨by simp, fun _ => trivial⟩
      · intro resp e h
        simp at h

/-! ## The adapters: validation of prices -/

theorem foldl_append_singleton {α β : Type} (f : α → β) (l : List α) (init : List β) :
    l.foldl (fun result p => result ++ [f p]) init = init ++ l.map f := by
  induction l generalizing init with
  | nil => simp
  | cons a t ih => simp [ih]

theorem gettPriceLoop_spec (l : List gettPriceItem) :
    (gettPriceLoop l = none ↔
        ∀ p ∈ l, 0 < ((intAdd p.HighEstimate p.LowEstimate : Int) : ℚ) / 2) ∧
      (∀ e, gettPriceLoop l = some e → e.cause = .ErrInvalidPrice) := by
  induction l with
  | nil => simp [gettPriceLoop]
  | cons a t ih =>
    unfold gettPriceLoop
    by_cases h : ((intAdd a.HighEstimate a.LowEstimate : Int) : ℚ) / 2 ≤ 0
    · rw [if_pos h]
      refine ⟨⟨fun h0 => absurd h0 (by simp), fun h0 => ?_⟩, ?_⟩
      · exact absurd (h0 a (by simp)) (not_lt.mpr h)
      · intro e he
        rw [← Option.some.inj he]
        rfl
    · rw [if_neg h]
      refine ⟨?_, ih.2⟩
      rw [ih.1]
      simp only [List.mem_cons, forall_eq_or_imp]
      exact ⟨fun h0 => ⟨not_le.mp h, h0⟩, fun h0 => h0.2⟩

theorem uberPriceLoop_spec (M : FloatMean) (l : List uberPrice) :
    (uberPriceLoop M l = none ↔ ∀ p ∈ l, 0 < M.mean p.LowEstimate p.HighEstimate) ∧
      (∀ e, uberPriceLoop M l = some e → e.cause = .ErrInvalidPrice) := by
  induction l with
  | nil => simp [uberPriceLoop]
  | cons a t ih =>
    unfold uberPriceLoop
    by_cases h : M.mean a.LowEstimate a.HighEstimate ≤ 0
    · rw [if_pos h]
      refine ⟨⟨fun h0 => absurd h0 (by simp), fun h0 => ?_⟩, ?_⟩
      · exact absurd (h0 a (by simp)) (not_lt.mpr h)
      · intro e he
        rw [← Option.some.inj he]
        rfl
    · rw [if_neg h]
      refine ⟨?_, ih.2⟩
      rw [ih.1]
      simp only [List.mem_cons, forall_eq_or_imp]
      exact ⟨fun h0 => ⟨not_le.mp h, h0⟩, fun h0 => h0.2⟩

theorem citymobilPriceLoop_spec (l : List citymobilPrice) :
    (citymobilPriceLoop l = none ↔ ∀ p ∈ l, 0 < p.TotalPrice) ∧
      (∀ e, citymobilPriceLoop l = some e → e.cause = .ErrInvalidPrice) := by
  induction l with
  | nil => simp [citymobilPriceLoop]
  | cons a t ih =>
    unfold citymobilPriceLoop
    by_cases h : a.TotalPrice ≤ 0
    · rw [if_pos h]
      refine ⟨⟨fun h0 => absurd h0 (by simp), fun h0 => ?_⟩, ?_⟩
      · exact absurd (h0 a (by simp)) (not_lt.mpr h)
      · intro e he
        rw [← Option.some.inj he]
        rfl
    · rw [if_neg h]
      refine ⟨?_, ih.2⟩
      rw [ih.1]
      simp only [List.mem_cons, forall_eq_or_imp]
      exact ⟨fun h0 => ⟨not_le.mp h, h0⟩, fun h0 => h0.2⟩

/-- C10: for Gett, Uber and Citymobil, when the HTTP call of the price step
succeeds and the price list is empty or holds an offer whose mean price is ≤ 0,
the price step fails with ErrInvalidPrice and GetAPIData returns the empty list
with an error of that cause; and every APIData that GetAPIData returns, for any
outcome of the upstream calls, has PriceMean > 0. -/
theorem adapters_reject_invalid_price (L : GoLib) (M : FloatMean) (taxiReq : Request) :
    (∀ (h : gettAPI) (holder : gettPrice) (etaResp : HttpResult gettEta),
      (holder.Prices = [] ∨
          ∃ p ∈ holder.Prices, ((intAdd p.HighEstimate p.LowEstimate : Int) : ℚ) / 2 ≤ 0) →
        (∃ e, (h.price { holder := holder, err := none }).2 = some e ∧
          e.cause = .ErrInvalidPrice) ∧
        (∃ e, h.GetAPIData L { holder := holder, err := none } etaResp taxiReq = ([], some e) ∧
          e.cause = .ErrInvalidPrice)) ∧
    (∀ (h : gettAPI) (priceResp : HttpResult gettPrice) (etaResp : HttpResult gettEta),
      ∀ d ∈ (h.GetAPIData L priceResp etaResp taxiReq).1, d.PriceMean > 0) ∧
    (∀ (h : uberAPI) (holder : uberPricesResponse) (timeResp : HttpResult uberTimesResponse),
      (holder.Prices = [] ∨
          ∃ p ∈ holder.Prices, (p.LowEstimate + p.HighEstimate) / 2 ≤ 0 ∨
            M.mean p.LowEstimate p.HighEstimate ≤ 0) →
        (∃ e, (h.prices M { holder := holder, err := none }).2 = some e ∧
          e.cause = .ErrInvalidPrice) ∧
        (∃ e, h.GetAPIData L M { holder := holder, err := none } timeResp taxiReq
            = ([], some e) ∧
          e.cause = .ErrInvalidPrice)) ∧
    (∀ (h : uberAPI) (priceResp : HttpResult uberPricesResponse)
        (timeResp : HttpResult uberTimesResponse),
      ∀ d ∈ (h.GetAPIData L M priceResp timeResp taxiReq).1, d.PriceMean > 0) ∧
    (∀ (h : citymobilAPI) (holder : citymobilPriceResponse),
      (holder.Prices = [] ∨ ∃ p ∈ holder.Prices, p.TotalPrice ≤ 0) →
        (∃ e, (h.price { holder := holder, err := none }).2 = some e ∧
          e.cause = .ErrInvalidPrice) ∧
        (∃ e, h.GetAPIData { holder := holder, err := none } taxiReq = ([], some e) ∧
          e.cause = .ErrInvalidPrice)) ∧
    (∀ (h : citymobilAPI) (resp : HttpResult citymobilPriceResponse),
      ∀ d ∈ (h.GetAPIData resp taxiReq).1, d.PriceMean > 0) := by
  refine ⟨?_, ?_, ?_, ?_, ?_, ?_⟩
  · intro h holder etaResp hbad
    have hprice : ∃ e, (h.price { holder := holder, err := none }).2 = some e ∧
        e.cause = .ErrInvalidPrice := by
      unfold gettAPI.price
      by_cases hlen : holder.Prices.length = 0
      · simp only [hlen, if_true]
        exact ⟨_, rfl, rfl⟩
      · simp only [hlen, if_false]
        cases hloop : gettPriceLoop holder.Prices with
        | some e => exact ⟨e, rfl, (gettPriceLoop_spec _).2 e hloop⟩
        | none =>
          rcases hbad with h0 | ⟨p, hp, hle⟩
          · rw [h0] at hlen; exact absurd rfl hlen
          · exact absurd ((gettPriceLoop_spec _).1.mp hloop p hp) (not_lt.mpr hle)
    refine ⟨hprice, ?_⟩
    obtain ⟨e, he, hcause⟩ := hprice
    refine ⟨e.Wrap "Gett: Cannot request prices", ?_, hcause⟩
    unfold gettAPI.GetAPIData
    simp only [he]
  · intro h priceResp etaResp d hd
    unfold gettAPI.GetAPIData at hd
    cases herr : (h.price priceResp).2 with
    | some e => simp [herr] at hd
    | none =>
      have hholder : (h.price priceResp).1 = priceResp.holder := by
        unfold gettAPI.price; split <;> (try split) <;> rfl
      have hloop : gettPriceLoop priceResp.holder.Prices = none := by
        unfold gettAPI.price at herr
        cases hperr : priceResp.err with
        | some e0 => simp [hperr] at herr
        | none =>
          simp only [hperr] at herr
          by_cases hlen : priceResp.holder.Prices.length = 0
          · simp [hlen] at herr
          · simpa [hlen] using herr
      have hmem : d ∈ (h.makeAPIDatas L (h.price priceResp).1 (h.time etaResp).1
          taxiReq.Point1 taxiReq.Point2) := by
        simp only [herr] at hd
        split at hd <;> exact hd
      unfold gettAPI.makeAPIDatas at hmem
      rw [foldl_append_singleton, List.nil_append, List.mem_map, hholder] at hmem
      obtain ⟨p, hp, hdp⟩ := hmem
      rw [← hdp]
      exact (gettPriceLoop_spec _).1.mp hloop p hp
  · intro h holder timeResp hbad
    have hprice : ∃ e, (h.prices M { holder := holder, err := none }).2 = some e ∧
        e.cause = .ErrInvalidPrice := by
      unfold uberAPI.prices
      by_cases hlen : holder.Prices.length = 0
      · simp only [hlen, if_true]
        exact ⟨_, rfl, rfl⟩
      · simp only [hlen, if_false]
        cases hloop : uberPriceLoop M holder.Prices with
        | some e => exact ⟨e, rfl, (uberPriceLoop_spec M _).2 e hloop⟩
        | none =>
          rcases hbad with h0 | ⟨p, hp, hle⟩
          · rw [h0] at hlen; exact absurd rfl hlen
          · have hmean : M.mean p.LowEstimate p.HighEstimate ≤ 0 := by
              rcases hle with hle | hle
              · exact M.nonpos _ _ (by linarith)
              · exact hle
            exact absurd ((uberPriceLoop_spec M _).1.mp hloop p hp) (not_lt.mpr hmean)
    refine ⟨hprice, ?_⟩
    obtain ⟨e, he, hcause⟩ := hprice
    refine ⟨e.Wrap "Uber: Cannot request prices", ?_, hcause⟩
    unfold uberAPI.GetAPIData
    simp only [he]
  · intro h priceResp timeResp d hd
    unfold uberAPI.GetAPIData at hd
    cases herr : (h.prices M priceResp).2 with
    | some e => simp [herr] at hd
    | none =>
      have hholder : (h.prices M priceResp).1 = priceResp.holder := by
        unfold uberAPI.prices; split <;> (try split) <;> rfl
      have hloop : uberPriceLoop M priceResp.holder.Prices = none := by
        unfold uberAPI.prices at herr
        cases hperr : priceResp.err with
        | some e0 => simp [hperr] at herr
        | none =>
          simp only [hperr] at herr
          by_cases hlen : priceResp.holder.Prices.length = 0
          · simp [hlen] at herr
          · simpa [hlen] using herr
      have hmem : d ∈ (h.makeAPIDatas L M (h.prices M priceResp).1 (h.times timeResp).1
          taxiReq.Point1 taxiReq.Point2) := by
        simp only [herr] at hd
        split at hd <;> exact hd
      unfold uberAPI.makeAPIDatas at hmem
      rw [foldl_append_singleton, List.nil_append, List.mem_map, hholder] at hmem
      obtain ⟨p, hp, hdp⟩ := hmem
      rw [← hdp]
      have := (uberPriceLoop_spec M _).1.mp hloop p hp
      simp only [gt_iff_lt]
      rw [M.comm]
      exact this
  · intro h holder hbad
    have hprice : ∃ e, (h.price { holder := holder, err := none }).2 = some e ∧
        e.cause = .ErrInvalidPrice := by
      unfold citymobilAPI.price
      by_cases hlen : holder.Prices.length = 0
      · simp only [hlen, if_true]
        exact ⟨_, rfl, rfl⟩
      · simp only [hlen, if_false]
        cases hloop : citymobilPriceLoop holder.Prices with
        | some e => exact ⟨e, rfl, (citymobilPriceLoop_spec _).2 e hloop⟩
        | none =>
          rcases hbad with h0 | ⟨p, hp, hle⟩
          · rw [h0] at hlen; exact absurd rfl hlen
          · exact absurd ((citymobilPriceLoop_spec _).1.mp hloop p hp) (not_lt.mpr hle)
    refine ⟨hprice, ?_⟩
    obtain ⟨e, he, hcause⟩ := hprice
    refine ⟨e.Wrap "citymobil: Cannot request prices", ?_, hcause⟩
    unfold citymobilAPI.GetAPIData
    simp only [he]
  · intro h resp d hd
    unfold citymobilAPI.GetAPIData at hd
    cases herr : (h.price resp).2 with
    | some e => simp [herr] at hd
    | none =>
      have hholder : (h.price resp).1 = resp.holder := by
        unfold citymobilAPI.price; split <;> (try split) <;> rfl
      have hloop : citymobilPriceLoop resp.holder.Prices = none := by
        unfold citymobilAPI.price at herr
        cases hperr : resp.err with
        | some e0 => simp [hperr] at herr
        | none =>
          simp only [hperr] at herr
          by_cases hlen : resp.holder.Prices.length = 0
          · simp [hlen] at herr
          · simpa [hlen] using herr
      simp only [herr] at hd
      unfold citymobilAPI.makeAPIDatas at hd
      rw [List.mem_map, hholder] at hd
      obtain ⟨p, hp, hdp⟩ := hd
      rw [← hdp]
      exact (citymobilPriceLoop_spec _).1.mp hloop p hp


/-! ## The adapters: times and price ranges -/

/-- C12: secondsToMins(0) = 0; secondsToMins(s) = 1 for 1 ≤ s ≤ 59; and for
s ≥ 60 secondsToMins(s) is the floor of s / 60, so that
secondsToMins(60 k + r) = k for k ≥ 1 and 0 ≤ r < 60. -/
theorem secondsToMins_spec :
    secondsToMins 0 = 0 ∧
    (∀ s : Int, 1 ≤ s → s ≤ 59 → secondsToMins s = 1) ∧
    (∀ s : Int, 60 ≤ s → secondsToMins s = ⌊(s : ℚ) / 60⌋ ∧ secondsToMins s = s / 60) ∧
    (∀ k r : Int, 1 ≤ k → 0 ≤ r → r < 60 → secondsToMins (60 * k + r) = k) := by
  have hge : ∀ s : Int, 60 ≤ s → secondsToMins s = s / 60 := by
    intro s hs
    unfold secondsToMins
    rw [if_neg (by omega), if_neg (by omega)]
    exact Int.tdiv_eq_ediv (by omega) (by omega)
  refine ⟨by decide, ?_, ?_, ?_⟩
  · intro s h1 h59
    unfold secondsToMins
    rw [if_neg (by omega), if_pos (by omega)]
  · intro s hs
    refine ⟨?_, hge s hs⟩
    rw [hge s hs]
    have := Rat.floor_intCast_div_natCast s 60
    simpa using this.symm
  · intro k r hk hr0 hr
    rw [hge _ (by omega)]
    omega

theorem gettAPI_price_holder (h : gettAPI) (resp : HttpResult gettPrice) :
    (h.price resp).1 = resp.holder := by
  unfold gettAPI.price; split <;> (try split) <;> rfl

theorem gettAPI_time_holder (h : gettAPI) (resp : HttpResult gettEta) :
    (h.time resp).1 = resp.holder := by
  unfold gettAPI.time; split <;> (try split) <;> rfl

theorem uberAPI_prices_holder (M : FloatMean) (h : uberAPI)
    (resp : HttpResult uberPricesResponse) : (h.prices M resp).1 = resp.holder := by
  unfold uberAPI.prices; split <;> (try split) <;> rfl

theorem uberAPI_times_holder (h : uberAPI) (resp : HttpResult uberTimesResponse) :
    (h.times resp).1 = resp.holder := by
  unfold uberAPI.times; split <;> (try split) <;> rfl

theorem gettAPI_GetAPIData_eq (L : GoLib) (h : gettAPI) (priceResp : HttpResult gettPrice)
    (etaResp : HttpResult gettEta) (taxiReq : Request) :
    h.GetAPIData L priceResp etaResp taxiReq
      = match (h.price priceResp).2 with
        | some e => ([], some (e.Wrap "Gett: Cannot request prices"))
        | none =>
          (h.makeAPIDatas L priceResp.holder etaResp.holder taxiReq.Point1 taxiReq.Point2,
            (h.time etaResp).2.map (fun e => e.Wrap "Gett: Cannot request eta")) := by
  unfold gettAPI.GetAPIData
  rw [← gettAPI_price_holder h priceResp, ← gettAPI_time_holder h etaResp]
  rcases h.price priceResp with ⟨price, errPrices⟩
  rcases h.time etaResp with ⟨eta, errEtas⟩
  cases errPrices <;> cases errEtas <;> rfl

theorem uberAPI_GetAPIData_eq (L : GoLib) (M : FloatMean) (h : uberAPI)
    (priceResp : HttpResult uberPricesResponse) (timeResp : HttpResult uberTimesResponse)
    (taxiReq : Request) :
    h.GetAPIData L M priceResp timeResp taxiReq
      = match (h.prices M priceResp).2 with
        | some e => ([], some (e.Wrap "Uber: Cannot request prices"))
        | none =>
          (h.makeAPIDatas L M priceResp.holder timeResp.holder taxiReq.Point1 taxiReq.Point2,
            (h.times timeResp).2.map (fun e => e.Wrap "Uber: Cannot request times")) := by
  unfold uberAPI.GetAPIData
  rw [← uberAPI_prices_holder M h priceResp, ← uberAPI_times_holder h timeResp]
  rcases h.prices M priceResp with ⟨uberPrices, errPrices⟩
  rcases h.times timeResp with ⟨uberTimes, errTimes⟩
  cases errPrices <;> cases errTimes <;> rfl

theorem gettEtaLookup_nil_or_zero (L : GoLib) (displayName : String) (l : List gettEtaItem)
    (h : ∀ e ∈ l, e.Eta = 0) : gettEtaLookup L displayName l = 0 := by
  induction l with
  | nil => rfl
  | cons e t ih =>
    unfold gettEtaLookup
    split
    · exact h e (by simp)
    · exact ih (fun x hx => h x (by simp [hx]))

theorem uberEtaLookup_nil_or_zero (productID : String) (l : List uberTime)
    (h : ∀ e ∈ l, e.Estimate = 0) : uberEtaLookup productID l = 0 := by
  induction l with
  | nil => rfl
  | cons e t ih =>
    unfold uberEtaLookup
    split
    · exact h e (by simp)
    · exact ih (fun x hx => h x (by simp [hx]))

theorem gettTimeLoop_spec (l : List gettEtaItem) :
    gettTimeLoop l = none ↔ ∀ e ∈ l, 0 < e.Eta := by
  induction l with
  | nil => simp [gettTimeLoop]
  | cons a t ih =>
    unfold gettTimeLoop
    by_cases h : a.Eta ≤ 0
    · rw [if_pos h]
      constructor
      · intro h0; exact absurd h0 (by simp)
      · intro h0; exact absurd (h0 a (by simp)) (by omega)
    · rw [if_neg h, ih]
      simp only [List.mem_cons, forall_eq_or_imp]
      exact ⟨fun h0 => ⟨by omega, h0⟩, fun h0 => h0.2⟩

theorem uberTimeLoop_spec (l : List uberTime) :
    uberTimeLoop l = none ↔ ∀ e ∈ l, 0 < e.Estimate := by
  induction l with
  | nil => simp [uberTimeLoop]
  | cons a t ih =>
    unfold uberTimeLoop
    by_cases h : a.Estimate ≤ 0
    · rw [if_pos h]
      constructor
      · intro h0; exact absurd h0 (by simp)
      · intro h0; exact absurd (h0 a (by simp)) (by omega)
    · rw [if_neg h, ih]
      simp only [List.mem_cons, forall_eq_or_imp]
      exact ⟨fun h0 => ⟨by omega, h0⟩, fun h0 => h0.2⟩

theorem gettAPI_time_fails_iff (h : gettAPI) (resp : HttpResult gettEta) :
    (h.time resp).2 ≠ none ↔
      (resp.err ≠ none ∨ resp.holder.Etas = [] ∨ ∃ e ∈ resp.holder.Etas, e.Eta ≤ 0) := by
  unfold gettAPI.time
  cases herr : resp.err with
  | some e => simp
  | none =>
    by_cases hlen : resp.holder.Etas.length = 0
    · have hnil : resp.holder.Etas = [] := List.length_eq_zero.mp hlen
      simp [hnil]
    · have hnil : ¬ resp.holder.Etas = [] := fun e => hlen (by rw [e]; rfl)
      simp only [hlen, if_false, ne_eq, not_true_eq_false, hnil, false_or]
      rw [not_iff_comm, gettTimeLoop_spec]
      constructor
      · intro h0 e he
        by_contra hle
        exact h0 ⟨e, he, by omega⟩
      · rintro h0 ⟨e, he, hle⟩
        have := h0 e he
        omega

theorem uberAPI_times_fails_iff (h : uberAPI) (resp : HttpResult uberTimesResponse) :
    (h.times resp).2 ≠ none ↔
      (resp.err ≠ none ∨ resp.holder.Times = [] ∨ ∃ e ∈ resp.holder.Times, e.Estimate ≤ 0) := by
  unfold uberAPI.times
  cases herr : resp.err with
  | some e => simp
  | none =>
    by_cases hlen : resp.holder.Times.length = 0
    · have hnil : resp.holder.Times = [] := List.length_eq_zero.mp hlen
      simp [hnil]
    · have hnil : ¬ resp.holder.Times = [] := fun e => hlen (by rw [e]; rfl)
      simp only [hlen, if_false, ne_eq, not_true_eq_false, hnil, false_or]
      rw [not_iff_comm, uberTimeLoop_spec]
      constructor
      · intro h0 e he
        by_contra hle
        exact h0 ⟨e, he, by omega⟩
      · rintro h0 ⟨e, he, hle⟩
        have := h0 e he
        omega

theorem gettAPI_makeAPIDatas_eta (L : GoLib) (h : gettAPI) (price : gettPrice) (eta : gettEta)
    (p1 p2 : Point) :
    (h.makeAPIDatas L price eta p1 p2).map (fun d => d.Eta)
      = price.Prices.map (fun p => secondsToMins (gettEtaLookup L p.DisplayName eta.Etas)) := by
  unfold gettAPI.makeAPIDatas
  rw [foldl_append_singleton, List.nil_append, List.map_map]
  rfl

theorem uberAPI_makeAPIDatas_eta (L : GoLib) (M : FloatMean) (h : uberAPI)
    (prices : uberPricesResponse) (uberTimes : uberTimesResponse) (p1 p2 : Point) :
    (h.makeAPIDatas L M prices uberTimes p1 p2).map (fun d => d.Eta)
      = prices.Prices.map (fun p => secondsToMins (uberEtaLookup p.ProductID uberTimes.Times)) := by
  unfold uberAPI.makeAPIDatas
  rw [foldl_append_singleton, List.nil_append, List.map_map]
  rfl

theorem eta_zero_of_map {α : Type} (datas : List APIData) (prices : List α) (f : α → Int)
    (hmap : datas.map (fun d => d.Eta) = prices.map f) (hf : ∀ p ∈ prices, f p = 0) :
    ∀ d ∈ datas, d.Eta = 0 := by
  intro d hd
  have hmem : d.Eta ∈ datas.map (fun d => d.Eta) := List.mem_map.mpr ⟨d, hd, rfl⟩
  rw [hmap] at hmem
  obtain ⟨p, hp, hpe⟩ := List.mem_map.mp hmem
  rw [← hpe]
  exact hf p hp

/-- C11, refuted as stated: Gett returns the price list [Эконом 100..300] and
the time list [Эконом 300 s, Комфорт 0 s]; the price step succeeds, the time
step fails with ErrInvalidTime because of the entry 0, and the APIData that
GetAPIData returns beside the error has Eta = 5, not 0. -/
theorem GetAPIData_eta_counterexample :
    (sampleGett.price (sampleOk { Prices := [sampleGettPrice "Эконом" 100 300] })).2 = none ∧
    (sampleGett.time
        (sampleOk { Etas := [sampleGettEta "Эконом" 300, sampleGettEta "Комфорт" 0] })).2
      = some ((Error.new .ErrInvalidTime).Wrap "Time <= 0") ∧
    (sampleGett.GetAPIData sampleLib
        (sampleOk { Prices := [sampleGettPrice "Эконом" 100 300] })
        (sampleOk { Etas := [sampleGettEta "Эконом" 300, sampleGettEta "Комфорт" 0] })
        sampleRequest).2
      = some (((Error.new .ErrInvalidTime).Wrap "Time <= 0").Wrap "Gett: Cannot request eta") ∧
    (sampleGett.GetAPIData sampleLib
        (sampleOk { Prices := [sampleGettPrice "Эконом" 100 300] })
        (sampleOk { Etas := [sampleGettEta "Эконом" 300, sampleGettEta "Комфорт" 0] })
        sampleRequest).1.map (fun d => d.Eta) = [5] := by
  refine ⟨?_, ?_, ?_, ?_⟩ <;> decide!

/-- C11, amended: for the Gett and Uber adapters the time step fails exactly
when the HTTP call fails, the time list is empty or one of its entries is ≤ 0;
whenever the price step succeeds and the time step fails, GetAPIData returns an
error and one APIData per price, and the Eta of each is secondsToMins of the
first matching entry of the list the time call left in its holder (0 when none
matches); hence every Eta is 0 when that list is empty or holds only zeros. -/
theorem GetAPIData_eta_failure (L : GoLib) (M : FloatMean) (taxiReq : Request) :
    (∀ (h : gettAPI) (priceResp : HttpResult gettPrice) (etaResp : HttpResult gettEta),
      ((h.time etaResp).2 ≠ none ↔
        (etaResp.err ≠ none ∨ etaResp.holder.Etas = [] ∨
          ∃ e ∈ etaResp.holder.Etas, e.Eta ≤ 0)) ∧
      ((h.price priceResp).2 = none → (h.time etaResp).2 ≠ none →
        (h.GetAPIData L priceResp etaResp taxiReq).2 ≠ none ∧
        (h.GetAPIData L priceResp etaResp taxiReq).1.length = priceResp.holder.Prices.length ∧
        (h.GetAPIData L priceResp etaResp taxiReq).1.map (fun d => d.Eta)
          = priceResp.holder.Prices.map
              (fun p => secondsToMins (gettEtaLookup L p.DisplayName etaResp.holder.Etas)) ∧
        ((∀ e ∈ etaResp.holder.Etas, e.Eta = 0) →
          ∀ d ∈ (h.GetAPIData L priceResp etaResp taxiReq).1, d.Eta = 0))) ∧
    (∀ (h : uberAPI) (priceResp : HttpResult uberPricesResponse)
        (timeResp : HttpResult uberTimesResponse),
      ((h.times timeResp).2 ≠ none ↔
        (timeResp.err ≠ none ∨ timeResp.holder.Times = [] ∨
          ∃ e ∈ timeResp.holder.Times, e.Estimate ≤ 0)) ∧
      ((h.prices M priceResp).2 = none → (h.times timeResp).2 ≠ none →
        (h.GetAPIData L M priceResp timeResp taxiReq).2 ≠ none ∧
        (h.GetAPIData L M priceResp timeResp taxiReq).1.length
          = priceResp.holder.Prices.length ∧
        (h.GetAPIData L M priceResp timeResp taxiReq).1.map (fun d => d.Eta)
          = priceResp.holder.Prices.map
              (fun p => secondsToMins (uberEtaLookup p.ProductID timeResp.holder.Times)) ∧
        ((∀ e ∈ timeResp.holder.Times, e.Estimate = 0) →
          ∀ d ∈ (h.GetAPIData L M priceResp timeResp taxiReq).1, d.Eta = 0))) := by
  refine ⟨?_, ?_⟩
  · intro h priceResp etaResp
    refine ⟨gettAPI_time_fails_iff h etaResp, ?_⟩
    intro hprice htime
    rw [gettAPI_GetAPIData_eq, hprice]
    have hmap := gettAPI_makeAPIDatas_eta L h priceResp.holder etaResp.holder
      taxiReq.Point1 taxiReq.Point2
    refine ⟨?_, ?_, hmap, ?_⟩
    · obtain ⟨e, he⟩ := Option.ne_none_iff_exists'.mp htime
      simp [he]
    · have := congrArg List.length hmap
      simpa using this
    · intro hzero
      refine eta_zero_of_map _ _ _ hmap ?_
      intro p _
      rw [gettEtaLookup_nil_or_zero L _ _ hzero]
      rfl
  · intro h priceResp timeResp
    refine ⟨uberAPI_times_fails_iff h timeResp, ?_⟩
    intro hprice htime
    rw [uberAPI_GetAPIData_eq, hprice]
    have hmap := uberAPI_makeAPIDatas_eta L M h priceResp.holder timeResp.holder
      taxiReq.Point1 taxiReq.Point2
    refine ⟨?_, ?_, hmap, ?_⟩
    · obtain ⟨e, he⟩ := Option.ne_none_iff_exists'.mp htime
      simp [he]
    · have := congrArg List.length hmap
      simpa using this
    · intro hzero
      refine eta_zero_of_map _ _ _ hmap ?_
      intro p _
      rw [uberEtaLookup_nil_or_zero _ _ hzero]
      rfl

theorem tdiv_num_den (x : ℚ) : Int.tdiv x.num x.den = if 0 ≤ x then ⌊x⌋ else ⌈x⌉ := by
  by_cases hx : 0 ≤ x
  · rw [if_pos hx, Rat.floor_def]
    exact Int.tdiv_eq_ediv (Rat.num_nonneg.mpr hx) (Int.natCast_nonneg _)
  · rw [if_neg hx]
    have hneg : 0 ≤ -x := by linarith [not_le.mp hx]
    have h1 : ⌈x⌉ = -⌊-x⌋ := by rw [Int.floor_neg, neg_neg]
    rw [h1, Rat.floor_def, Rat.neg_num, Rat.neg_den]
    have h2 : (0 : Int) ≤ -x.num := by
      have := Rat.num_nonneg.mpr hneg
      rwa [Rat.neg_num] at this
    rw [← Int.tdiv_eq_ediv h2 (Int.natCast_nonneg _), Int.neg_tdiv, neg_neg]

theorem floatToInt_eq (x : ℚ) (hlo : -(2 : ℚ) ^ 63 ≤ x) (hhi : x < 2 ^ 63) :
    floatToInt x = if 0 ≤ x then ⌊x⌋ else ⌈x⌉ := by
  have hrange : -2 ^ 63 ≤ Int.tdiv x.num x.den ∧ Int.tdiv x.num x.den < 2 ^ 63 := by
    rw [tdiv_num_den]
    by_cases hx : 0 ≤ x
    · rw [if_pos hx]
      have h1 : 0 ≤ ⌊x⌋ := Int.floor_nonneg.mpr hx
      have h2 : ⌊x⌋ < 2 ^ 63 := by
        rw [Int.floor_lt]
        push_cast
        exact hhi
      constructor
      · have : (-2 : Int) ^ 63 ≤ 0 := by norm_num
        omega
      · exact h2
    · rw [if_neg hx]
      have h1 : ⌈x⌉ ≤ 0 := Int.ceil_le.mpr (by simpa using le_of_lt (not_le.mp hx))
      have h2 : -2 ^ 63 ≤ ⌈x⌉ := by
        have h3 : ((-2 ^ 63 : Int) : ℚ) ≤ x := by
          push_cast
          exact hlo
        have h4 := Int.ceil_mono h3
        rwa [Int.ceil_intCast] at h4
      constructor
      · exact h2
      · have : (0 : Int) < 2 ^ 63 := by norm_num
        omega
  unfold floatToInt
  simp only []
  rw [if_pos hrange, tdiv_num_den]

theorem floatToInt_mono (x y : ℚ) (h : x ≤ y) (hlo : -(2 : ℚ) ^ 63 ≤ x) (hhi : y < 2 ^ 63) :
    floatToInt x ≤ floatToInt y := by
  rw [floatToInt_eq x hlo (lt_of_le_of_lt h hhi), floatToInt_eq y (le_trans hlo h) hhi]
  by_cases hx : 0 ≤ x
  · have hy : 0 ≤ y := le_trans hx h
    rw [if_pos hx, if_pos hy]
    exact Int.floor_mono h
  · rw [if_neg hx]
    by_cases hy : 0 ≤ y
    · rw [if_pos hy]
      have h1 : ⌈x⌉ ≤ 0 := Int.ceil_le.mpr (by simpa using le_of_lt (not_le.mp hx))
      have h2 : 0 ≤ ⌊y⌋ := Int.floor_nonneg.mpr hy
      omega
    · rw [if_neg hy]
      exact Int.ceil_mono h

theorem floatToInt_out_of_range :
    floatToInt (10 ^ 19) = -2 ^ 63 ∧ floatToInt (-(10 ^ 19)) = -2 ^ 63 ∧
    floatToInt (2 ^ 63) = -2 ^ 63 ∧ floatToInt (2 ^ 63 - 1) = 2 ^ 63 - 1 ∧
    floatToInt (-(2 ^ 63)) = -2 ^ 63 := by
  refine ⟨?_, ?_, ?_, ?_, ?_⟩ <;> decide!

theorem gettAPI_makeAPIDatas_mem (L : GoLib) (h : gettAPI) (price : gettPrice) (eta : gettEta)
    (p1 p2 : Point) (d : APIData) (hd : d ∈ h.makeAPIDatas L price eta p1 p2) :
    ∃ p ∈ price.Prices, d.PriceMin = p.LowEstimate ∧ d.PriceMax = p.HighEstimate := by
  unfold gettAPI.makeAPIDatas at hd
  rw [foldl_append_singleton, List.nil_append, List.mem_map] at hd
  obtain ⟨p, hp, hdp⟩ := hd
  exact ⟨p, hp, by rw [← hdp], by rw [← hdp]⟩

theorem uberAPI_makeAPIDatas_mem (L : GoLib) (M : FloatMean) (h : uberAPI)
    (prices : uberPricesResponse) (uberTimes : uberTimesResponse) (p1 p2 : Point) (d : APIData)
    (hd : d ∈ h.makeAPIDatas L M prices uberTimes p1 p2) :
    ∃ p ∈ prices.Prices, d.PriceMin = floatToInt p.LowEstimate ∧
      d.PriceMax = floatToInt p.HighEstimate := by
  unfold uberAPI.makeAPIDatas at hd
  rw [foldl_append_singleton, List.nil_append, List.mem_map] at hd
  obtain ⟨p, hp, hdp⟩ := hd
  exact ⟨p, hp, by rw [← hdp], by rw [← hdp]⟩

theorem gettAPI_GetAPIData_mem (L : GoLib) (h : gettAPI) (priceResp : HttpResult gettPrice)
    (etaResp : HttpResult gettEta) (taxiReq : Request) (d : APIData)
    (hd : d ∈ (h.GetAPIData L priceResp etaResp taxiReq).1) :
    d ∈ h.makeAPIDatas L priceResp.holder etaResp.holder taxiReq.Point1 taxiReq.Point2 := by
  rw [gettAPI_GetAPIData_eq] at hd
  cases hp : (h.price priceResp).2 with
  | some e => rw [hp] at hd; simp at hd
  | none => rw [hp] at hd; exact hd

theorem uberAPI_GetAPIData_mem (L : GoLib) (M : FloatMean) (h : uberAPI)
    (priceResp : HttpResult uberPricesResponse) (timeResp : HttpResult uberTimesResponse)
    (taxiReq : Request) (d : APIData)
    (hd : d ∈ (h.GetAPIData L M priceResp timeResp taxiReq).1) :
    d ∈ h.makeAPIDatas L M priceResp.holder timeResp.holder taxiReq.Point1 taxiReq.Point2 := by
  rw [uberAPI_GetAPIData_eq] at hd
  cases hp : (h.prices M priceResp).2 with
  | some e => rw [hp] at hd; simp at hd
  | none => rw [hp] at hd; exact hd

/-- C13, refuted as stated: Gett returns one price with low estimate 300 and
high estimate 100 and a valid time list; GetAPIData succeeds and returns an
APIData with PriceMin = 300 and PriceMax = 100, which carries a price range
(newPriceRanges gives min 300, max 100). -/
theorem GetAPIData_range_counterexample :
    sampleGett.GetAPIData sampleLib
        (sampleOk { Prices := [sampleGettPrice "Эконом" 300 100] })
        (sampleOk { Etas := [sampleGettEta "Эконом" 300] }) sampleRequest
      = ([{ ProductID := "", TariffName := "gett_economy", DisplayName := "Gett Эконом",
            PriceMin := 300, PriceMax := 100, PriceMean := 200, Eta := 5,
            TemplateVars := [("%from.lat%", "55.750376"), ("%from.lon%", "37.610621"),
              ("%to.lat%", "55.760736"), ("%to.lon%", "37.62002"), ("%product.id%", "")] }],
          none) ∧
    newPriceRanges 300 100 = some { Min := some 300, Max := some 100 } ∧
    ¬ ((300 : Int) ≤ 100) := by
  refine ⟨?_, ?_, ?_⟩ <;> decide!

/-- C13, amended: every APIData returned by the Gett adapter has PriceMin equal
to the low estimate and PriceMax equal to the high estimate of an upstream
price, so that PriceMin ≤ PriceMax holds exactly when the low estimate is not
above the high one. Every APIData returned by the Uber adapter has PriceMin and
PriceMax equal to the 64-bit conversions of the two estimates of an upstream
price; when both estimates lie between -2^63 and 2^63 these are the estimates
with the fraction dropped, and a low estimate that is not above the high one
gives PriceMin ≤ PriceMax. For Uber the converse fails (the estimates 100.9 and
100.1 give 100 and 100), and so does the implication outside the range (the
estimates 10 and 10^19 give 10 and the least integer, in the model). The
adapters neither compare nor reorder the two estimates. -/
theorem GetAPIData_range_copied (L : GoLib) (M : FloatMean) (taxiReq : Request) :
    (∀ (h : gettAPI) (priceResp : HttpResult gettPrice) (etaResp : HttpResult gettEta),
      ∀ d ∈ (h.GetAPIData L priceResp etaResp taxiReq).1,
        ∃ p ∈ priceResp.holder.Prices, d.PriceMin = p.LowEstimate ∧ d.PriceMax = p.HighEstimate ∧
          (d.PriceMin ≤ d.PriceMax ↔ p.LowEstimate ≤ p.HighEstimate)) ∧
    (∀ (h : uberAPI) (priceResp : HttpResult uberPricesResponse)
        (timeResp : HttpResult uberTimesResponse),
      ∀ d ∈ (h.GetAPIData L M priceResp timeResp taxiReq).1,
        ∃ p ∈ priceResp.holder.Prices, d.PriceMin = floatToInt p.LowEstimate ∧
          d.PriceMax = floatToInt p.HighEstimate ∧
          (-(2 : ℚ) ^ 63 ≤ p.LowEstimate → p.LowEstimate < 2 ^ 63 →
            d.PriceMin = if 0 ≤ p.LowEstimate then ⌊p.LowEstimate⌋ else ⌈p.LowEstimate⌉) ∧
          (-(2 : ℚ) ^ 63 ≤ p.HighEstimate → p.HighEstimate < 2 ^ 63 →
            d.PriceMax = if 0 ≤ p.HighEstimate then ⌊p.HighEstimate⌋ else ⌈p.HighEstimate⌉) ∧
          (-(2 : ℚ) ^ 63 ≤ p.LowEstimate → p.HighEstimate < 2 ^ 63 →
            p.LowEstimate ≤ p.HighEstimate → d.PriceMin ≤ d.PriceMax)) ∧
    (sampleUber.GetAPIData sampleLib exactMean
        (sampleOk { Prices := [sampleUberPrice "uberX" (1009 / 10) (1001 / 10)] })
        (sampleOk { Times := [sampleUberTime 300] }) sampleRequest).1.map
      (fun d => (d.PriceMin, d.PriceMax)) = [(100, 100)] ∧
    (sampleUber.GetAPIData sampleLib exactMean
        (sampleOk { Prices := [sampleUberPrice "uberX" 10 (10 ^ 19)] })
        (sampleOk { Times := [sampleUberTime 300] }) sampleRequest).1.map
      (fun d => (d.PriceMin, d.PriceMax)) = [(10, -2 ^ 63)] := by
  refine ⟨?_, ?_, by decide!, by decide!⟩
  · intro h priceResp etaResp d hd
    obtain ⟨p, hp, hmin, hmax⟩ := gettAPI_makeAPIDatas_mem L h _ _ _ _ d
      (gettAPI_GetAPIData_mem L h priceResp etaResp taxiReq d hd)
    exact ⟨p, hp, hmin, hmax, by rw [hmin, hmax]⟩
  · intro h priceResp timeResp d hd
    obtain ⟨p, hp, hmin, hmax⟩ := uberAPI_makeAPIDatas_mem L M h _ _ _ _ d
      (uberAPI_GetAPIData_mem L M h priceResp timeResp taxiReq d hd)
    refine ⟨p, hp, hmin, hmax, ?_, ?_, ?_⟩
    · intro h1 h2
      rw [hmin, floatToInt_eq _ h1 h2]
    · intro h1 h2
      rw [hmax, floatToInt_eq _ h1 h2]
    · intro h1 h2 hle
      rw [hmin, hmax]
      exact floatToInt_mono _ _ hle h1 h2

/-! ## Parsing of the request -/

/-- C20: once the body is read and decoded without error into a request r,
ParseTaxiRequest returns r, with the error ErrTaxiReqEmpty if and only if
RegionID is 0 or one of the two points has Lat = 0 or Lon = 0, and without
error otherwise. -/
theorem ParseTaxiRequest_spec (taxiReqID : String) (decode : Request → Request × Option Error)
    (r : Request) (hdec : decode { zeroRequest with ReqID := taxiReqID } = (r, none)) :
    (ParseTaxiRequest taxiReqID none decode).1 = r ∧
    ((ParseTaxiRequest taxiReqID none decode).2 = some (Error.new .ErrTaxiReqEmpty) ↔
      (r.RegionID = 0 ∨ (r.Point1.Lat = 0 ∨ r.Point1.Lon = 0) ∨
        (r.Point2.Lat = 0 ∨ r.Point2.Lon = 0))) ∧
    (¬ (r.RegionID = 0 ∨ (r.Point1.Lat = 0 ∨ r.Point1.Lon = 0) ∨
        (r.Point2.Lat = 0 ∨ r.Point2.Lon = 0)) →
      ParseTaxiRequest taxiReqID none decode = (r, none)) := by
  have hcond : (r.RegionID = 0 ∨ r.Point1.IsEmpty = true ∨ r.Point2.IsEmpty = true) ↔
      (r.RegionID = 0 ∨ (r.Point1.Lat = 0 ∨ r.Point1.Lon = 0) ∨
        (r.Point2.Lat = 0 ∨ r.Point2.Lon = 0)) := by
    simp [Point.IsEmpty]
  unfold ParseTaxiRequest
  simp only [hdec]
  by_cases hc : r.RegionID = 0 ∨ r.Point1.IsEmpty = true ∨ r.Point2.IsEmpty = true
  · rw [if_pos hc]
    exact ⟨rfl, ⟨fun _ => hcond.mp hc, fun _ => rfl⟩, fun hn => absurd (hcond.mp hc) hn⟩
  · rw [if_neg hc]
    refine ⟨rfl, ⟨fun h => ?_, fun h => absurd (hcond.mpr h) hc⟩, fun _ => rfl⟩
    simp at h

/-- Witness for C20: the decoder leaves the sample request, whose region and
coordinates are all non-zero. -/
theorem ParseTaxiRequest_spec_witness :
    (ParseTaxiRequest "id" none (fun _ => (sampleRequest, none))).1 = sampleRequest ∧
    ((ParseTaxiRequest "id" none (fun _ => (sampleRequest, none))).2
        = some (Error.new .ErrTaxiReqEmpty) ↔
      (sampleRequest.RegionID = 0 ∨
        (sampleRequest.Point1.Lat = 0 ∨ sampleRequest.Point1.Lon = 0) ∨
        (sampleRequest.Point2.Lat = 0 ∨ sampleRequest.Point2.Lon = 0))) ∧
    (¬ (sampleRequest.RegionID = 0 ∨
        (sampleRequest.Point1.Lat = 0 ∨ sampleRequest.Point1.Lon = 0) ∨
        (sampleRequest.Point2.Lat = 0 ∨ sampleRequest.Point2.Lon = 0)) →
      ParseTaxiRequest "id" none (fun _ => (sampleRequest, none)) = (sampleRequest, none)) :=
  ParseTaxiRequest_spec "id" (fun _ => (sampleRequest, none)) sampleRequest rfl

/-! ## The product catalog: names and tariffs of rows -/

theorem splitChars_cons (sep c : Char) (cs : List Char) :
    splitChars sep (c :: cs)
      = if c = sep then [] :: splitChars sep cs
        else
          match splitChars sep cs with
          | [] => [[c]]
          | piece :: pieces => (c :: piece) :: pieces := rfl

theorem splitChars_eq (sep : Char) (l : List Char) :
    splitChars sep l
      = l.takeWhile (fun c => c ≠ sep) ::
          (if sep ∈ l then splitChars sep ((l.dropWhile (fun c => c ≠ sep)).drop 1) else []) := by
  induction l with
  | nil => simp [splitChars]
  | cons c cs ih =>
    rw [splitChars_cons]
    by_cases h : c = sep
    · subst h
      simp
    · have h2 : ¬ sep = c := fun e => h e.symm
      rw [if_neg h, ih]
      simp [List.takeWhile_cons, List.dropWhile_cons, h, h2]

theorem splitColon_eq (s : String) :
    splitColon s
      = String.mk (s.data.takeWhile (fun c => c ≠ ':')) ::
          (if ':' ∈ s.data then
            String.mk (((s.data.dropWhile (fun c => c ≠ ':')).drop 1).takeWhile
                (fun c => c ≠ ':')) ::
              (if ':' ∈ (s.data.dropWhile (fun c => c ≠ ':')).drop 1 then
                splitColon (String.mk
                  ((((s.data.dropWhile (fun c => c ≠ ':')).drop 1).dropWhile
                    (fun c => c ≠ ':')).drop 1))
              else [])
          else []) := by
  unfold splitColon
  rw [splitChars_eq]
  by_cases h : ':' ∈ s.data
  · rw [if_pos h, if_pos h, splitChars_eq]
    by_cases h2 : ':' ∈ (s.data.dropWhile (fun c => c ≠ ':')).drop 1
    · simp only [h2, if_true, List.map_cons]
    · simp only [h2, if_false, List.map_cons, List.map_nil]
  · rw [if_neg h, if_neg h]
    rfl

/-- C18: for every row, name() is the text of Name before the first ':' (all of
Name when it has no ':'); tariff() is the text between the first ':' and the
next ':' or the end of Name, except that it is empty when Name has no ':' or
when that text equals name(). -/
theorem record_name_tariff (r : record) :
    r.name = String.mk (r.Name.data.takeWhile (fun c => c ≠ ':')) ∧
    (':' ∉ r.Name.data → r.name = r.Name ∧ r.tariff = "") ∧
    (':' ∈ r.Name.data →
      r.tariff =
        if String.mk (((r.Name.data.dropWhile (fun c => c ≠ ':')).drop 1).takeWhile
            (fun c => c ≠ ':')) = r.name
        then ""
        else String.mk (((r.Name.data.dropWhile (fun c => c ≠ ':')).drop 1).takeWhile
            (fun c => c ≠ ':'))) := by
  have hname : r.name = String.mk (r.Name.data.takeWhile (fun c => c ≠ ':')) := by
    unfold record.name
    rw [splitColon_eq]
  refine ⟨hname, ?_, ?_⟩
  · intro h
    refine ⟨?_, ?_⟩
    · rw [hname]
      have : r.Name.data.takeWhile (fun c => c ≠ ':') = r.Name.data := by
        rw [List.takeWhile_eq_self_iff]
        intro c hc
        have : c ≠ ':' := fun e => h (e ▸ hc)
        simpa using this
      rw [this]
    · unfold record.tariff
      rw [splitColon_eq, if_neg h]
  · intro h
    rw [hname]
    unfold record.tariff
    rw [splitColon_eq, if_pos h]

/-- The two rows of the tests of name() and tariff(). -/
theorem record_name_tariff_tests :
    (sampleRow 1 "uber:uber:1" "uber").name = "uber" ∧
    (sampleRow 1 "uber:uber:1" "uber").tariff = "" ∧
    (sampleRow 1 "uber:uberx:1" "uber").name = "uber" ∧
    (sampleRow 1 "uber:uberx:1" "uber").tariff = "uberx" := by
  decide

/-! ## The product catalog: maps -/

theorem mapGet_mapSet {κ ν : Type} [DecidableEq κ] (k key : κ) (val : ν) (m : List (κ × ν)) :
    mapGet k (mapSet key val m) = if key = k then some val else mapGet k m := by
  induction m with
  | nil =>
    simp only [mapSet, mapGet]
  | cons e rest ih =>
    obtain ⟨k0, v0⟩ := e
    unfold mapSet
    by_cases h : k0 = key
    · subst h
      by_cases h2 : k0 = k
      · simp [mapGet, h2]
      · simp [mapGet, h2]
    · rw [if_neg h]
      by_cases h2 : k0 = k
      · have h3 : ¬ key = k := fun e => h (h2.trans e.symm)
        simp [mapGet, h2, h3]
      · simp only [mapGet, h2, if_false, ih]

theorem mapSet_keys {κ ν : Type} [DecidableEq κ] (key : κ) (val : ν) (m : List (κ × ν)) :
    (mapSet key val m).map Prod.fst
      = if key ∈ m.map Prod.fst then m.map Prod.fst else m.map Prod.fst ++ [key] := by
  induction m with
  | nil => simp [mapSet]
  | cons e rest ih =>
    obtain ⟨k0, v0⟩ := e
    unfold mapSet
    by_cases h : k0 = key
    · subst h
      simp
    · have h2 : ¬ key = k0 := fun e => h e.symm
      rw [if_neg h]
      simp only [List.map_cons, ih, List.mem_cons, h2, false_or]
      split <;> simp

theorem mapSet_nodup {κ ν : Type} [DecidableEq κ] (key : κ) (val : ν) (m : List (κ × ν))
    (h : (m.map Prod.fst).Nodup) : ((mapSet key val m).map Prod.fst).Nodup := by
  rw [mapSet_keys]
  split
  · exact h
  · rename_i hk
    exact List.Nodup.append h (List.nodup_singleton key)
      (by simpa [List.disjoint_singleton] using hk)

theorem mapSet_mem {κ ν : Type} [DecidableEq κ] (key : κ) (val : ν) (m : List (κ × ν))
    (e : κ × ν) (he : e ∈ mapSet key val m) : e = (key, val) ∨ e ∈ m := by
  induction m with
  | nil =>
    simp only [mapSet, List.mem_singleton] at he
    exact Or.inl he
  | cons e0 rest ih =>
    obtain ⟨k0, v0⟩ := e0
    unfold mapSet at he
    by_cases h : k0 = key
    · rw [if_pos h] at he
      rcases List.mem_cons.mp he with h1 | h1
      · left; rw [h1, h]
      · right; exact List.mem_cons_of_mem _ h1
    · rw [if_neg h] at he
      rcases List.mem_cons.mp he with h1 | h1
      · right; rw [h1]; exact List.mem_cons_self _ _
      · rcases ih h1 with h2 | h2
        · exact Or.inl h2
        · exact Or.inr (List.mem_cons_of_mem _ h2)

theorem mapGet_eq_none_iff {κ ν : Type} [DecidableEq κ] (k : κ) (m : List (κ × ν)) :
    mapGet k m = none ↔ k ∉ m.map Prod.fst := by
  induction m with
  | nil => simp [mapGet]
  | cons e rest ih =>
    obtain ⟨k0, v0⟩ := e
    unfold mapGet
    by_cases h : k0 = k
    · simp [h]
    · have h2 : ¬ k = k0 := fun e => h e.symm
      simp [h, h2, ih]

theorem mapGet_mem {κ ν : Type} [DecidableEq κ] (k : κ) (v : ν) (m : List (κ × ν))
    (h : mapGet k m = some v) : (k, v) ∈ m := by
  induction m with
  | nil => simp [mapGet] at h
  | cons e rest ih =>
    obtain ⟨k0, v0⟩ := e
    unfold mapGet at h
    by_cases h0 : k0 = k
    · rw [if_pos h0] at h
      rw [← h0, ← Option.some.inj h]
      exact List.mem_cons_self _ _
    · rw [if_neg h0] at h
      exact List.mem_cons_of_mem _ (ih h)

theorem mapGet_of_mem {κ ν : Type} [DecidableEq κ] (k : κ) (v : ν) (m : List (κ × ν))
    (hnd : (m.map Prod.fst).Nodup) (h : (k, v) ∈ m) : mapGet k m = some v := by
  induction m with
  | nil => simp at h
  | cons e rest ih =>
    obtain ⟨k0, v0⟩ := e
    simp only [List.map_cons, List.nodup_cons] at hnd
    unfold mapGet
    rcases List.mem_cons.mp h with h1 | h1
    · simp only [Prod.mk.injEq] at h1
      rw [if_pos h1.1.symm, h1.2]
    · have hk : k ∈ rest.map Prod.fst := List.mem_map.mpr ⟨(k, v), h1, rfl⟩
      have hne : ¬ k0 = k := fun e => hnd.1 (e ▸ hk)
      rw [if_neg hne]
      exact ih hnd.2 h1

theorem ne_nil_iff_mapGet {κ ν : Type} [DecidableEq κ] (m : List (κ × ν)) :
    m ≠ [] ↔ ∃ k v, mapGet k m = some v := by
  constructor
  · intro h
    cases m with
    | nil => exact absurd rfl h
    | cons e rest =>
      obtain ⟨k0, v0⟩ := e
      exact ⟨k0, v0, by simp [mapGet]⟩
  · rintro ⟨k, v, h⟩ hnil
    rw [hnil] at h
    simp [mapGet] at h

theorem regionMapLoop_spec (records : List record) (m : List (Int × List record))
    (hnd : (m.map Prod.fst).Nodup) :
    ((regionMapLoop records m).map Prod.fst).Nodup ∧
    ∀ regID, mapGet regID (regionMapLoop records m)
      = match mapGet regID m with
        | some old => some (old ++ records.filter (fun r => r.RegionID = regID))
        | none =>
          if records.filter (fun r => r.RegionID = regID) = [] then none
          else some (records.filter (fun r => r.RegionID = regID)) := by
  induction records generalizing m with
  | nil =>
    refine ⟨hnd, ?_⟩
    intro regID
    cases hm : mapGet regID m <;> simp [regionMapLoop, hm]
  | cons r rest ih =>
    unfold regionMapLoop
    obtain ⟨h1, h2⟩ := ih _ (mapSet_nodup r.RegionID
      ((mapGet r.RegionID m).getD [] ++ [r]) m hnd)
    refine ⟨h1, ?_⟩
    intro regID
    rw [h2 regID, mapGet_mapSet]
    by_cases hr : r.RegionID = regID
    · subst hr
      cases hm : mapGet r.RegionID m with
      | none => simp [List.filter_cons]
      | some old => simp [List.filter_cons]
    · rw [if_neg hr]
      cases hm : mapGet regID m with
      | none => simp [List.filter_cons, hr]
      | some old => simp [List.filter_cons, hr]

theorem regionProductLoop_spec (L : GoLib) (rm : List (Int × List record))
    (acc : regionToProducts) (hnd : (rm.map Prod.fst).Nodup) (regID : Int) :
    mapGet regID (regionProductLoop L rm acc)
      = match mapGet regID rm with
        | some recs =>
          if (recordsToProducts L recs).1 = [] then mapGet regID acc
          else some (recordsToProducts L recs).1
        | none => mapGet regID acc := by
  induction rm generalizing acc with
  | nil => simp [regionProductLoop, mapGet]
  | cons e rest ih =>
    obtain ⟨k, recs⟩ := e
    simp only [List.map_cons, List.nodup_cons] at hnd
    unfold regionProductLoop
    have hlen : (recordsToProducts L recs).1.length ≠ 0 ↔ ¬ (recordsToProducts L recs).1 = [] := by
      rw [ne_eq, List.length_eq_zero]
    by_cases hp : (recordsToProducts L recs).1 = []
    · have hl : ¬ (recordsToProducts L recs).1.length ≠ 0 := fun h => (hlen.mp h) hp
      rw [if_neg hl, ih acc hnd.2]
      by_cases hk : k = regID
      · subst hk
        rw [(mapGet_eq_none_iff k rest).mpr hnd.1]
        simp [mapGet, hp]
      · simp [mapGet, hk]
    · have hl : (recordsToProducts L recs).1.length ≠ 0 := hlen.mpr hp
      rw [if_pos hl, ih _ hnd.2]
      by_cases hk : k = regID
      · subst hk
        rw [(mapGet_eq_none_iff k rest).mpr hnd.1]
        simp [mapGet, hp, mapGet_mapSet]
      · simp only [mapGet, hk, if_false, mapGet_mapSet]

theorem regionProductLoop_nonempty (L : GoLib) (rm : List (Int × List record))
    (acc : regionToProducts) (hacc : ∀ e ∈ acc, e.2 ≠ []) :
    ∀ e ∈ regionProductLoop L rm acc, e.2 ≠ [] := by
  induction rm generalizing acc with
  | nil => simpa [regionProductLoop] using hacc
  | cons e0 rest ih =>
    obtain ⟨k, recs⟩ := e0
    unfold regionProductLoop
    by_cases hl : (recordsToProducts L recs).1.length ≠ 0
    · rw [if_pos hl]
      apply ih
      intro e he
      rcases mapSet_mem _ _ _ e he with h1 | h1
      · rw [h1]
        intro hnil
        exact hl (by simp only at hnil; rw [hnil]; rfl)
      · exact hacc e h1
    · rw [if_neg hl]
      exact ih acc hacc

/-! ## The product catalog: products of the rows of a region -/

theorem recordToProduct_fields (L : GoLib) (r : record) :
    (recordToProduct L r).1.Name = r.name ∧
    (recordToProduct L r).1.ProviderName = r.Handler ∧
    (recordToProduct L r).1.Tariffs = (if r.tariff ≠ "" then [r.tariff] else []) ∧
    ((recordToProduct L r).2 = none ↔ r.name ≠ "") ∧
    (r.name = "" → ∃ err, (recordToProduct L r).2 = some err ∧ err.cause = .ErrProduct) := by
  unfold recordToProduct
  by_cases h : r.name = ""
  · simp [Product.IsEmpty, h, Error.Wrap, Error.new]
  · simp [Product.IsEmpty, h]

theorem specTariffs_cons (r : record) (rest : List record) (pfx : String) :
    specTariffs (r :: rest) pfx
      = (if r.name = pfx then (if r.tariff ≠ "" then [r.tariff] else []) else [])
        ++ specTariffs rest pfx := by
  unfold specTariffs
  by_cases h : r.name = pfx
  · by_cases h2 : r.tariff = ""
    · simp [List.filter_cons, h, h2]
    · simp [List.filter_cons, h, h2]
  · simp [List.filter_cons, h]

theorem specProduct_cons (L : GoLib) (r : record) (rest : List record) (pfx : String) :
    specProduct L (r :: rest) pfx
      = if r.name = pfx then
          some { (recordToProduct L r).1 with Tariffs := specTariffs (r :: rest) pfx }
        else specProduct L rest pfx := by
  unfold specProduct
  by_cases h : r.name = pfx
  · simp [List.find?_cons, h]
  · simp only [List.find?_cons, h, decide_False, if_false, specTariffs_cons, List.nil_append]

theorem AddTariff_eq (p : Product) (t : String) :
    p.AddTariff t = { p with Tariffs := p.Tariffs ++ (if t ≠ "" then [t] else []) } := by
  unfold Product.AddTariff
  by_cases h : t = ""
  · simp [h]
  · simp [h]

theorem productsLoop_cons_new (L : GoLib) (r : record) (rest : List record)
    (m : List (String × Product)) (hm : mapGet r.name m = none)
    (hr : (recordToProduct L r).2 = none) :
    productsLoop L (r :: rest) m
      = productsLoop L rest (mapSet r.name (recordToProduct L r).1 m) := by
  rcases hrp : recordToProduct L r with ⟨prod, e⟩
  rw [hrp] at hr
  simp only at hr
  subst hr
  simp only [productsLoop, hm, hrp]

theorem productsLoop_cons_err (L : GoLib) (r : record) (rest : List record)
    (m : List (String × Product)) (hm : mapGet r.name m = none) (err : Error)
    (hr : (recordToProduct L r).2 = some err) :
    productsLoop L (r :: rest) m = .error (err.Wrap "Cannot make product for record") := by
  rcases hrp : recordToProduct L r with ⟨prod, e⟩
  rw [hrp] at hr
  simp only at hr
  subst hr
  simp only [productsLoop, hm, hrp]

theorem productsLoop_cons_old (L : GoLib) (r : record) (rest : List record)
    (m : List (String × Product)) (p : Product) (hm : mapGet r.name m = some p) :
    productsLoop L (r :: rest) m
      = productsLoop L rest (mapSet r.name (p.AddTariff r.tariff) m) := by
  simp only [productsLoop, hm]

theorem productsLoop_ok (L : GoLib) (records : List record) (m : List (String × Product))
    (hnd : (m.map Prod.fst).Nodup) (h : ∀ r ∈ records, r.name ≠ "") :
    ∃ out, productsLoop L records m = .ok out ∧ (out.map Prod.fst).Nodup ∧
      (∀ k, k ∈ out.map Prod.fst ↔ (k ∈ m.map Prod.fst ∨ ∃ r ∈ records, r.name = k)) ∧
      ∀ k, mapGet k out = match mapGet k m with
        | some p => some { p with Tariffs := p.Tariffs ++ specTariffs records k }
        | none => specProduct L records k := by
  induction records generalizing m with
  | nil =>
    refine ⟨m, rfl, hnd, by simp, ?_⟩
    intro k
    cases hm : mapGet k m <;> simp [specTariffs, specProduct]
  | cons r rest ih =>
    have hr : r.name ≠ "" := h r (List.mem_cons_self _ _)
    have hrest : ∀ x ∈ rest, x.name ≠ "" := fun x hx => h x (List.mem_cons_of_mem _ hx)
    obtain ⟨hN, -, hT, hE, -⟩ := recordToProduct_fields L r
    have hkeys : ∀ (v : Product) (k : String),
        (k ∈ (mapSet r.name v m).map Prod.fst ∨ ∃ x ∈ rest, x.name = k)
          ↔ (k ∈ m.map Prod.fst ∨ ∃ x ∈ r :: rest, x.name = k) := by
      intro v k
      rw [mapSet_keys]
      by_cases hin : r.name ∈ m.map Prod.fst
      · rw [if_pos hin]
        constructor
        · rintro (h1 | ⟨x, hx, hxk⟩)
          · exact Or.inl h1
          · exact Or.inr ⟨x, List.mem_cons_of_mem _ hx, hxk⟩
        · rintro (h1 | ⟨x, hx, hxk⟩)
          · exact Or.inl h1
          · rcases List.mem_cons.mp hx with h2 | h2
            · left; rw [← hxk, h2]; exact hin
            · exact Or.inr ⟨x, h2, hxk⟩
      · rw [if_neg hin]
        constructor
        · rintro (h1 | ⟨x, hx, hxk⟩)
          · rcases List.mem_append.mp h1 with h2 | h2
            · exact Or.inl h2
            · exact Or.inr ⟨r, List.mem_cons_self _ _, (List.mem_singleton.mp h2).symm⟩
          · exact Or.inr ⟨x, List.mem_cons_of_mem _ hx, hxk⟩
        · rintro (h1 | ⟨x, hx, hxk⟩)
          · exact Or.inl (List.mem_append.mpr (Or.inl h1))
          · rcases List.mem_cons.mp hx with h2 | h2
            · left
              exact List.mem_append.mpr (Or.inr (List.mem_singleton.mpr (by rw [← hxk, h2])))
            · exact Or.inr ⟨x, h2, hxk⟩
    cases hm : mapGet r.name m with
    | none =>
      have hnone : (recordToProduct L r).2 = none := hE.mpr hr
      obtain ⟨out, h1, h2, h3, h4⟩ :=
        ih (mapSet r.name (recordToProduct L r).1 m) (mapSet_nodup _ _ _ hnd) hrest
      refine ⟨out, ?_, h2, ?_, ?_⟩
      · rw [productsLoop_cons_new L r rest m hm hnone]
        exact h1
      · intro k
        rw [h3 k]
        exact hkeys _ k
      · intro k
        rw [h4 k, mapGet_mapSet, specProduct_cons, specTariffs_cons]
        by_cases hk : r.name = k
        · subst hk
          simp only [if_true, hm, hT]
        · simp only [hk, if_false, List.nil_append]
    | some p =>
      obtain ⟨out, h1, h2, h3, h4⟩ :=
        ih (mapSet r.name (p.AddTariff r.tariff) m) (mapSet_nodup _ _ _ hnd) hrest
      refine ⟨out, ?_, h2, ?_, ?_⟩
      · rw [productsLoop_cons_old L r rest m p hm]
        exact h1
      · intro k
        rw [h3 k]
        exact hkeys _ k
      · intro k
        rw [h4 k, mapGet_mapSet, specTariffs_cons, specProduct_cons]
        by_cases hk : r.name = k
        · subst hk
          simp only [if_true, hm, AddTariff_eq, List.append_assoc]
        · simp only [hk, if_false, List.nil_append]

theorem productsLoop_error (L : GoLib) (records : List record) (m : List (String × Product))
    (hm : "" ∉ m.map Prod.fst) (h : ∃ r ∈ records, r.name = "") :
    ∃ err, productsLoop L records m = .error err ∧ err.cause = .ErrProduct := by
  induction records generalizing m with
  | nil =>
    obtain ⟨r, hr, -⟩ := h
    simp at hr
  | cons r rest ih =>
    obtain ⟨-, -, -, hE, hErr⟩ := recordToProduct_fields L r
    by_cases hr : r.name = ""
    · obtain ⟨err, he, hc⟩ := hErr hr
      have hg : mapGet r.name m = none := by
        rw [hr]
        exact (mapGet_eq_none_iff "" m).mpr hm
      exact ⟨err.Wrap "Cannot make product for record",
        productsLoop_cons_err L r rest m hg err he, hc⟩
    · have hrest : ∃ x ∈ rest, x.name = "" := by
        obtain ⟨x, hx, hxe⟩ := h
        rcases List.mem_cons.mp hx with h2 | h2
        · exact absurd (h2 ▸ hxe) hr
        · exact ⟨x, h2, hxe⟩
      have hkeys : ∀ v : Product, "" ∉ (mapSet r.name v m).map Prod.fst := by
        intro v
        rw [mapSet_keys]
        split
        · exact hm
        · intro hin
          rcases List.mem_append.mp hin with h2 | h2
          · exact hm h2
          · exact hr (List.mem_singleton.mp h2).symm
      cases hg : mapGet r.name m with
      | none =>
        rw [productsLoop_cons_new L r rest m hg (hE.mpr hr)]
        exact ih _ (hkeys _) hrest
      | some p =>
        rw [productsLoop_cons_old L r rest m p hg]
        exact ih _ (hkeys _) hrest

theorem specProduct_some (L : GoLib) (records : List record) (pfx : String) (p : Product)
    (h : specProduct L records pfx = some p) :
    p.Name = pfx ∧ p.Tariffs = specTariffs records pfx ∧
    ∃ r ∈ records, r.name = pfx ∧ records.find? (fun x => x.name = pfx) = some r ∧
      p.ProviderName = r.Handler ∧
      p = { (recordToProduct L r).1 with Tariffs := specTariffs records pfx } := by
  unfold specProduct at h
  cases hf : records.find? (fun x => x.name = pfx) with
  | none => rw [hf] at h; simp at h
  | some r =>
    rw [hf] at h
    simp only [Option.some.injEq] at h
    have hr : r.name = pfx := by simpa using List.find?_some hf
    obtain ⟨hN, hP, -, -, -⟩ := recordToProduct_fields L r
    subst h
    exact ⟨hN.trans hr, rfl, r, List.mem_of_find?_eq_some hf, hr, rfl, hP, rfl⟩

theorem specProduct_isSome (L : GoLib) (records : List record) (pfx : String)
    (h : ∃ r ∈ records, r.name = pfx) : ∃ p, specProduct L records pfx = some p := by
  unfold specProduct
  cases hf : records.find? (fun x => x.name = pfx) with
  | none =>
    obtain ⟨r, hr, hn⟩ := h
    have := List.find?_eq_none.mp hf r hr
    simp [hn] at this
  | some r => exact ⟨_, rfl⟩

theorem recordsToProducts_ok (L : GoLib) (records : List record)
    (h : ∀ r ∈ records, r.name ≠ "") :
    (recordsToProducts L records).2 = none ∧
    ((recordsToProducts L records).1.map Product.Name).Nodup ∧
    (∀ pfx, pfx ∈ (recordsToProducts L records).1.map Product.Name
      ↔ ∃ r ∈ records, r.name = pfx) ∧
    (∀ p ∈ (recordsToProducts L records).1, specProduct L records p.Name = some p) ∧
    (∀ pfx p, specProduct L records pfx = some p → p ∈ (recordsToProducts L records).1) := by
  obtain ⟨out, h1, h2, h3, h4⟩ := productsLoop_ok L records [] (by simp) h
  have hval : ∀ e ∈ out, specProduct L records e.1 = some e.2 := by
    intro e he
    have := mapGet_of_mem e.1 e.2 out h2 he
    rw [h4 e.1] at this
    simpa [mapGet] using this
  have hname : out.map (fun e => e.2.Name) = out.map Prod.fst := by
    apply List.map_congr_left
    intro e he
    exact (specProduct_some L records e.1 e.2 (hval e he)).1
  have hres : recordsToProducts L records = (out.map Prod.snd, none) := by
    unfold recordsToProducts
    rw [h1]
  rw [hres]
  have hmap : (out.map Prod.snd).map Product.Name = out.map Prod.fst := by
    rw [List.map_map]
    exact hname
  refine ⟨rfl, ?_, ?_, ?_, ?_⟩
  · simp only [hmap]
    exact h2
  · intro pfx
    simp only [hmap]
    rw [h3 pfx]
    simp
  · intro p hp
    obtain ⟨e, he, hep⟩ := List.mem_map.mp hp
    have hv := hval e he
    have hn := (specProduct_some L records e.1 e.2 hv).1
    rw [← hep, hn]
    exact hv
  · intro pfx p hp
    have hg : mapGet pfx out = some p := by
      rw [h4 pfx]
      simpa [mapGet] using hp
    exact List.mem_map.mpr ⟨(pfx, p), mapGet_mem pfx p out hg, rfl⟩

theorem recordsToProducts_error (L : GoLib) (records : List record)
    (h : ∃ r ∈ records, r.name = "") :
    (recordsToProducts L records).1 = [] ∧
    ∃ err, (recordsToProducts L records).2 = some err ∧ err.cause = .ErrProduct := by
  obtain ⟨err, h1, h2⟩ := productsLoop_error L records [] (by simp) h
  unfold recordsToProducts
  rw [h1]
  exact ⟨rfl, err, rfl, h2⟩

theorem recordsToProducts_ne_nil_iff (L : GoLib) (records : List record) :
    (recordsToProducts L records).1 ≠ [] ↔ (records ≠ [] ∧ ∀ r ∈ records, r.name ≠ "") := by
  by_cases h : ∃ r ∈ records, r.name = ""
  · have h1 := (recordsToProducts_error L records h).1
    constructor
    · intro hne
      exact absurd h1 hne
    · rintro ⟨-, hall⟩
      obtain ⟨r, hr, hn⟩ := h
      exact absurd hn (hall r hr)
  · have hall : ∀ r ∈ records, r.name ≠ "" := fun r hr hn => h ⟨r, hr, hn⟩
    obtain ⟨-, -, h3, -, -⟩ := recordsToProducts_ok L records hall
    constructor
    · intro hne
      exact ⟨by
        intro hnil
        obtain ⟨p, hp⟩ := List.exists_mem_of_ne_nil _ hne
        obtain ⟨r, hr, -⟩ := (h3 p.Name).mp (List.mem_map.mpr ⟨p, hp, rfl⟩)
        rw [hnil] at hr
        simp at hr, hall⟩
    · rintro ⟨hne, -⟩ hnil
      obtain ⟨r, hr⟩ := List.exists_mem_of_ne_nil _ hne
      have := (h3 r.name).mpr ⟨r, hr, rfl⟩
      rw [hnil] at this
      simp at this

theorem recordsToProducts_names (L : GoLib) (records : List record) :
    ∀ p ∈ (recordsToProducts L records).1, p.Name ≠ "" := by
  intro p hp
  have hne : (recordsToProducts L records).1 ≠ [] := List.ne_nil_of_mem hp
  have hall := ((recordsToProducts_ne_nil_iff L records).mp hne).2
  obtain ⟨-, -, h3, -, -⟩ := recordsToProducts_ok L records hall
  obtain ⟨r, hr, hn⟩ := (h3 p.Name).mp (List.mem_map.mpr ⟨p, hp, rfl⟩)
  rw [← hn]
  exact hall r hr

/-! ## The product catalog: the map of the regions -/

theorem regionProductLoop_forall (L : GoLib) (P : List Product → Prop)
    (hP : ∀ recs, (recordsToProducts L recs).1 ≠ [] → P (recordsToProducts L recs).1)
    (rm : List (Int × List record)) (acc : regionToProducts) (hacc : ∀ e ∈ acc, P e.2) :
    ∀ e ∈ regionProductLoop L rm acc, P e.2 := by
  induction rm generalizing acc with
  | nil => simpa [regionProductLoop] using hacc
  | cons e0 rest ih =>
    obtain ⟨k, recs⟩ := e0
    unfold regionProductLoop
    by_cases hl : (recordsToProducts L recs).1.length ≠ 0
    · rw [if_pos hl]
      apply ih
      intro e he
      rcases mapSet_mem _ _ _ e he with h1 | h1
      · rw [h1]
        exact hP recs (fun hnil => hl (by rw [hnil]; rfl))
      · exact hacc e h1
    · rw [if_neg hl]
      exact ih acc hacc

theorem emptyLoop_eq (records : List record) :
    emptyLoop records
      = if ∀ r ∈ records, r.IsEmpty = false then none
        else some ((Error.new .ErrRecordEmpty).Wrap "Record") := by
  induction records with
  | nil => simp [emptyLoop]
  | cons r rest ih =>
    unfold emptyLoop
    by_cases h : r.IsEmpty = true
    · simp [h]
    · have h2 : r.IsEmpty = false := by simpa using h
      simp only [h2, ih, List.forall_mem_cons, true_and]
      simp

theorem record_IsEmpty_iff (r : record) :
    r.IsEmpty = true ↔ (r.RegionID = 0 ∨ r.Handler = "" ∨ r.CurrencyCode = none) := by
  unfold record.IsEmpty
  split <;> simp_all

theorem GetAllProducts_fails (L : GoLib) (records : List record)
    (h : ∃ r ∈ records, r.IsEmpty = true) :
    ({ db := .rows records } : postgresRep).GetAllProducts L
      = ([], some (((Error.new .ErrRecordEmpty).Wrap "Record").Wrap
          "Getting all products from Postgres:")) := by
  have he : emptyLoop records = some ((Error.new .ErrRecordEmpty).Wrap "Record") := by
    rw [emptyLoop_eq, if_neg]
    intro hall
    obtain ⟨r, hr, hre⟩ := h
    rw [hall r hr] at hre
    exact absurd hre (by decide)
  simp only [postgresRep.GetAllProducts, postgresRep.getAllRecords, he]

theorem GetAllProducts_rows (L : GoLib) (records : List record)
    (h : ∀ r ∈ records, r.IsEmpty = false) :
    ({ db := .rows records } : postgresRep).GetAllProducts L
      = (regionProductLoop L (regionMapLoop records []) [], none) := by
  have he : emptyLoop records = none := by
    rw [emptyLoop_eq, if_pos h]
  simp only [postgresRep.GetAllProducts, postgresRep.getAllRecords, he]

theorem GetAllProducts_lookup (L : GoLib) (records : List record)
    (h : ∀ r ∈ records, r.IsEmpty = false) (regID : Int) :
    mapGet regID (({ db := .rows records } : postgresRep).GetAllProducts L).1
      = if (recordsToProducts L (specRegionRows records regID)).1 = [] then none
        else some (recordsToProducts L (specRegionRows records regID)).1 := by
  rw [GetAllProducts_rows L records h]
  obtain ⟨h1, h2⟩ := regionMapLoop_spec records [] (by simp)
  simp only []
  rw [regionProductLoop_spec L _ [] h1 regID, h2 regID]
  unfold specRegionRows
  by_cases hf : records.filter (fun r => r.RegionID = regID) = []
  · have hn : (recordsToProducts L []).1 = [] := rfl
    simp [mapGet, hf, hn]
  · simp [mapGet, hf]

theorem GetAllProducts_values (L : GoLib) (pg : postgresRep) :
    ∀ e ∈ (pg.GetAllProducts L).1, e.2 ≠ [] ∧ ∀ p ∈ e.2, p.Name ≠ "" := by
  unfold postgresRep.GetAllProducts
  rcases pg.getAllRecords with ⟨records, _ | err⟩
  · simp only []
    apply regionProductLoop_forall L (fun ps => ps ≠ [] ∧ ∀ p ∈ ps, p.Name ≠ "")
    · intro recs hne
      exact ⟨hne, recordsToProducts_names L recs⟩
    · simp
  · simp

/-! ## The product catalog: one Product per name prefix -/

theorem specTariffs_eq (records : List record) (pfx : String) :
    specTariffs records pfx
      = (records.filter (fun r => r.name = pfx ∧ r.tariff ≠ "")).map record.tariff := by
  induction records with
  | nil => simp [specTariffs]
  | cons r rest ih =>
    rw [specTariffs_cons, ih]
    by_cases h : r.name = pfx
    · by_cases h2 : r.tariff = ""
      · simp [List.filter_cons, h, h2]
      · simp [List.filter_cons, h, h2]
    · simp [List.filter_cons, h]

/-- C16: for rows whose name prefixes are all non-empty, recordsToProducts returns
no error and exactly one Product per distinct name prefix: the names of the
Products are pairwise distinct and are exactly the prefixes of the rows. The
Tariffs of the Product of a prefix are the non-empty tariff() values of the rows
with that prefix, in row order; a row whose tariff() is empty adds nothing. -/
theorem recordsToProducts_one_per_prefix (L : GoLib) (records : List record)
    (h : ∀ r ∈ records, r.name ≠ "") :
    (recordsToProducts L records).2 = none ∧
    ((recordsToProducts L records).1.map Product.Name).Nodup ∧
    (∀ pfx, pfx ∈ (recordsToProducts L records).1.map Product.Name
      ↔ ∃ r ∈ records, r.name = pfx) ∧
    (∀ p ∈ (recordsToProducts L records).1, p.Tariffs = specTariffs records p.Name) ∧
    (∀ p ∈ (recordsToProducts L records).1, p.Tariffs
      = (records.filter (fun r => r.name = p.Name ∧ r.tariff ≠ "")).map record.tariff) := by
  obtain ⟨h1, h2, h3, h4, -⟩ := recordsToProducts_ok L records h
  have h5 : ∀ p ∈ (recordsToProducts L records).1, p.Tariffs = specTariffs records p.Name :=
    fun p hp => (specProduct_some L records p.Name p (h4 p hp)).2.1
  exact ⟨h1, h2, h3, h5, fun p hp => (h5 p hp).trans (specTariffs_eq records p.Name)⟩

/-- Witness for C16: the rows "uber:uberx", "gett", "uber:uberblack" and
"uber:uber" of one region. -/
theorem recordsToProducts_one_per_prefix_witness :
    (recordsToProducts sampleLib sampleRows).2 = none ∧
    ((recordsToProducts sampleLib sampleRows).1.map Product.Name).Nodup ∧
    (∀ pfx, pfx ∈ (recordsToProducts sampleLib sampleRows).1.map Product.Name
      ↔ ∃ r ∈ sampleRows, r.name = pfx) ∧
    (∀ p ∈ (recordsToProducts sampleLib sampleRows).1,
      p.Tariffs = specTariffs sampleRows p.Name) ∧
    (∀ p ∈ (recordsToProducts sampleLib sampleRows).1, p.Tariffs
      = (sampleRows.filter (fun r => r.name = p.Name ∧ r.tariff ≠ "")).map record.tariff) :=
  recordsToProducts_one_per_prefix sampleLib sampleRows (by decide)

theorem recordsToProducts_example :
    (recordsToProducts sampleLib sampleRows).1.map (fun p => (p.Name, p.Tariffs))
      = [("uber", ["uberx", "uberblack"]), ("gett", [])] := by
  decide

/-- Counterexample to C17: two rows of region 1 with the name prefix "uber" and
the handlers "uber" and "gett" give one Product, with the handler of the first
row and the tariffs of both rows. -/
theorem recordsToProducts_handlers_counterexample :
    (sampleMixedRows.map (fun r => (r.RegionID, r.name, r.Handler, r.tariff))
      = [(1, "uber", "uber", "uberx"), (1, "uber", "gett", "uberblack")]) ∧
    (recordsToProducts sampleLib sampleMixedRows).2 = none ∧
    (recordsToProducts sampleLib sampleMixedRows).1.map
        (fun p => (p.Name, p.ProviderName, p.Tariffs))
      = [("uber", "uber", ["uberx", "uberblack"])] := by
  decide

/-- C17, amended: rows are folded by their name prefix alone. For rows whose name
prefixes are all non-empty, every row is folded into the only Product that has
the name prefix of the row as its Name; that Product carries the tariffs of all
rows with the prefix, whatever their handlers, and its ProviderName is the
handler of the first row with the prefix. -/
theorem recordsToProducts_folds_by_prefix (L : GoLib) (records : List record)
    (h : ∀ r ∈ records, r.name ≠ "") :
    (recordsToProducts L records).2 = none ∧
    ∀ r ∈ records, ∃ p ∈ (recordsToProducts L records).1,
      p.Name = r.name ∧
      (∀ q ∈ (recordsToProducts L records).1, q.Name = r.name → q = p) ∧
      p.Tariffs = specTariffs records r.name ∧
      ∃ first, records.find? (fun x => x.name = r.name) = some first ∧
        p.ProviderName = first.Handler := by
  obtain ⟨h1, -, -, h4, h5⟩ := recordsToProducts_ok L records h
  refine ⟨h1, ?_⟩
  intro r hr
  obtain ⟨p, hp⟩ := specProduct_isSome L records r.name ⟨r, hr, rfl⟩
  obtain ⟨hN, hT, first, -, -, hfind, hH, -⟩ := specProduct_some L records r.name p hp
  refine ⟨p, h5 r.name p hp, hN, ?_, hT, first, hfind, hH⟩
  intro q hq hqn
  have hq2 := h4 q hq
  rw [hqn, hp] at hq2
  exact (Option.some.inj hq2).symm

/-- Witness for the amended C17: the rows "uber:uberx" of handler "uber" and
"uber:uberblack" of handler "gett". -/
theorem recordsToProducts_folds_by_prefix_witness :
    (recordsToProducts sampleLib sampleMixedRows).2 = none ∧
    ∀ r ∈ sampleMixedRows, ∃ p ∈ (recordsToProducts sampleLib sampleMixedRows).1,
      p.Name = r.name ∧
      (∀ q ∈ (recordsToProducts sampleLib sampleMixedRows).1, q.Name = r.name → q = p) ∧
      p.Tariffs = specTariffs sampleMixedRows r.name ∧
      ∃ first, sampleMixedRows.find? (fun x => x.name = r.name) = some first ∧
        p.ProviderName = first.Handler :=
  recordsToProducts_folds_by_prefix sampleLib sampleMixedRows (by decide)

/-! ## The product catalog: rows with an empty name prefix -/

/-- Counterexample to C19: region 1 has the rows "gett" and ":x", region 2 the
row "uber". The catalog is built without error, region 1 is absent from it, so
that the row "gett" yields no Product, and region 2 keeps its Product. -/
theorem GetAllProducts_empty_prefix_counterexample :
    (sampleBadRows.map (fun r => (r.RegionID, r.name)) = [(1, "gett"), (1, ""), (2, "uber")]) ∧
    ((sampleStore sampleBadRows).GetAllProducts sampleLib).2 = none ∧
    mapGet 1 ((sampleStore sampleBadRows).GetAllProducts sampleLib).1 = none ∧
    ((sampleStore sampleBadRows).GetAllProducts sampleLib).1.map
        (fun e => (e.1, e.2.map Product.Name)) = [(2, ["uber"])] := by
  decide

/-- C19, amended: for rows that pass the validation of getAllRecords, the catalog
is built without error. A region with a row whose name prefix is empty is absent
from the catalog, with all its rows; a region whose rows all have a non-empty
name prefix is present, and each of its rows has a Product with the prefix as its
Name; no Product of the catalog has an empty Name. -/
theorem GetAllProducts_empty_prefix (L : GoLib) (records : List record)
    (h : ∀ r ∈ records, r.IsEmpty = false) :
    (({ db := .rows records } : postgresRep).GetAllProducts L).2 = none ∧
    (∀ regID, (∃ r ∈ records, r.RegionID = regID ∧ r.name = "") →
      mapGet regID (({ db := .rows records } : postgresRep).GetAllProducts L).1 = none) ∧
    (∀ regID, (∃ r ∈ records, r.RegionID = regID) →
      (∀ r ∈ records, r.RegionID = regID → r.name ≠ "") →
      ∃ prods, mapGet regID (({ db := .rows records } : postgresRep).GetAllProducts L).1
          = some prods ∧
        prods = (recordsToProducts L (specRegionRows records regID)).1 ∧
        ∀ r ∈ records, r.RegionID = regID → ∃ p ∈ prods, p.Name = r.name) ∧
    (∀ e ∈ (({ db := .rows records } : postgresRep).GetAllProducts L).1,
      ∀ p ∈ e.2, p.Name ≠ "") := by
  refine ⟨by rw [GetAllProducts_rows L records h], ?_, ?_, ?_⟩
  · rintro regID ⟨r, hr, hreg, hn⟩
    rw [GetAllProducts_lookup L records h regID]
    have hmem : r ∈ specRegionRows records regID := by
      simp [specRegionRows, hr, hreg]
    rw [if_pos (recordsToProducts_error L _ ⟨r, hmem, hn⟩).1]
  · rintro regID ⟨r0, hr0, hreg0⟩ hall
    have hall2 : ∀ r ∈ specRegionRows records regID, r.name ≠ "" := by
      intro r hr
      have hr2 := List.mem_filter.mp hr
      exact hall r hr2.1 (by simpa using hr2.2)
    have hmem0 : r0 ∈ specRegionRows records regID := by
      simp [specRegionRows, hr0, hreg0]
    have hne : (recordsToProducts L (specRegionRows records regID)).1 ≠ [] :=
      (recordsToProducts_ne_nil_iff L _).mpr ⟨List.ne_nil_of_mem hmem0, hall2⟩
    refine ⟨_, ?_, rfl, ?_⟩
    · rw [GetAllProducts_lookup L records h regID, if_neg hne]
    · intro r hr hreg
      have hmem : r ∈ specRegionRows records regID := by
        simp [specRegionRows, hr, hreg]
      obtain ⟨-, -, h3, -, -⟩ := recordsToProducts_ok L _ hall2
      obtain ⟨p, hp, hpn⟩ := List.mem_map.mp ((h3 r.name).mpr ⟨r, hmem, rfl⟩)
      exact ⟨p, hp, hpn⟩
  · intro e he
    exact (GetAllProducts_values L _ e he).2

/-- Witness for the amended C19: the rows "gett" and ":x" of region 1 and the row
"uber" of region 2. -/
theorem GetAllProducts_empty_prefix_witness :
    (({ db := .rows sampleBadRows } : postgresRep).GetAllProducts sampleLib).2 = none ∧
    (∀ regID, (∃ r ∈ sampleBadRows, r.RegionID = regID ∧ r.name = "") →
      mapGet regID (({ db := .rows sampleBadRows } : postgresRep).GetAllProducts sampleLib).1
        = none) ∧
    (∀ regID, (∃ r ∈ sampleBadRows, r.RegionID = regID) →
      (∀ r ∈ sampleBadRows, r.RegionID = regID → r.name ≠ "") →
      ∃ prods,
        mapGet regID (({ db := .rows sampleBadRows } : postgresRep).GetAllProducts sampleLib).1
          = some prods ∧
        prods = (recordsToProducts sampleLib (specRegionRows sampleBadRows regID)).1 ∧
        ∀ r ∈ sampleBadRows, r.RegionID = regID → ∃ p ∈ prods, p.Name = r.name) ∧
    (∀ e ∈ (({ db := .rows sampleBadRows } : postgresRep).GetAllProducts sampleLib).1,
      ∀ p ∈ e.2, p.Name ≠ "") :=
  GetAllProducts_empty_prefix sampleLib sampleBadRows (by decide)

/-! ## The product catalog: reloading the cache -/

theorem Cache_IsOK_iff (c : Cache) : c.IsOK = true ↔ c.cache ≠ [] := by
  simp [Cache.IsOK]

theorem GetAllProducts_ok_iff (L : GoLib) (records : List record)
    (h : ∀ r ∈ records, r.IsEmpty = false) :
    (({ db := .rows records } : postgresRep).GetAllProducts L).1 ≠ [] ↔
      ∃ regID, specRegionRows records regID ≠ [] ∧
        ∀ r ∈ specRegionRows records regID, r.name ≠ "" := by
  rw [ne_nil_iff_mapGet]
  constructor
  · rintro ⟨regID, v, hv⟩
    rw [GetAllProducts_lookup L records h regID] at hv
    by_cases hn : (recordsToProducts L (specRegionRows records regID)).1 = []
    · rw [if_pos hn] at hv
      exact absurd hv (by simp)
    · exact ⟨regID, (recordsToProducts_ne_nil_iff L _).mp hn⟩
  · rintro ⟨regID, hne⟩
    refine ⟨regID, (recordsToProducts L (specRegionRows records regID)).1, ?_⟩
    rw [GetAllProducts_lookup L records h regID,
      if_neg ((recordsToProducts_ne_nil_iff L _).mpr hne)]

/-- C14: when GetAllProducts of the store fails, Reload returns that error and
keeps the cache, so that GetProducts and IsOK answer as before; when it succeeds,
the map of the cache is replaced by the fetched one. GetAllProducts fails when
the query or a scan fails and whenever a fetched row has RegionID 0, an empty
handler or a null currency code; it succeeds on rows without such a row. -/
theorem Cache_Reload_spec (L : GoLib) (c : Cache) :
    (∀ fetched err, fetched.2 = some err →
      c.Reload fetched = (c, some err) ∧
      (∀ regionID, (c.Reload fetched).1.GetProducts regionID = c.GetProducts regionID) ∧
      (c.Reload fetched).1.IsOK = c.IsOK) ∧
    (∀ fetched, fetched.2 = none → c.Reload fetched = ({ cache := fetched.1 }, none)) ∧
    (∀ records, (∃ r ∈ records, r.RegionID = 0 ∨ r.Handler = "" ∨ r.CurrencyCode = none) →
      ∃ err, (({ db := .rows records } : postgresRep).GetAllProducts L).2 = some err ∧
        err.cause = .ErrRecordEmpty ∧
        c.Reload (({ db := .rows records } : postgresRep).GetAllProducts L) = (c, some err)) ∧
    (∀ e, ∃ err, (({ db := .queryError e } : postgresRep).GetAllProducts L).2 = some err ∧
        c.Reload (({ db := .queryError e } : postgresRep).GetAllProducts L) = (c, some err)) ∧
    (∀ e, ∃ err, (({ db := .scanError e } : postgresRep).GetAllProducts L).2 = some err ∧
        c.Reload (({ db := .scanError e } : postgresRep).GetAllProducts L) = (c, some err)) ∧
    (∀ records, (∀ r ∈ records, ¬ (r.RegionID = 0 ∨ r.Handler = "" ∨ r.CurrencyCode = none)) →
      (({ db := .rows records } : postgresRep).GetAllProducts L).2 = none ∧
      c.Reload (({ db := .rows records } : postgresRep).GetAllProducts L)
        = ({ cache := (({ db := .rows records } : postgresRep).GetAllProducts L).1 }, none)) := by
  have hfail : ∀ fetched err, fetched.2 = some err → c.Reload fetched = (c, some err) := by
    intro fetched err hf
    simp only [Cache.Reload, hf]
  refine ⟨?_, ?_, ?_, ?_, ?_, ?_⟩
  · intro fetched err hf
    rw [hfail fetched err hf]
    exact ⟨rfl, fun _ => rfl, rfl⟩
  · intro fetched hf
    simp only [Cache.Reload, hf]
  · rintro records ⟨r, hr, hre⟩
    have hg := GetAllProducts_fails L records ⟨r, hr, (record_IsEmpty_iff r).mpr hre⟩
    refine ⟨_, by rw [hg], rfl, ?_⟩
    exact hfail _ _ (by rw [hg])
  · intro e
    exact ⟨_, rfl, hfail _ _ rfl⟩
  · intro e
    exact ⟨_, rfl, hfail _ _ rfl⟩
  · intro records hall
    have hok : ∀ r ∈ records, r.IsEmpty = false := by
      intro r hr
      have := hall r hr
      rw [← record_IsEmpty_iff] at this
      simpa using this
    have hg := GetAllProducts_rows L records hok
    refine ⟨by rw [hg], ?_⟩
    simp only [Cache.Reload, hg]

/-- Counterexample to C15: a cache that holds a product for region 1 is reloaded
from a store without rows, and from a store whose only row has an empty name
prefix; both reloads succeed and leave the cache empty. -/
theorem Cache_Reload_empties_counterexample :
    sampleCache.IsOK = true ∧
    (sampleCache.Reload ((sampleStore []).GetAllProducts sampleLib)).2 = none ∧
    (sampleCache.Reload ((sampleStore []).GetAllProducts sampleLib)).1.IsOK = false ∧
    (sampleCache.Reload
      ((sampleStore [sampleRow 1 ":x" "uber"]).GetAllProducts sampleLib)).2 = none ∧
    (sampleCache.Reload
      ((sampleStore [sampleRow 1 ":x" "uber"]).GetAllProducts sampleLib)).1.IsOK = false := by
  decide

/-- C15, amended: a failed reload keeps the cache, so IsOK answers as before. A
successful reload replaces the map, and IsOK is true after it exactly when the
fetched map is not empty; for rows that pass the validation this is the case
exactly when some region has rows and all of them have a non-empty name prefix,
whatever the cache held before. Every region of a map built by GetAllProducts
maps to a non-empty product list, and so does every region of a cache made or
reloaded from it. -/
theorem Cache_Reload_IsOK (L : GoLib) (c : Cache) :
    (∀ fetched, fetched.2 ≠ none → (c.Reload fetched).1.IsOK = c.IsOK) ∧
    (∀ fetched, fetched.2 = none → ((c.Reload fetched).1.IsOK = true ↔ fetched.1 ≠ [])) ∧
    (∀ records, (∀ r ∈ records, r.IsEmpty = false) →
      ((c.Reload (({ db := .rows records } : postgresRep).GetAllProducts L)).1.IsOK = true ↔
        ∃ regID, specRegionRows records regID ≠ [] ∧
          ∀ r ∈ specRegionRows records regID, r.name ≠ "")) ∧
    (∀ pg : postgresRep, ∀ e ∈ (pg.GetAllProducts L).1, e.2 ≠ []) ∧
    (∀ pg : postgresRep, (∀ e ∈ c.cache, e.2 ≠ []) →
      ∀ e ∈ (c.Reload (pg.GetAllProducts L)).1.cache, e.2 ≠ []) ∧
    (∀ pg : postgresRep, ∀ e ∈ (NewCache (pg.GetAllProducts L)).1.cache, e.2 ≠ []) := by
  have hok : ∀ fetched, fetched.2 = none → (c.Reload fetched).1 = { cache := fetched.1 } := by
    intro fetched hf
    simp only [Cache.Reload, hf]
  refine ⟨?_, ?_, ?_, ?_, ?_, ?_⟩
  · intro fetched hf
    cases hf2 : fetched.2 with
    | none => exact absurd hf2 hf
    | some err => simp only [Cache.Reload, hf2]
  · intro fetched hf
    rw [hok fetched hf, Cache_IsOK_iff]
  · intro records hall
    have hg := GetAllProducts_rows L records hall
    rw [hok _ (by rw [hg]), Cache_IsOK_iff]
    exact GetAllProducts_ok_iff L records hall
  · intro pg e he
    exact (GetAllProducts_values L pg e he).1
  · intro pg hc e he
    cases hf2 : (pg.GetAllProducts L).2 with
    | none =>
      rw [hok _ hf2] at he
      exact (GetAllProducts_values L pg e he).1
    | some err =>
      simp only [Cache.Reload, hf2] at he
      exact hc e he
  · intro pg e he
    cases hf2 : (pg.GetAllProducts L).2 with
    | none =>
      simp only [NewCache, hf2] at he
      exact (GetAllProducts_values L pg e he).1
    | some err =>
      simp only [NewCache, hf2] at he
      simp at he

/-! ## The response and the router -/

/-- C25: in the response made by newResponse, the Optimal block is absent
exactly when the optimal list is empty and carries that list otherwise; the Else
block is absent exactly when the else list is empty and carries that list
otherwise; ID is -1 and Meta is the given one. -/
theorem newResponse_spec (m : Option meta) (optimal elses : List serviceRecord) :
    ((newResponse m optimal elses).Result.Optimal = none ↔ optimal = []) ∧
    (optimal ≠ [] →
      ∃ b, (newResponse m optimal elses).Result.Optimal = some b ∧ b.Results = optimal) ∧
    ((newResponse m optimal elses).Result.Else = none ↔ elses = []) ∧
    (elses ≠ [] →
      ∃ b, (newResponse m optimal elses).Result.Else = some b ∧ b.Results = elses) ∧
    (newResponse m optimal elses).Result.ID = -1 ∧
    (newResponse m optimal elses).Meta = m := by
  refine ⟨?_, ?_, ?_, ?_, rfl, rfl⟩
  · cases optimal with
    | nil => simp [newResponse]
    | cons r rest => simp [newResponse]
  · exact newResponse_Optimal m optimal elses
  · cases elses with
    | nil => simp [newResponse]
    | cons r rest => simp [newResponse]
  · exact newResponse_Else m optimal elses

theorem tdiv_sixty (d : Int) (h : 0 ≤ d) :
    Int.tdiv d 60 = d / 60 ∧ d / 60 = ⌊(d : ℚ) / 60⌋ := by
  constructor
  · exact Int.tdiv_eq_ediv h (by norm_num)
  · have := Rat.floor_intCast_div_natCast d 60
    simpa using this.symm

/-- C26: given the region name and the decoded answer of the router,
DistanceTime fails with ErrMosesEmptyResult when the result list is empty, fails
with ErrMosesInvalidResult when the first result has a negative Length or a
negative Duration, and otherwise returns the Length of the first result and its
Duration divided by 60 and rounded down; zero values are accepted. -/
theorem DistanceTime_spec (m : MosesService) (post : String → Request → HttpResult mosesAnswer)
    (taxiReq : Request) (regionName : String) (answer : mosesAnswer)
    (hreg : m.regionsInfo taxiReq.RegionID = (regionName, none))
    (herr : (post regionName taxiReq).err = none)
    (hans : (post regionName taxiReq).holder = answer) :
    (answer.Result = [] →
      m.DistanceTime post taxiReq = (0, 0, some (Error.new .ErrMosesEmptyResult))) ∧
    (∀ first rest, answer.Result = first :: rest → first.Length < 0 ∨ first.Duration < 0 →
      ∃ err, m.DistanceTime post taxiReq = (0, 0, some err) ∧
        err.cause = .ErrMosesInvalidResult) ∧
    (∀ first rest, answer.Result = first :: rest → 0 ≤ first.Length → 0 ≤ first.Duration →
      m.DistanceTime post taxiReq = (first.Length, first.Duration / 60, none) ∧
      first.Duration / 60 = ⌊(first.Duration : ℚ) / 60⌋) := by
  refine ⟨?_, ?_, ?_⟩
  · intro h
    simp only [MosesService.DistanceTime, hreg, herr, hans, h]
  · intro first rest h hneg
    refine ⟨(Error.new .ErrMosesInvalidResult).Wrap "Length, duration", ?_, rfl⟩
    simp only [MosesService.DistanceTime, hreg, herr, hans, h, if_pos hneg]
  · intro first rest h hl hd
    have hnot : ¬ (first.Length < 0 ∨ first.Duration < 0) := by omega
    obtain ⟨h1, h2⟩ := tdiv_sixty first.Duration hd
    refine ⟨?_, h2⟩
    simp only [MosesService.DistanceTime, hreg, herr, hans, h, if_neg hnot, h1]

/-- Witness for C26: the router answers with one route of 3474 metres and 720
seconds. -/
theorem DistanceTime_spec_witness :
    (({ Result := [sampleRoute 3474 720] } : mosesAnswer).Result = [] →
      sampleMoses.DistanceTime (fun _ _ => sampleOk { Result := [sampleRoute 3474 720] })
        sampleRequest = (0, 0, some (Error.new .ErrMosesEmptyResult))) ∧
    (∀ first rest, ({ Result := [sampleRoute 3474 720] } : mosesAnswer).Result = first :: rest →
      first.Length < 0 ∨ first.Duration < 0 →
      ∃ err, sampleMoses.DistanceTime (fun _ _ => sampleOk { Result := [sampleRoute 3474 720] })
          sampleRequest = (0, 0, some err) ∧
        err.cause = .ErrMosesInvalidResult) ∧
    (∀ first rest, ({ Result := [sampleRoute 3474 720] } : mosesAnswer).Result = first :: rest →
      0 ≤ first.Length → 0 ≤ first.Duration →
      sampleMoses.DistanceTime (fun _ _ => sampleOk { Result := [sampleRoute 3474 720] })
          sampleRequest = (first.Length, first.Duration / 60, none) ∧
      first.Duration / 60 = ⌊(first.Duration : ℚ) / 60⌋) :=
  DistanceTime_spec sampleMoses (fun _ _ => sampleOk { Result := [sampleRoute 3474 720] })
    sampleRequest "nsk" { Result := [sampleRoute 3474 720] } rfl rfl rfl

theorem DistanceTime_tests :
    sampleMoses.DistanceTime (fun _ _ => sampleOk { Result := [sampleRoute 3474 720] })
      sampleRequest = (3474, 12, none) ∧
    sampleMoses.DistanceTime (fun _ _ => sampleOk { Result := [sampleRoute 0 0] })
      sampleRequest = (0, 0, none) ∧
    sampleMoses.DistanceTime (fun _ _ => sampleOk { Result := [sampleRoute 100 59] })
      sampleRequest = (100, 0, none) := by
  decide

/-! ## The price of a record -/

theorem newServiceRecord_Price (L : GoLib) (apiData : APIData) (prod : Product)
    (rec : serviceRecord) (err : Option Error)
    (h : newServiceRecord L apiData prod = some (rec, err)) :
    rec.Price = floatToInt apiData.PriceMean := by
  unfold newServiceRecord at h
  cases hop : prod.GetOperator L apiData.DisplayName apiData.TemplateVars with
  | none => rw [hop] at h; simp at h
  | some oe =>
    rw [hop] at h
    simp only [Option.some.injEq, Prod.mk.injEq] at h
    rw [← h.1]

theorem specNearest_iff (x : ℚ) (n : Int) : specNearest x n ↔ |x - (n : ℚ)| ≤ 1 / 2 := by
  constructor
  · intro h
    have h1 := h (n + 1)
    have h2 := h (n - 1)
    push_cast at h1 h2
    by_contra hc
    rw [not_le] at hc
    rcases le_total 0 (x - (n : ℚ)) with hx | hx
    · rw [abs_of_nonneg hx] at hc h1
      have : |x - ((n : ℚ) + 1)| < x - (n : ℚ) := by
        rw [abs_lt]
        constructor <;> linarith
      linarith
    · rw [abs_of_nonpos hx] at hc h2
      have : |x - ((n : ℚ) - 1)| < -(x - (n : ℚ)) := by
        rw [abs_lt]
        constructor <;> linarith
      linarith
  · intro h k
    by_cases hk : k = n
    · rw [hk]
    · have h1 : (1 : ℚ) ≤ |(n : ℚ) - (k : ℚ)| := by
        have h2 : (1 : Int) ≤ |n - k| := Int.one_le_abs (sub_ne_zero.mpr (fun e => hk e.symm))
        have h3 : ((1 : Int) : ℚ) ≤ ((|n - k| : Int) : ℚ) := Int.cast_le.mpr h2
        simpa using h3
      have h4 : |(n : ℚ) - (k : ℚ)| ≤ |x - (k : ℚ)| + |x - (n : ℚ)| := by
        have := abs_sub_le (n : ℚ) x (k : ℚ)
        rw [abs_sub_comm (n : ℚ) x] at this
        linarith
      linarith

/-- Counterexample to C24: the offer with the mean price 100.7 gives a record of
price 100, and 101 is nearer to 100.7 than 100. -/
theorem newServiceRecord_price_counterexample :
    ∃ rec err,
      newServiceRecord sampleLib (sampleOffer "econom" (1007 / 10)) (sampleProduct "gett" [] false)
        = some (rec, err) ∧
      rec.Price = 100 ∧ ¬ specNearest (1007 / 10) rec.Price := by
  have hp : floatToInt (1007 / 10) = 100 := by decide!
  have hsome : ∃ rec err,
      newServiceRecord sampleLib (sampleOffer "econom" (1007 / 10)) (sampleProduct "gett" [] false)
        = some (rec, err) := ⟨_, _, rfl⟩
  obtain ⟨rec, err, h⟩ := hsome
  have hprice : rec.Price = 100 := (newServiceRecord_Price _ _ _ _ _ h).trans hp
  refine ⟨rec, err, h, hprice, ?_⟩
  intro hn
  have h2 := (specNearest_iff (1007 / 10) rec.Price).mp hn
  rw [hprice] at h2
  norm_num [abs_le] at h2

/-- C24, amended: for an offer whose mean price lies between -2^63 and 2^63,
the range of the 64-bit int, the price of the record built by newServiceRecord
is the mean price with its fractional part dropped: the mean rounded down when
it is not negative, rounded up when it is not positive. It differs from the mean
by less than one, and it is an integer nearest to the mean exactly when it
differs from the mean by at most one half. For any offer the price is the
64-bit conversion int(PriceMean). -/
theorem newServiceRecord_price_truncated (L : GoLib) (apiData : APIData) (prod : Product)
    (rec : serviceRecord) (err : Option Error)
    (h : newServiceRecord L apiData prod = some (rec, err))
    (hlo : -(2 : ℚ) ^ 63 ≤ apiData.PriceMean) (hhi : apiData.PriceMean < 2 ^ 63) :
    rec.Price = floatToInt apiData.PriceMean ∧
    (0 ≤ apiData.PriceMean → rec.Price = ⌊apiData.PriceMean⌋) ∧
    (apiData.PriceMean ≤ 0 → rec.Price = ⌈apiData.PriceMean⌉) ∧
    |apiData.PriceMean - (rec.Price : ℚ)| < 1 ∧
    (specNearest apiData.PriceMean rec.Price ↔ |apiData.PriceMean - (rec.Price : ℚ)| ≤ 1 / 2) := by
  have hp := newServiceRecord_Price L apiData prod rec err h
  have hfl : 0 ≤ apiData.PriceMean → rec.Price = ⌊apiData.PriceMean⌋ := by
    intro h0
    rw [hp, floatToInt_eq _ hlo hhi, if_pos h0]
  have hce : apiData.PriceMean ≤ 0 → rec.Price = ⌈apiData.PriceMean⌉ := by
    intro h0
    rw [hp, floatToInt_eq _ hlo hhi]
    split
    · have hz : apiData.PriceMean = 0 := le_antisymm h0 (by assumption)
      rw [hz]
      simp
    · rfl
  refine ⟨hp, hfl, hce, ?_, specNearest_iff _ _⟩
  rcases le_total 0 apiData.PriceMean with h0 | h0
  · rw [hfl h0, abs_lt]
    constructor
    · have := Int.floor_le apiData.PriceMean
      linarith
    · have := Int.lt_floor_add_one apiData.PriceMean
      linarith
  · rw [hce h0, abs_lt]
    constructor
    · have := Int.ceil_lt_add_one apiData.PriceMean
      linarith
    · have := Int.le_ceil apiData.PriceMean
      linarith

/-- Witness for the amended C24: the offer with the mean price 100.7. -/
theorem newServiceRecord_price_truncated_witness :
    ∃ rec err,
      newServiceRecord sampleLib (sampleOffer "econom" (1007 / 10)) (sampleProduct "gett" [] false)
        = some (rec, err) ∧
      rec.Price = floatToInt (sampleOffer "econom" (1007 / 10)).PriceMean ∧
      (0 ≤ (sampleOffer "econom" (1007 / 10)).PriceMean →
        rec.Price = ⌊(sampleOffer "econom" (1007 / 10)).PriceMean⌋) ∧
      ((sampleOffer "econom" (1007 / 10)).PriceMean ≤ 0 →
        rec.Price = ⌈(sampleOffer "econom" (1007 / 10)).PriceMean⌉) ∧
      |(sampleOffer "econom" (1007 / 10)).PriceMean - (rec.Price : ℚ)| < 1 ∧
      (specNearest (sampleOffer "econom" (1007 / 10)).PriceMean rec.Price ↔
        |(sampleOffer "econom" (1007 / 10)).PriceMean - (rec.Price : ℚ)| ≤ 1 / 2) :=
  ⟨_, _, rfl, newServiceRecord_price_truncated sampleLib (sampleOffer "econom" (1007 / 10))
    (sampleProduct "gett" [] false) _ _ rfl (by norm_num [sampleOffer])
    (by norm_num [sampleOffer])⟩

theorem newServiceRecord_price_out_of_range :
    (newServiceRecord sampleLib (sampleOffer "econom" (10 ^ 19))
      (sampleProduct "gett" [] false)).map (fun r => r.1.Price) = some (-2 ^ 63) := by
  decide!

/-! ## Evaluation of the request -/

/-- C21: when both address lookups return a point without error,
EvaluateTaxiRequest returns no error and, in each point of the request, Lat, Lon
and Address are those of the looked-up point, LatStr and LonStr are the texts of
FormatFloat for the new Lat and Lon, and Area is the area name of the new
coordinates; the other fields of the request are kept. When either lookup fails,
it returns an error and the request is unchanged. -/
theorem EvaluateTaxiRequest_spec (T : TextLib) (addrSrv : AddressService) (taxiReq : Request) :
    (∀ info1 info2,
      addrSrv.Address taxiReq.Point1.Lat taxiReq.Point1.Lon = (some info1, none) →
      addrSrv.Address taxiReq.Point2.Lat taxiReq.Point2.Lon = (some info2, none) →
      EvaluateTaxiRequest T addrSrv taxiReq
        = some ({ ReqID := taxiReq.ReqID, RegionID := taxiReq.RegionID, OnlyAPI := taxiReq.OnlyAPI,
                  Point1 := { Lat := info1.Lat, Lon := info1.Lon, Address := info1.Address,
                              LatStr := T.FormatFloat info1.Lat,
                              LonStr := T.FormatFloat info1.Lon,
                              Area := addrSrv.AreaNameByLatLon info1.Lat info1.Lon },
                  Point2 := { Lat := info2.Lat, Lon := info2.Lon, Address := info2.Address,
                              LatStr := T.FormatFloat info2.Lat,
                              LonStr := T.FormatFloat info2.Lon,
                              Area := addrSrv.AreaNameByLatLon info2.Lat info2.Lon } }, none)) ∧
    (∀ e1, (addrSrv.Address taxiReq.Point1.Lat taxiReq.Point1.Lon).2 = some e1 →
      EvaluateTaxiRequest T addrSrv taxiReq
        = some (taxiReq, some (e1.Wrap "Cannot evaluate address for point1"))) ∧
    (∀ e2, (addrSrv.Address taxiReq.Point1.Lat taxiReq.Point1.Lon).2 = none →
      (addrSrv.Address taxiReq.Point2.Lat taxiReq.Point2.Lon).2 = some e2 →
      EvaluateTaxiRequest T addrSrv taxiReq
        = some (taxiReq, some (e2.Wrap "Cannot evaluate address for point2"))) ∧
    ((addrSrv.Address taxiReq.Point1.Lat taxiReq.Point1.Lon).2 = none →
      (addrSrv.Address taxiReq.Point2.Lat taxiReq.Point2.Lon).2 = none →
      ∀ r, EvaluateTaxiRequest T addrSrv taxiReq = some r → r.2 = none) := by
  refine ⟨?_, ?_, ?_, ?_⟩
  · intro info1 info2 h1 h2
    simp only [EvaluateTaxiRequest, h1, h2, Point.AddGeoInfo, Point.stringfy, Point.AddArea]
  · intro e1 h1
    simp only [EvaluateTaxiRequest, h1]
  · intro e2 h1 h2
    simp only [EvaluateTaxiRequest, h1, h2]
  · intro h1 h2 r hr
    unfold EvaluateTaxiRequest at hr
    simp only [h1, h2] at hr
    cases h3 : taxiReq.Point1.AddGeoInfo T (addrSrv.Address taxiReq.Point1.Lat taxiReq.Point1.Lon).1 with
    | none => rw [h3] at hr; simp at hr
    | some p1 =>
      rw [h3] at hr
      cases h4 : taxiReq.Point2.AddGeoInfo T
          (addrSrv.Address taxiReq.Point2.Lat taxiReq.Point2.Lon).1 with
      | none => rw [h4] at hr; simp at hr
      | some p2 =>
        rw [h4] at hr
        simp only [Option.some.injEq] at hr
        rw [← hr]

/-! ## The presentation fields of a Product -/

/-- C28: recordToProduct copies the short title, the site, the phone, the store
URLs and identifiers, the deeplink template, the rating, the average ETA, the
currency code and the optimal flag of the row into the Product, but not the
title: the Title of the Product is empty whatever the row holds, so that the
operator of an offer without display name gets an empty title. -/
theorem recordToProduct_presentation (L : GoLib) (rec : record) :
    (recordToProduct L rec).1.Title = "" ∧
    (recordToProduct L rec).1.ShortTitle = rec.ShortTitle ∧
    (recordToProduct L rec).1.SiteCaption = rec.SiteCaption ∧
    (recordToProduct L rec).1.SiteValue = rec.SiteValue ∧
    (recordToProduct L rec).1.PhoneCaption = rec.PhoneCaption ∧
    (recordToProduct L rec).1.PhoneValue = rec.PhoneValue ∧
    (recordToProduct L rec).1.AndroidAppURL = rec.AndroidAppURL ∧
    (recordToProduct L rec).1.AndroidAppID = rec.AndroidAppID ∧
    (recordToProduct L rec).1.IosAppURL = rec.IosAppURL ∧
    (recordToProduct L rec).1.IosAppID = rec.IosAppID ∧
    (recordToProduct L rec).1.AppURLTemplate = rec.AppURL ∧
    (recordToProduct L rec).1.Rating = rec.Rating ∧
    (recordToProduct L rec).1.AvgEta = rec.AvgEta ∧
    (recordToProduct L rec).1.CurrencyCode = rec.CurrencyCode ∧
    (recordToProduct L rec).1.IsOptimal = rec.IsOptimal ∧
    sampleTitledRow.Title = "Uber" ∧
    (recordToProduct sampleLib sampleTitledRow).2 = none ∧
    (recordToProduct sampleLib sampleTitledRow).1.Title = "" ∧
    ((recordToProduct sampleLib sampleTitledRow).1.GetOperator sampleLib "" []).map
      (fun r => r.1.Title) = some (some "") := by
  have h : ∀ r : record, (recordToProduct L r).1.Title = "" ∧
      (recordToProduct L r).1.ShortTitle = r.ShortTitle ∧
      (recordToProduct L r).1.SiteCaption = r.SiteCaption ∧
      (recordToProduct L r).1.SiteValue = r.SiteValue ∧
      (recordToProduct L r).1.PhoneCaption = r.PhoneCaption ∧
      (recordToProduct L r).1.PhoneValue = r.PhoneValue ∧
      (recordToProduct L r).1.AndroidAppURL = r.AndroidAppURL ∧
      (recordToProduct L r).1.AndroidAppID = r.AndroidAppID ∧
      (recordToProduct L r).1.IosAppURL = r.IosAppURL ∧
      (recordToProduct L r).1.IosAppID = r.IosAppID ∧
      (recordToProduct L r).1.AppURLTemplate = r.AppURL ∧
      (recordToProduct L r).1.Rating = r.Rating ∧
      (recordToProduct L r).1.AvgEta = r.AvgEta ∧
      (recordToProduct L r).1.CurrencyCode = r.CurrencyCode ∧
      (recordToProduct L r).1.IsOptimal = r.IsOptimal := by
    intro r
    unfold recordToProduct
    by_cases hn : r.name = ""
    · simp [Product.IsEmpty, hn]
    · simp [Product.IsEmpty, hn]
  obtain ⟨h1, h2, h3, h4, h5, h6, h7, h8, h9, h10, h11, h12, h13, h14, h15⟩ := h rec
  exact ⟨h1, h2, h3, h4, h5, h6, h7, h8, h9, h10, h11, h12, h13, h14, h15,
    by decide, by decide, by decide, by decide⟩

/-! ## Faults of GetOperator -/

theorem newStoreURL_none_iff (L : GoLib) (ID someURLStr : Option String)
    (urlReplaces : TemplateVars) :
    newStoreURL L ID someURLStr urlReplaces = none ↔
      ∃ u link, someURLStr = some u ∧ u ≠ "" ∧ makeLink L u urlReplaces = .ok link ∧
        ID = none := by
  unfold newStoreURL
  cases someURLStr with
  | none => simp
  | some u =>
    by_cases hu : u = ""
    · simp [hu]
    · cases hm : makeLink L u urlReplaces with
      | error e => simp [hu, hm]
      | ok link =>
        cases ID with
        | none => simp [hu, hm]
        | some id => simp [hu, hm]

theorem GetOperator_none_iff (L : GoLib) (p : Product) (displayName : String)
    (urlReplace : TemplateVars) :
    p.GetOperator L displayName urlReplace = none ↔
      (newStoreURL L p.IosAppID p.IosAppURL urlReplace = none ∨
        newStoreURL L p.AndroidAppID p.AndroidAppURL urlReplace = none) := by
  unfold Product.GetOperator newStoreURLs
  cases h1 : newStoreURL L p.IosAppID p.IosAppURL urlReplace with
  | none => simp
  | some r1 =>
    cases h2 : newStoreURL L p.AndroidAppID p.AndroidAppURL urlReplace with
    | none => simp
    | some r2 =>
      simp only [false_or, reduceCtorEq, iff_false]
      by_cases hc : r1.1 ≠ none ∨ r2.1 ≠ none
      · rw [if_pos hc]
        simp
      · rw [if_neg hc]
        simp

/-- C29: GetOperator faults exactly when the URL of a store (iOS or Android) is
set, is not empty and is turned into a link by makeLink while the identifier of
the application for that store is nil. A row of the catalog with the URL of the
iOS store and a null identifier passes the validation of the rows and gives such
a Product: GetOperator, newServiceRecord and Response fault on it. -/
theorem GetOperator_store_fault (L : GoLib) (p : Product) (displayName : String)
    (urlReplace : TemplateVars) :
    (p.GetOperator L displayName urlReplace = none ↔
      ((∃ u link, p.IosAppURL = some u ∧ u ≠ "" ∧ makeLink L u urlReplace = .ok link ∧
          p.IosAppID = none) ∨
        (∃ u link, p.AndroidAppURL = some u ∧ u ≠ "" ∧ makeLink L u urlReplace = .ok link ∧
          p.AndroidAppID = none))) ∧
    sampleStoreRow.IsEmpty = false ∧
    (recordToProduct sampleLib sampleStoreRow).2 = none ∧
    (recordToProduct sampleLib sampleStoreRow).1.IosAppURL
      = some "https://itunes.apple.com/app/uber" ∧
    (recordToProduct sampleLib sampleStoreRow).1.IosAppID = none ∧
    (recordToProduct sampleLib sampleStoreRow).1.GetOperator sampleLib "" [] = none ∧
    newServiceRecord sampleLib (sampleOffer "" 100) (recordToProduct sampleLib sampleStoreRow).1
      = none ∧
    (sampleService (sampleAdapter "uber" [sampleOffer "" 100] none)
      [(recordToProduct sampleLib sampleStoreRow).1] (1000, 2000, none)).Response
      sampleLib exactMul insertionSorter 0 sampleRequest (13 / 10) = none := by
  refine ⟨?_, by decide, by decide, by decide, by decide, by decide, by decide, by decide⟩
  rw [GetOperator_none_iff, newStoreURL_none_iff, newStoreURL_none_iff]

/-! ## Faults of the response -/

theorem requestProviders_records_ne_nil (L : GoLib) (apisMap : String → Option APIDataGetter)
    (taxiReq : Request) (prods : List Product) (records : List serviceRecord)
    (h : requestProviders L apisMap taxiReq prods = some (records, none)) : records ≠ [] := by
  unfold requestProviders at h
  cases hp : providersLoop L apisMap taxiReq prods [] with
  | none => rw [hp] at h; simp at h
  | some recs =>
    rw [hp] at h
    simp only [] at h
    by_cases hl : recs.length = 0
    · rw [if_pos hl] at h
      simp at h
    · rw [if_neg hl] at h
      simp only [Option.some.injEq, Prod.mk.injEq, and_true] at h
      rw [← h]
      intro hnil
      exact hl (by rw [hnil]; rfl)

theorem getServiceRecords_none_iff (L : GoLib) (F : FloatMul) (S : PriceSorter) (rnd : Nat)
    (s : Service) (req : Request) (priceCoeff : ℚ) :
    getServiceRecords L F S rnd s req priceCoeff = none ↔
      ((s.prodCache.GetProducts req.RegionID).2 = none ∧
        requestProviders L s.apisMap req (s.prodCache.GetProducts req.RegionID).1 = none) := by
  unfold getServiceRecords
  cases hg : (s.prodCache.GetProducts req.RegionID).2 with
  | some e => simp
  | none =>
    simp only [true_and]
    cases hr : requestProviders L s.apisMap req (s.prodCache.GetProducts req.RegionID).1 with
    | none => simp
    | some r =>
      obtain ⟨records, e⟩ := r
      cases e with
      | some err => simp
      | none =>
        obtain ⟨optimal, elses, ho, -⟩ := getOptimalElse_of_ne_nil F S rnd records
          (isOptimalLoop (s.prodCache.GetProducts req.RegionID).1) priceCoeff
          (requestProviders_records_ne_nil L s.apisMap req _ records hr)
        simp [ho]

/-- C30: Response faults only when the fan-out to the adapters faults. Its own
steps after the fan-out do not fault: requestProviders returns records without
error only when there is at least one record, so getOptimalElse is called on a
non-empty list and returns; the meta that getMeta leaves has Distance and Time
both nil or both set, and isEmpty returns on it. -/
theorem Response_postprocessing_total (L : GoLib) (F : FloatMul) (S : PriceSorter) (rnd : Nat)
    (s : Service) (req : Request) (priceCoeff : ℚ) :
    (s.Response L F S rnd req priceCoeff = none ↔
      ((s.prodCache.GetProducts req.RegionID).2 = none ∧
        requestProviders L s.apisMap req (s.prodCache.GetProducts req.RegionID).1 = none)) ∧
    (∀ prods records, requestProviders L s.apisMap req prods = some (records, none) →
      records ≠ [] ∧
      ∃ r, getOptimalElse F S rnd records (isOptimalLoop prods) priceCoeff = some r) ∧
    (((getMeta s req).1.Distance = none ∧ (getMeta s req).1.Time = none) ∨
      (∃ d t, (getMeta s req).1.Distance = some d ∧ (getMeta s req).1.Time = some t)) ∧
    (∃ b, (getMeta s req).1.isEmpty = some b) := by
  refine ⟨?_, ?_, ?_, ⟨_, (getMeta_isEmpty s req).1⟩⟩
  · rw [← getServiceRecords_none_iff L F S rnd s req priceCoeff]
    constructor
    · intro h
      cases hg : getServiceRecords L F S rnd s req priceCoeff with
      | none => rfl
      | some r =>
        obtain ⟨optimal, elses, err⟩ := r
        cases err with
        | some e =>
          rw [Response_of_error L F S rnd s req priceCoeff optimal elses e hg] at h
          simp at h
        | none =>
          rw [Response_of_records L F S rnd s req priceCoeff optimal elses hg] at h
          simp at h
    · exact Response_of_fault L F S rnd s req priceCoeff
  · intro prods records h
    have hne := requestProviders_records_ne_nil L s.apisMap req prods records h
    obtain ⟨optimal, elses, ho, -⟩ := getOptimalElse_of_ne_nil F S rnd records
      (isOptimalLoop prods) priceCoeff hne
    exact ⟨hne, _, ho⟩
  · unfold getMeta
    rcases s.distTimeSrv.DistanceTime req with ⟨d, t, _ | e⟩
    · exact Or.inr ⟨d, t, rfl, rfl⟩
    · exact Or.inl ⟨rfl, rfl⟩

/-! ## Selection of the optimal offer: the order of the input -/

theorem sort_unique (S1 S2 : PriceSorter) (l1 l2 : List serviceRecord) (hperm : l1.Perm l2)
    (hd : (l1.map (fun r => r.Price)).Nodup) : S1.sort l1 = S2.sort l2 := by
  have hstrict : ∀ (S : PriceSorter) (l : List serviceRecord), l.Perm l1 →
      (S.sort l).Pairwise (fun a b => a.Price < b.Price) := by
    intro S l hl
    have hp : (S.sort l).Perm l1 := (S.perm l).trans hl
    have hnd : ((S.sort l).map (fun r => r.Price)).Nodup :=
      (hp.map (fun r => r.Price)).nodup_iff.mpr hd
    have hne : (S.sort l).Pairwise (fun a b => a.Price ≠ b.Price) := by
      rw [List.Nodup, List.pairwise_map] at hnd
      exact hnd
    exact ((S.sorted l).and hne).imp (fun h => lt_of_le_of_ne h.1 h.2)
  haveI : IsAntisymm serviceRecord (fun a b => a.Price < b.Price) :=
    ⟨fun a b h1 h2 => absurd h1 (not_lt.mpr (le_of_lt h2))⟩
  exact List.eq_of_perm_of_sorted (((S1.perm l1).trans hperm).trans (S2.perm l2).symm)
    (hstrict S1 l1 (List.Perm.refl _)) (hstrict S2 l2 hperm.symm)

/-- C27: with isOptimalInRegion = true and records of pairwise distinct prices,
getOptimalElse returns, and it returns the same optimal and the same else for
two lists that are permutations of each other, whatever the sort routine, the
random draw and the price coefficient of each call. -/
theorem getOptimalElse_perm_invariant (F1 F2 : FloatMul) (S1 S2 : PriceSorter) (rnd1 rnd2 : Nat)
    (l1 l2 : List serviceRecord) (priceCoeff1 priceCoeff2 : ℚ) (hperm : l1.Perm l2)
    (hd : (l1.map (fun r => r.Price)).Nodup) :
    ∃ optimal elses,
      getOptimalElse F1 S1 rnd1 l1 true priceCoeff1 = some (optimal, elses) ∧
      getOptimalElse F2 S2 rnd2 l2 true priceCoeff2 = some (optimal, elses) := by
  rw [getOptimalElse_true_eq, getOptimalElse_true_eq, sort_unique S1 S2 l1 l2 hperm hd]
  split
  · exact ⟨_, _, rfl, rfl⟩
  · exact ⟨_, _, rfl, rfl⟩

/-- Witness for C27: the records of prices 500, 100 and 200, the second one
flagged optimal, in two orders. -/
theorem getOptimalElse_perm_invariant_witness :
    ∃ optimal elses,
      getOptimalElse exactMul insertionSorter 0
          [sampleRecord 500 false, sampleRecord 100 true, sampleRecord 200 false] true (13 / 10)
        = some (optimal, elses) ∧
      getOptimalElse exactMul insertionSorter 7
          [sampleRecord 100 true, sampleRecord 500 false, sampleRecord 200 false] true (13 / 10)
        = some (optimal, elses) :=
  getOptimalElse_perm_invariant exactMul exactMul insertionSorter insertionSorter 0 7
    [sampleRecord 500 false, sampleRecord 100 true, sampleRecord 200 false]
    [sampleRecord 100 true, sampleRecord 500 false, sampleRecord 200 false] (13 / 10) (13 / 10)
    (List.Perm.swap _ _ _) (by decide)

/-! ## Parsing of a centroid -/

theorem isSpace_of_isReSpace (c : Char) (h : isReSpace c = true) : isSpace c = true := by
  unfold isReSpace at h
  unfold isSpace
  simp only [List.mem_cons, List.mem_singleton, List.not_mem_nil, or_false, Bool.or_eq_true,
    Bool.and_eq_true, decide_eq_true_eq] at h ⊢
  omega

theorem decimal_facts :
    ∀ c ∈ specDecimalChars, c.toLower = c ∧ c.toNat < 128 ∧ isReSpace c = false ∧
      isSpace c = false ∧ c ≠ '(' ∧ c ≠ ')' ∧ c ≠ ' ' := by
  decide

theorem letter_facts :
    ∀ l ∈ "point".data,
      (l.toLower = l ∧ l.toNat < 128 ∧ isReSpace l = false ∧ l ≠ '(' ∧ l ≠ ')') ∧
      (l.toUpper.toLower = l ∧ l.toUpper.toNat < 128 ∧ isReSpace l.toUpper = false ∧
        l.toUpper ≠ '(' ∧ l.toUpper ≠ ')') := by
  decide

theorem keyword_facts (T : TextLib) (kw ls : List Char)
    (hls : ∀ l ∈ ls, l ∈ "point".data)
    (h : List.Forall₂ (fun c l => c = l ∨ c = l.toUpper) kw ls) :
    kw.map T.ToLower = ls ∧
    ∀ c ∈ kw, isReSpace c = false ∧ c ≠ '(' ∧ c ≠ ')' := by
  induction h with
  | nil => simp
  | @cons c l kw ls hcl _ ih =>
    obtain ⟨ih1, ih2⟩ := ih (fun x hx => hls x (List.mem_cons_of_mem _ hx))
    obtain ⟨hl, hu⟩ := letter_facts l (hls l (List.mem_cons_self _ _))
    have hc : T.ToLower c = l ∧ isReSpace c = false ∧ c ≠ '(' ∧ c ≠ ')' := by
      rcases hcl with rfl | rfl
      · exact ⟨by rw [T.ToLower_ascii _ hl.2.1, hl.1], hl.2.2⟩
      · exact ⟨by rw [T.ToLower_ascii _ hu.2.1, hu.1], hu.2.2⟩
    refine ⟨by rw [List.map_cons, hc.1, ih1], ?_⟩
    intro x hx
    rcases List.mem_cons.mp hx with rfl | hx
    · exact hc.2
    · exact ih2 x hx

theorem trim_core (p : Char → Bool) (w1 w6 m : List Char) (a b : Char)
    (h1 : ∀ c ∈ w1, p c = true) (h6 : ∀ c ∈ w6, p c = true) (ha : p a = false)
    (hb : p b = false) :
    ((w1 ++ (a :: (m ++ b :: w6))).dropWhile p).rdropWhile p = a :: (m ++ [b]) := by
  rw [List.dropWhile_append_of_pos h1, List.dropWhile_cons_of_neg (by simp [ha])]
  have hrev : (a :: (m ++ b :: w6)).reverse = w6.reverse ++ (b :: (a :: m).reverse) := by
    simp
  have h6r : ∀ c ∈ w6.reverse, p c = true := fun c hc => h6 c (List.mem_reverse.mp hc)
  rw [List.rdropWhile, hrev, List.dropWhile_append_of_pos h6r,
    List.dropWhile_cons_of_neg (by simp [hb])]
  simp

theorem collapseLoop_blank (run w rest : List Char) (hw : ∀ c ∈ w, isReSpace c = true) :
    collapseLoop run (w ++ rest) = collapseLoop (run ++ w) rest := by
  induction w generalizing run with
  | nil => simp
  | cons c cs ih =>
    have hc : isReSpace c = true := hw c (List.mem_cons_self _ _)
    rw [List.cons_append, collapseLoop, if_pos hc,
      ih (run ++ [c]) (fun x hx => hw x (List.mem_cons_of_mem _ hx))]
    simp

theorem collapseLoop_char (run rest : List Char) (c : Char) (hc : isReSpace c = false) :
    collapseLoop run (c :: rest) = flushRun run ++ c :: collapseLoop [] rest := by
  rw [collapseLoop, if_neg (by simp [hc])]

theorem flushRun_nil : flushRun [] = [] := rfl

theorem collapseLoop_text (a rest : List Char) (ha : ∀ c ∈ a, isReSpace c = false) :
    collapseLoop [] (a ++ rest) = a ++ collapseLoop [] rest := by
  induction a with
  | nil => simp
  | cons c cs ih =>
    rw [List.cons_append, collapseLoop_char [] _ c (ha c (List.mem_cons_self _ _)),
      ih (fun x hx => ha x (List.mem_cons_of_mem _ hx)), flushRun_nil]
    simp

theorem collapseLoop_gap (w rest : List Char) (c : Char) (hw : ∀ x ∈ w, isReSpace x = true)
    (hc : isReSpace c = false) :
    collapseLoop [] (w ++ c :: rest) = flushRun w ++ c :: collapseLoop [] rest := by
  rw [collapseLoop_blank [] w _ hw, List.nil_append, collapseLoop_char w rest c hc]

theorem collapseLoop_gap_text (w a rest : List Char) (hw : ∀ x ∈ w, isReSpace x = true)
    (hne : a ≠ []) (ha : ∀ c ∈ a, isReSpace c = false) :
    collapseLoop [] (w ++ (a ++ rest)) = flushRun w ++ (a ++ collapseLoop [] rest) := by
  cases a with
  | nil => exact absurd rfl hne
  | cons c cs =>
    rw [List.cons_append, collapseLoop_gap w _ c hw (ha c (List.mem_cons_self _ _)),
      collapseLoop_text cs rest (fun x hx => ha x (List.mem_cons_of_mem _ hx))]
    simp

theorem flushRun_optGap (w : List Char) (h : specOptGap w) :
    (∀ c ∈ w, isReSpace c = true) ∧ (flushRun w = [] ∨ flushRun w = [' ']) := by
  rcases h with rfl | ⟨hb, rfl | hlen⟩
  · exact ⟨by simp, Or.inl rfl⟩
  · exact ⟨hb, Or.inr rfl⟩
  · exact ⟨hb, Or.inr (by rw [flushRun, if_pos hlen])⟩

theorem flushRun_gap (w : List Char) (h : specGap w) :
    (∀ c ∈ w, isReSpace c = true) ∧ flushRun w = [' '] := by
  rcases h with ⟨hb, rfl | hlen⟩
  · exact ⟨hb, rfl⟩
  · exact ⟨hb, by rw [flushRun, if_pos hlen]⟩

theorem splitChars_of_not_mem (sep : Char) (b : List Char) (h : sep ∉ b) :
    splitChars sep b = [b] := by
  induction b with
  | nil => rfl
  | cons c cs ih =>
    have hc : ¬ c = sep := fun e => h (e ▸ List.mem_cons_self _ _)
    rw [splitChars_cons, if_neg hc, ih (fun hm => h (List.mem_cons_of_mem _ hm))]

theorem splitChars_append_sep (sep : Char) (a b : List Char) (h : sep ∉ a) :
    splitChars sep (a ++ sep :: b) = a :: splitChars sep b := by
  induction a with
  | nil => simp [splitChars_cons]
  | cons c cs ih =>
    have hc : ¬ c = sep := fun e => h (e ▸ List.mem_cons_self _ _)
    rw [List.cons_append, splitChars_cons, if_neg hc,
      ih (fun hm => h (List.mem_cons_of_mem _ hm))]

theorem strIndex_append (P rest : List Char) (c : Char) (h : c ∉ P) :
    strIndex (P ++ c :: rest) c = (P.length : Int) := by
  unfold strIndex
  rw [if_pos (by simp), List.indexOf_append_of_not_mem h, List.indexOf_cons_self]
  simp

theorem strSlice_inner (P inner rest : List Char) (x : Char) :
    strSlice (P ++ x :: (inner ++ rest)) ((P.length : Int) + 1)
      (((P ++ x :: inner).length : Nat) : Int) = some inner := by
  unfold strSlice
  have hlen : ((P ++ x :: inner).length : Int) = (P.length : Int) + 1 + (inner.length : Int) := by
    simp; ring
  rw [hlen, if_pos (by simp; omega)]
  have h1 : ((P.length : Int) + 1).toNat = P.length + 1 := by omega
  have h2 : ((P.length : Int) + 1 + (inner.length : Int) - ((P.length : Int) + 1)).toNat
      = inner.length := by omega
  rw [h1, h2]
  have hd : (P ++ x :: (inner ++ rest)).drop (P.length + 1) = inner ++ rest := by
    rw [show P ++ x :: (inner ++ rest) = (P ++ [x]) ++ (inner ++ rest) by simp]
    rw [List.drop_append_of_le_length (by simp)]
    simp
  rw [hd]
  simp

theorem pointToLatLon_of_norm (T : TextLib) (s : String) (P inner lonStr latStr : List Char)
    (rest : List (List Char)) (lat lon : ℚ)
    (hN : normalCentroid T s = ("point".data ++ P) ++ '(' :: (inner ++ [')']))
    (hP1 : '(' ∉ P) (hP2 : ')' ∉ P) (hinner : ')' ∉ inner)
    (hsplit : splitChars ' ' (TrimSpace inner) = lonStr :: latStr :: rest)
    (hlat : T.ParseFloat (String.mk latStr) = .ok lat)
    (hlon : T.ParseFloat (String.mk lonStr) = .ok lon) :
    pointToLatLon T s = some (lat, lon, none) := by
  have hpre : "point".data.isPrefixOf (("point".data ++ P) ++ '(' :: (inner ++ [')'])) = true := by
    rw [List.isPrefixOf_iff_prefix, List.append_assoc]
    exact List.prefix_append _ _
  have hp1 : '(' ∉ "point".data ++ P := by
    intro h
    rcases List.mem_append.mp h with h | h
    · exact absurd h (by decide)
    · exact hP1 h
  have hp2 : ')' ∉ ("point".data ++ P) ++ '(' :: inner := by
    intro h
    rcases List.mem_append.mp h with h | h
    · rcases List.mem_append.mp h with h | h
      · exact absurd h (by decide)
      · exact hP2 h
    · rcases List.mem_cons.mp h with h | h
      · exact absurd h (by decide)
      · exact hinner h
  have hs : strIndex (("point".data ++ P) ++ '(' :: (inner ++ [')'])) '('
      = (("point".data ++ P).length : Int) := strIndex_append _ _ _ hp1
  have he : strIndex (("point".data ++ P) ++ '(' :: (inner ++ [')'])) ')'
      = ((("point".data ++ P) ++ '(' :: inner).length : Int) := by
    have := strIndex_append (("point".data ++ P) ++ '(' :: inner) [] ')' hp2
    rw [← this]
    congr 1
    simp
  have hsl := strSlice_inner ("point".data ++ P) inner [')'] '('
  unfold pointToLatLon
  simp only [hN, hpre, hs, he, hsl, hsplit, hlat, hlon, not_true_eq_false, if_false]
  rw [if_neg (by omega)]

theorem map_ToLower_decimal (T : TextLib) (s : List Char) (h : ∀ c ∈ s, c ∈ specDecimalChars) :
    s.map T.ToLower = s := by
  induction s with
  | nil => rfl
  | cons c cs ih =>
    obtain ⟨h1, h2, -⟩ := decimal_facts c (h c (List.mem_cons_self _ _))
    rw [List.map_cons, T.ToLower_ascii c h2, h1, ih (fun x hx => h x (List.mem_cons_of_mem _ hx))]

theorem ToLower_marks (T : TextLib) :
    T.ToLower ' ' = ' ' ∧ T.ToLower '(' = '(' ∧ T.ToLower ')' = ')' :=
  ⟨by rw [T.ToLower_ascii _ (by decide)]; decide, by rw [T.ToLower_ascii _ (by decide)]; decide,
    by rw [T.ToLower_ascii _ (by decide)]; decide⟩

theorem map_ToLower_flush (T : TextLib) (g : List Char) (h : g = [] ∨ g = [' ']) :
    g.map T.ToLower = g := by
  rcases h with rfl | rfl
  · rfl
  · rw [List.map_cons, (ToLower_marks T).1]
    rfl

theorem flush_facts (g : List Char) (h : g = [] ∨ g = [' ']) :
    '(' ∉ g ∧ ')' ∉ g ∧ ∀ c ∈ g, isSpace c = true := by
  rcases h with rfl | rfl
  · simp
  · exact ⟨by decide, by decide, by decide⟩

theorem pointToLatLon_centroid (T : TextLib) (w1 kw w2 w3 lonS w4 latS w5 w6 : List Char)
    (lon lat : ℚ) (hkw : specKeyword kw) (h1 : specBlank w1) (h2 : specOptGap w2)
    (h3 : specOptGap w3) (hlonS : specDecimal lonS) (h4 : specGap w4) (hlatS : specDecimal latS)
    (h5 : specOptGap w5) (h6 : specBlank w6)
    (hplon : T.ParseFloat (String.mk lonS) = .ok lon)
    (hplat : T.ParseFloat (String.mk latS) = .ok lat) :
    pointToLatLon T (specCentroid w1 kw w2 w3 lonS w4 latS w5 w6) = some (lat, lon, none) := by
  obtain ⟨hkmap, hkfacts⟩ := keyword_facts T kw "point".data (fun l h => h) hkw
  obtain ⟨hb2, hg2⟩ := flushRun_optGap w2 h2
  obtain ⟨hb3, hg3⟩ := flushRun_optGap w3 h3
  obtain ⟨hb5, hg5⟩ := flushRun_optGap w5 h5
  obtain ⟨hb4, hg4⟩ := flushRun_gap w4 h4
  obtain ⟨hlon_ne, hlon_dec⟩ := hlonS
  obtain ⟨hlat_ne, hlat_dec⟩ := hlatS
  have hlon_ns : ∀ c ∈ lonS, isReSpace c = false := fun c hc => (decimal_facts c (hlon_dec c hc)).2.2.1
  have hlat_ns : ∀ c ∈ latS, isReSpace c = false := fun c hc => (decimal_facts c (hlat_dec c hc)).2.2.1
  have hkw_ns : ∀ c ∈ kw, isReSpace c = false := fun c hc => (hkfacts c hc).1
  -- the keyword is not empty
  cases kw with
  | nil =>
    have hnil : ([] : List Char) = "point".data := hkmap
    exact absurd hnil (by decide)
  | cons k0 kt =>
  -- leading and trailing whitespace
  have htrim : trimLeadClose (specCentroid w1 (k0 :: kt) w2 w3 lonS w4 latS w5 w6).data
      = (k0 :: kt) ++ (w2 ++ ('(' :: (w3 ++ (lonS ++ (w4 ++ (latS ++ (w5 ++ [')']))))))) := by
    have := trim_core isReSpace w1 w6
      (kt ++ (w2 ++ ('(' :: (w3 ++ (lonS ++ (w4 ++ (latS ++ w5))))))) k0 ')' h1 h6
      (hkw_ns k0 (List.mem_cons_self _ _)) (by decide)
    unfold trimLeadClose specCentroid
    simp only [List.append_assoc, List.cons_append] at this ⊢
    exact this
  -- runs of whitespace inside
  have hcoll : collapseLoop []
      ((k0 :: kt) ++ (w2 ++ ('(' :: (w3 ++ (lonS ++ (w4 ++ (latS ++ (w5 ++ [')']))))))))
      = (k0 :: kt) ++ (flushRun w2 ++ ('(' :: (flushRun w3 ++ (lonS ++ (' ' :: (latS ++
          (flushRun w5 ++ [')']))))))) := by
    rw [collapseLoop_text _ _ hkw_ns, collapseLoop_gap w2 _ '(' hb2 (by decide),
      collapseLoop_gap_text w3 lonS _ hb3 hlon_ne hlon_ns,
      collapseLoop_gap_text w4 latS _ hb4 hlat_ne hlat_ns,
      collapseLoop_gap w5 [] ')' hb5 (by decide), hg4]
    rfl
  -- letter case
  have hN : normalCentroid T (specCentroid w1 (k0 :: kt) w2 w3 lonS w4 latS w5 w6)
      = ("point".data ++ flushRun w2) ++
          '(' :: ((flushRun w3 ++ (lonS ++ (' ' :: (latS ++ flushRun w5)))) ++ [')']) := by
    show (collapseLoop []
      (trimLeadClose (specCentroid w1 (k0 :: kt) w2 w3 lonS w4 latS w5 w6).data)).map T.ToLower
      = _
    rw [htrim, hcoll, List.map_append, hkmap]
    generalize "point".data = pt
    simp only [List.map_append, List.map_cons, List.map_nil, map_ToLower_flush T _ hg2,
      map_ToLower_flush T _ hg3, map_ToLower_flush T _ hg5, map_ToLower_decimal T _ hlon_dec,
      map_ToLower_decimal T _ hlat_dec, (ToLower_marks T).1, (ToLower_marks T).2.1,
      (ToLower_marks T).2.2, List.append_assoc, List.cons_append]
  obtain ⟨f21, f22, -⟩ := flush_facts _ hg2
  obtain ⟨-, f32, f33⟩ := flush_facts _ hg3
  obtain ⟨-, f52, f53⟩ := flush_facts _ hg5
  have hinner : ')' ∉ flushRun w3 ++ (lonS ++ (' ' :: (latS ++ flushRun w5))) := by
    simp only [List.mem_append, List.mem_cons, not_or]
    refine ⟨f32, fun h => (decimal_facts _ (hlon_dec _ h)).2.2.2.2.2.1 rfl, by decide,
      fun h => (decimal_facts _ (hlat_dec _ h)).2.2.2.2.2.1 rfl, f52⟩
  -- the text between the brackets
  obtain ⟨a, t, rfl⟩ := List.exists_cons_of_ne_nil hlon_ne
  obtain ⟨u, b, rfl⟩ : ∃ u b, latS = u ++ [b] :=
    ⟨latS.dropLast, latS.getLast hlat_ne, (List.dropLast_append_getLast hlat_ne).symm⟩
  have hTrim : TrimSpace (flushRun w3 ++ ((a :: t) ++ (' ' :: ((u ++ [b]) ++ flushRun w5))))
      = (a :: t) ++ ' ' :: (u ++ [b]) := by
    have := trim_core isSpace (flushRun w3) (flushRun w5) (t ++ ' ' :: u) a b f33 f53
      (decimal_facts a (hlon_dec a (List.mem_cons_self _ _))).2.2.2.1
      (decimal_facts b (hlat_dec b (by simp))).2.2.2.1
    unfold TrimSpace
    simp only [List.append_assoc, List.cons_append, List.nil_append] at this ⊢
    exact this
  have hsplit : splitChars ' '
      (TrimSpace (flushRun w3 ++ ((a :: t) ++ (' ' :: ((u ++ [b]) ++ flushRun w5)))))
      = (a :: t) :: (u ++ [b]) :: [] := by
    rw [hTrim, splitChars_append_sep ' ' (a :: t) (u ++ [b])
        (fun h => (decimal_facts _ (hlon_dec _ h)).2.2.2.2.2.2 rfl),
      splitChars_of_not_mem ' ' (u ++ [b])
        (fun h => (decimal_facts _ (hlat_dec _ h)).2.2.2.2.2.2 rfl)]
  exact pointToLatLon_of_norm T _ (flushRun w2) _ (a :: t) (u ++ [b]) [] lat lon hN f21 f22
    hinner hsplit hplat hplon

theorem specKeyword_upper : specKeyword "POINT".data := by
  show List.Forall₂ _ ['P', 'O', 'I', 'N', 'T'] ['p', 'o', 'i', 'n', 't']
  exact .cons (Or.inr (by decide)) (.cons (Or.inr (by decide)) (.cons (Or.inr (by decide))
    (.cons (Or.inr (by decide)) (.cons (Or.inr (by decide)) .nil))))

/-- C22: for the texts of two decimal numbers that ParseFloat reads as lon and
lat, pointToLatLon applied to "POINT(<lon> <lat>)" returns (lat, lon) without
error, the latitude first, read from the second number. The result is the same
when each letter of the keyword is written in either case, when whitespace
stands before the keyword or after the closing bracket, and when one space or
repeated whitespace stands between the two numbers, around the brackets or
before the opening bracket. -/
theorem pointToLatLon_roundtrip (T : TextLib) (lonS latS : List Char) (lon lat : ℚ)
    (hlonS : specDecimal lonS) (hlatS : specDecimal latS)
    (hplon : T.ParseFloat (String.mk lonS) = .ok lon)
    (hplat : T.ParseFloat (String.mk latS) = .ok lat) :
    pointToLatLon T (String.mk ("POINT(".data ++ (lonS ++ ' ' :: (latS ++ [')']))))
      = some (lat, lon, none) ∧
    ∀ w1 kw w2 w3 w4 w5 w6, specBlank w1 → specKeyword kw → specOptGap w2 → specOptGap w3 →
      specGap w4 → specOptGap w5 → specBlank w6 →
      pointToLatLon T (specCentroid w1 kw w2 w3 lonS w4 latS w5 w6) = some (lat, lon, none) := by
  constructor
  · exact pointToLatLon_centroid T [] "POINT".data [] [] lonS [' '] latS [] [] lon lat
      specKeyword_upper (by simp [specBlank]) (Or.inl rfl) (Or.inl rfl) hlonS
      ⟨fun c hc => by rw [List.mem_singleton.mp hc]; decide, Or.inl rfl⟩ hlatS (Or.inl rfl) (by simp [specBlank]) hplon hplat
  · intro w1 kw w2 w3 w4 w5 w6 h1 hkw h2 h3 h4 h5 h6
    exact pointToLatLon_centroid T w1 kw w2 w3 lonS w4 latS w5 w6 lon lat hkw h1 h2 h3 hlonS h4
      hlatS h5 h6 hplon hplat

/-- Witness for C22: the numbers 37 and 55. -/
theorem pointToLatLon_roundtrip_witness :
    pointToLatLon sampleText (String.mk ("POINT(".data ++ ("37".data ++ ' ' :: ("55".data ++ [')']))))
      = some (55, 37, none) ∧
    ∀ w1 kw w2 w3 w4 w5 w6, specBlank w1 → specKeyword kw → specOptGap w2 → specOptGap w3 →
      specGap w4 → specOptGap w5 → specBlank w6 →
      pointToLatLon sampleText (specCentroid w1 kw w2 w3 "37".data w4 "55".data w5 w6)
        = some (55, 37, none) :=
  pointToLatLon_roundtrip sampleText "37".data "55".data 37 55 ⟨by decide, by decide⟩
    ⟨by decide, by decide⟩ (by simp [sampleText, sampleDigits]) (by simp [sampleText, sampleDigits])

theorem pointToLatLon_tests :
    pointToLatLon sampleText "  PoInT  ( 37   55 )  " = some (55, 37, none) ∧
    pointToLatLon sampleText "POINT 37.61077 55.750524"
      = some (0, 0, some ((Error.new .ErrNotPoint).Wrap "( and/or ) not found")) ∧
    pointToLatLon sampleText "POINT (37.6107755.750524)"
      = some (0, 0, some ((Error.new .ErrNotPoint).Wrap "Wrong coord format")) ∧
    pointToLatLon sampleText "LINE(37 55)"
      = some (0, 0, some ((Error.new .ErrNotPoint).Wrap "POINT keyword not found")) := by
  refine ⟨?_, ?_, ?_, ?_⟩ <;> decide!

theorem indexOf_ne_of_ne (l : List Char) (a b : Char) (hab : a ≠ b) (ha : a ∈ l) :
    l.indexOf a ≠ l.indexOf b := by
  induction l with
  | nil => simp at ha
  | cons x xs ih =>
    by_cases hxa : x = a
    · subst hxa
      rw [List.indexOf_cons_self, List.indexOf_cons_ne _ hab]
      omega
    · have hmem : a ∈ xs := by
        rcases List.mem_cons.mp ha with h | h
        · exact absurd h.symm hxa
        · exact h
      rw [List.indexOf_cons_ne _ hxa]
      by_cases hxb : x = b
      · subst hxb
        rw [List.indexOf_cons_self]
        omega
      · rw [List.indexOf_cons_ne _ hxb]
        have := ih hmem
        omega

theorem strSlice_none_iff (c : List Char) (hs : '(' ∈ c) (he : ')' ∈ c) :
    strSlice c (strIndex c '(' + 1) (strIndex c ')') = none ↔
      c.indexOf ')' < c.indexOf '(' := by
  unfold strSlice strIndex
  rw [if_pos hs, if_pos he]
  have hle : c.indexOf ')' ≤ c.length := List.indexOf_le_length
  have hne := indexOf_ne_of_ne c '(' ')' (by decide) hs
  constructor
  · intro h
    by_contra hlt
    rw [if_pos (by omega)] at h
    simp at h
  · intro h
    rw [if_neg (by omega)]

theorem pointToLatLon_none_iff (T : TextLib) (centroid : String) :
    pointToLatLon T centroid = none ↔
      ("point".data.isPrefixOf (normalCentroid T centroid) = true ∧
        '(' ∈ normalCentroid T centroid ∧ ')' ∈ normalCentroid T centroid ∧
        (normalCentroid T centroid).indexOf ')' < (normalCentroid T centroid).indexOf '(') := by
  unfold pointToLatLon
  generalize normalCentroid T centroid = c
  by_cases hp : "point".data.isPrefixOf c = true
  · simp only [hp, not_true_eq_false, if_false, true_and]
    by_cases hs : '(' ∈ c
    · by_cases he : ')' ∈ c
      · have h1 : ¬ (strIndex c '(' = -1 ∨ strIndex c ')' = -1) := by
          unfold strIndex
          rw [if_pos hs, if_pos he]
          omega
        rw [if_neg h1, ← strSlice_none_iff c hs he]
        simp only [hs, he, true_and]
        cases hsl : strSlice c (strIndex c '(' + 1) (strIndex c ')') with
        | none => simp
        | some inner =>
          simp only [reduceCtorEq, iff_false]
          split
          · split
            · simp
            · split <;> simp
          · simp
      · have h1 : strIndex c '(' = -1 ∨ strIndex c ')' = -1 := by
          right
          unfold strIndex
          rw [if_neg he]
        rw [if_pos h1]
        simp [he]
    · have h1 : strIndex c '(' = -1 ∨ strIndex c ')' = -1 := by
        left
        unfold strIndex
        rw [if_neg hs]
      rw [if_pos h1]
      simp [hs]
  · simp [hp]

theorem pointToLatLon_errors (T : TextLib) (centroid : String) :
    ("point".data.isPrefixOf (normalCentroid T centroid) = false →
      pointToLatLon T centroid
        = some (0, 0, some ((Error.new .ErrNotPoint).Wrap "POINT keyword not found"))) ∧
    ("point".data.isPrefixOf (normalCentroid T centroid) = true →
      ('(' ∉ normalCentroid T centroid ∨ ')' ∉ normalCentroid T centroid) →
      pointToLatLon T centroid
        = some (0, 0, some ((Error.new .ErrNotPoint).Wrap "( and/or ) not found"))) ∧
    (∀ inner, "point".data.isPrefixOf (normalCentroid T centroid) = true →
      '(' ∈ normalCentroid T centroid → ')' ∈ normalCentroid T centroid →
      strSlice (normalCentroid T centroid) (strIndex (normalCentroid T centroid) '(' + 1)
        (strIndex (normalCentroid T centroid) ')') = some inner →
      (splitChars ' ' (TrimSpace inner)).length < 2 →
      pointToLatLon T centroid
        = some (0, 0, some ((Error.new .ErrNotPoint).Wrap "Wrong coord format"))) := by
  unfold pointToLatLon
  generalize normalCentroid T centroid = c
  refine ⟨?_, ?_, ?_⟩
  · intro hp
    simp [hp]
  · intro hp hb
    have h1 : strIndex c '(' = -1 ∨ strIndex c ')' = -1 := by
      unfold strIndex
      rcases hb with hb | hb
      · left; rw [if_neg hb]
      · right; rw [if_neg hb]
    simp only [hp, not_true_eq_false, if_false, if_pos h1]
  · intro inner hp hs he hsl hlen
    have h1 : ¬ (strIndex c '(' = -1 ∨ strIndex c ')' = -1) := by
      unfold strIndex
      rw [if_pos hs, if_pos he]
      omega
    simp only [hp, not_true_eq_false, if_false, if_neg h1, hsl]
    match hsp : splitChars ' ' (TrimSpace inner) with
    | [] => rfl
    | [_] => rfl
    | a :: b :: rest =>
      rw [hsp] at hlen
      simp only [List.length_cons] at hlen
      omega

/-- C23: pointToLatLon faults exactly when the text, after the removal of
whitespace and in small letters, starts with "point" and holds both brackets with
the closing bracket before the opening one: the slice between the brackets then
has its bounds out of range, as for "POINT)(". On any other text it returns
coordinates or an error; the error has the cause ErrNotPoint when the text does
not start with "point", lacks a bracket, or has fewer than two parts separated by
a space between the brackets. -/
theorem pointToLatLon_reversed_brackets (T : TextLib) (centroid : String) :
    (pointToLatLon T centroid = none ↔
      ("point".data.isPrefixOf (normalCentroid T centroid) = true ∧
        '(' ∈ normalCentroid T centroid ∧ ')' ∈ normalCentroid T centroid ∧
        (normalCentroid T centroid).indexOf ')' < (normalCentroid T centroid).indexOf '(')) ∧
    ("point".data.isPrefixOf (normalCentroid T centroid) = false →
      pointToLatLon T centroid
        = some (0, 0, some ((Error.new .ErrNotPoint).Wrap "POINT keyword not found"))) ∧
    ("point".data.isPrefixOf (normalCentroid T centroid) = true →
      ('(' ∉ normalCentroid T centroid ∨ ')' ∉ normalCentroid T centroid) →
      pointToLatLon T centroid
        = some (0, 0, some ((Error.new .ErrNotPoint).Wrap "( and/or ) not found"))) ∧
    (∀ inner, "point".data.isPrefixOf (normalCentroid T centroid) = true →
      '(' ∈ normalCentroid T centroid → ')' ∈ normalCentroid T centroid →
      strSlice (normalCentroid T centroid) (strIndex (normalCentroid T centroid) '(' + 1)
        (strIndex (normalCentroid T centroid) ')') = some inner →
      (splitChars ' ' (TrimSpace inner)).length < 2 →
      pointToLatLon T centroid
        = some (0, 0, some ((Error.new .ErrNotPoint).Wrap "Wrong coord format"))) ∧
    pointToLatLon sampleText "POINT)(" = none ∧
    pointToLatLon sampleText " Point )37 55( " = none := by
  obtain ⟨h1, h2, h3⟩ := pointToLatLon_errors T centroid
  exact ⟨pointToLatLon_none_iff T centroid, h1, h2, h3, by decide!, by decide!⟩
end Taxi
